import Mathlib

/-! xinit: device-rights evaluator, privilege gate, supervisor, configuration

A shallow embedding of the rights evaluation of `src/util.c`
(`dev_has_rights`, the per-class scans, `handle_auto_rights`, `check_rights`,
`is_user_allowed`, `drop_user_privileges`), of the process supervision of
`src/xinit.c` (`processTimeout`, `waitforserver`, `startServer`, `shutdown`),
of the configuration parser of `src/util.c` (`parse_config` with its string
helpers, `add_args`, `find_free_display`) and of `main`, together with the
properties the specification states about them.

Conventions of the embedding:

* C `int` verdicts stay integers: `Granted` is C `True` (1), `Denied` is C
  `False` (0) and `DIE` is -1, exactly as in `util.h`; C truthiness
  `if (x)` is `x ≠ 0`.
* The kernel is an explicit `World`: what `stat`, `open`, the `ioctl`s and
  `chmod` answer for each device node.  Every function returns, next to its
  verdict, the list of system calls it performed, in order.
* The three tests `errno == EACCES` of `util.c` come after a call of `debug`,
  which writes to `stderr` when `FlagDebug` is set.  The value they read is
  `errno_after_debug`, and the read is part of the list of calls.
* `for` loops are recursive functions on the number of remaining iterations.
* A pointer into a buffer or an array is a position: the line buffer of
  `parse_config` is a list of bytes, a store `*p = 0` is `List.set`, and a
  string is the list of bytes up to the first NUL.  A step that C leaves
  undefined (a store outside the buffer, a null pointer read as a string) is
  a result of its own.
-/

namespace Xinit

/-! ## Constants of `util.h`, `util.c` and the system headers -/

/-- C `True` of `util.h`: the verdict "access granted". -/
abbrev Granted : Int := 1

/-- C `False` of `util.h`: the verdict "access denied". -/
abbrev Denied : Int := 0

/-- The sentinel `DIE` of `util.h`: an unrecoverable error. -/
abbrev DIE : Int := -1

/-- The errno value `EACCES` of Linux. -/
abbrev EACCES : Nat := 13

/-- Owner read permission bit of `st_mode`. -/
abbrev S_IRUSR : Nat := 0o400
/-- Owner write permission bit of `st_mode`. -/
abbrev S_IWUSR : Nat := 0o200
/-- Group read permission bit of `st_mode`. -/
abbrev S_IRGRP : Nat := 0o040
/-- Group write permission bit of `st_mode`. -/
abbrev S_IWGRP : Nat := 0o020
/-- Others read permission bit of `st_mode`. -/
abbrev S_IROTH : Nat := 0o004
/-- Others write permission bit of `st_mode`. -/
abbrev S_IWOTH : Nat := 0o002

/-- The enum `Allowed` of `util.c`. -/
inductive Allowed where
  | RootOnly
  | ConsoleOnly
  | Anybody
deriving DecidableEq, Repr

/-- The enumerator `FlagDropRoot = 1 << 0`. -/
abbrev FlagDropRoot : Nat := 1
/-- The enumerator `FlagDropRootAuto = 1 << 1`. -/
abbrev FlagDropRootAuto : Nat := 2
/-- The enumerator `FlagDebug = 1 << 2`. -/
abbrev FlagDebug : Nat := 4
/-- The enumerator `FlagAllowChmod = 1 << 3`. -/
abbrev FlagAllowChmod : Nat := 8

/-- The two configuration globals of `util.c` the evaluator reads:
`u_flags` (a bit set of `Flags`) and `allowed`. -/
structure Config where
  u_flags : Nat
  allowed : Allowed
deriving DecidableEq, Repr

/-- The initial values of the globals:
`u_flags = FlagAllowChmod | FlagDropRootAuto`, `allowed = ConsoleOnly`. -/
def Config.initial : Config :=
  ⟨FlagAllowChmod ||| FlagDropRootAuto, Allowed.ConsoleOnly⟩

/-! ## The kernel as seen by the evaluator -/

/-- The fields of `struct stat` the evaluator reads. -/
structure Stat where
  st_mode : Nat
  st_uid : Nat
  st_gid : Nat
deriving DecidableEq, Repr

/-- The device nodes the evaluator names: `/dev/fb%d`, `/dev/tty%d`,
`/dev/input/event%d` and `/dev/dri/card%d`. -/
inductive Dev where
  | fb (idx : Nat)
  | tty (idx : Nat)
  | event (idx : Nat)
  | card (idx : Nat)
deriving DecidableEq, Repr

/-- Outcome of a system call that yields no data: success, or -1 with an
errno value. -/
inductive SysResult where
  | ok
  | err (errno : Nat)
deriving DecidableEq, Repr

/-- One step of the evaluator that the properties speak of: a system call
with its outcome, or a read of `errno` with the value found. -/
inductive Event where
  | stat (dev : Dev) (r : Option Stat)
  | fstat (dev : Dev) (r : Option Stat)
  | open_rdonly (dev : Dev) (r : SysResult)
  | close (dev : Dev)
  | vt_getstate (r : Option (Nat × Nat))
  | drm_set_master (idx : Nat) (r : SysResult)
  | drm_drop_master (idx : Nat) (r : SysResult)
  | chmod (dev : Dev) (mode : Nat) (ok : Bool)
  | get_user_groups (uid : Nat) (r : Option (List Nat))
  | errno_read (value : Nat)
deriving DecidableEq, Repr

/-- The answers of the kernel, of the identity database and of the C
library.
`stat` serves both `stat (path)` and `fstat (fd)` on a descriptor opened on
that node (`none` is the return value -1); `vt_getstate` is the
`VT_GETSTATE` ioctl on tty0, giving `(v_active, v_state)`; `chmod dev mode`
tells whether `chmod` succeeds; `user_groups uid` is the group list that
`getpwuid` and `getgrouplist` produce (`none` when `get_user_groups` returns
`NULL`).  `stderr_errno call` is what the output of `debug` on `stderr`
(`fprintf`, `vfprintf`, `strerror`) does to `errno` when it follows the
failed call `call`: `some e` when it leaves the value `e` there, `none` when
it leaves `errno` as the failed call has set it. -/
structure World where
  stat : Dev → Option Stat
  open_rdonly : Dev → SysResult
  vt_getstate : Option (Nat × Nat)
  drm_set_master : Nat → SysResult
  drm_drop_master : Nat → SysResult
  chmod : Dev → Nat → Bool
  user_groups : Nat → Option (List Nat)
  stderr_errno : Event → Option Nat

/-- The value of `errno` that the test `errno == EACCES` reads.  The code
calls `debug` between the failed call, which has set `errno` to `e`, and the
test: with `FlagDebug` clear `debug` returns at once, with `FlagDebug` set it
writes to `stderr` first. -/
def errno_after_debug (cfg : Config) (w : World) (call : Event) (e : Nat) : Nat :=
  if cfg.u_flags &&& FlagDebug = 0 then e else (w.stderr_errno call).getD e

/-! ## `dev_has_rights` and its helpers -/

/-- The function `check_user_rights` of `util.c`. -/
def check_user_rights (st : Stat) (uid : Nat) (read write : Bool) : Bool :=
  if st.st_uid ≠ uid then false
  else if read ∧ st.st_mode &&& S_IRUSR = 0 then false
  else if write ∧ st.st_mode &&& S_IWUSR = 0 then false
  else true

/-- The loop of `group_list_find`, started at index `idx`. -/
def group_list_find_from : List Nat → Nat → Nat → Int
  | [], _, _ => -1
  | g :: rest, idx, value =>
    if g = value then (idx : Int) else group_list_find_from rest (idx + 1) value

/-- The function `group_list_find` of `util.c`: index of the first
occurrence of `value`, or -1.  The list stands for `grouplist[0..ngroups-1]`. -/
def group_list_find (grouplist : List Nat) (value : Nat) : Int :=
  group_list_find_from grouplist 0 value

/-- The function `check_group_rights` of `util.c`. -/
def check_group_rights (st : Stat) (grouplist : List Nat) (read write : Bool) : Bool :=
  if group_list_find grouplist st.st_gid = -1 then false
  else if read ∧ st.st_mode &&& S_IRGRP = 0 then false
  else if write ∧ st.st_mode &&& S_IWGRP = 0 then false
  else true

/-- The function `check_other_rights` of `util.c`. -/
def check_other_rights (st : Stat) (read write : Bool) : Bool :=
  if read ∧ st.st_mode &&& S_IROTH = 0 then false
  else if write ∧ st.st_mode &&& S_IWOTH = 0 then false
  else true

/-- The metadata call of `dev_has_rights`: `fstat (fd)` when a descriptor is
passed (`fd != -1`, here `true`), else `stat (dev)`. -/
def stat_event (w : World) (dev : Dev) (fd : Bool) : Event :=
  if fd then Event.fstat dev (w.stat dev) else Event.stat dev (w.stat dev)

/-- The function `dev_has_rights` of `util.c`.  `fd` tells whether an open
descriptor on `dev` is passed (`fd != -1`). -/
def dev_has_rights (w : World) (uid : Nat) (grouplist : List Nat) (dev : Dev) (fd : Bool)
    (read write : Bool) : Int × List Event :=
  match w.stat dev with
  | none => (DIE, [stat_event w dev fd])
  | some st =>
    if check_other_rights st read write then (Granted, [stat_event w dev fd])
    else if check_user_rights st uid read write then (Granted, [stat_event w dev fd])
    else if check_group_rights st grouplist read write then (Granted, [stat_event w dev fd])
    else (Denied, [stat_event w dev fd])

/-! ## `is_user_allowed` -/

/-- The function `is_user_allowed` of `util.c`; the policy `allowed` is read
from the configuration. -/
def is_user_allowed (cfg : Config) (uid : Nat) : Int :=
  if cfg.allowed = Allowed.Anybody ∨ uid = 0 then Granted
  else if cfg.allowed = Allowed.RootOnly then Denied
  else Granted

/-! ## Device names -/

/-- The number that `snprintf (buf, sizeof (NAME), NAME, idx)` leaves in the
buffer: every name buffer of `util.c` is `sizeof ("...%d")` bytes long, which
is room for exactly two digits, so a longer number is cut to its two leading
digits.  The argument is below 65536 everywhere (`v_active` is an
`unsigned short`, the loop indices are below 32). -/
def snprintf_idx (idx : Nat) : Nat :=
  if idx < 100 then idx
  else if idx < 1000 then idx / 10
  else if idx < 10000 then idx / 100
  else idx / 1000

/-- The node named by `snprintf (tty_name, TTY_DEV_LENGTH, TTY_DEV_NAME, idx)`. -/
def tty_name (idx : Nat) : Dev := Dev.tty (snprintf_idx idx)

/-! ## Console devices -/

/-- The file-type bits `S_IFMT` of `st_mode`, which `chmod` never changes. -/
abbrev S_IFMT : Nat := 0o170000

/-- The kernel state after a successful `chmod (dev, mode)`: the permission
bits (the low twelve) of that node become those of `mode`; nothing else
changes. -/
def World.after_chmod (w : World) (dev : Dev) (mode : Nat) : World :=
  { w with
    stat := fun d =>
      if d = dev then
        (w.stat d).map fun st =>
          { st with st_mode := (st.st_mode &&& S_IFMT) ||| (mode &&& 0o7777) }
      else w.stat d }

/-- Verdict, system calls performed and resulting kernel state of a function
that may change a device node. -/
structure Outcome where
  ret : Int
  trace : List Event
  world : World

/-- The function `tty_dev_chmod` of `util.c`. -/
def tty_dev_chmod (w : World) (idx : Nat) : Outcome :=
  match w.stat (tty_name idx) with
  | none => ⟨DIE, [Event.stat (tty_name idx) none], w⟩
  | some st =>
    let mode := st.st_mode ||| (S_IRGRP ||| S_IWGRP)
    if w.chmod (tty_name idx) mode then
      ⟨Granted, [Event.stat (tty_name idx) (some st), Event.chmod (tty_name idx) mode true],
        w.after_chmod (tty_name idx) mode⟩
    else
      ⟨DIE, [Event.stat (tty_name idx) (some st), Event.chmod (tty_name idx) mode false], w⟩

/-- The function `tty_zero_dev_has_rights` of `util.c`.  The components are
the return value, the value left in `*vstate` and the calls performed.
`*vstate` is written only on the path that returns `v_active`; on the other
paths the component is 0 and the caller does not read it.  `v_active` and
`v_state` are `unsigned short`.  After a failed `open` the code calls
`debug` and then tests `errno`. -/
def tty_zero_dev_has_rights (cfg : Config) (w : World) (uid : Nat) (grouplist : List Nat) :
    Int × Nat × List Event :=
  match w.open_rdonly (tty_name 0) with
  | SysResult.err e =>
    (if errno_after_debug cfg w (Event.open_rdonly (tty_name 0) (SysResult.err e)) e = EACCES
      then Denied else DIE, 0,
      [Event.open_rdonly (tty_name 0) (SysResult.err e),
       Event.errno_read
         (errno_after_debug cfg w (Event.open_rdonly (tty_name 0) (SysResult.err e)) e)])
  | SysResult.ok =>
    let r := dev_has_rights w uid grouplist (tty_name 0) true false true
    if r.1 ≠ Granted then
      (r.1, 0, Event.open_rdonly (tty_name 0) SysResult.ok :: r.2)
    else
      match w.vt_getstate with
      | none =>
        (DIE, 0, Event.open_rdonly (tty_name 0) SysResult.ok :: r.2 ++
          [Event.vt_getstate none, Event.close (tty_name 0)])
      | some vts =>
        (((vts.1 % 65536 : Nat) : Int), vts.2 % 65536,
          Event.open_rdonly (tty_name 0) SysResult.ok :: r.2 ++
          [Event.vt_getstate (some vts), Event.close (tty_name 0)])

/-- The loop of `events_have_rights` with `n` iterations left, at index `idx`. -/
def events_loop (w : World) (uid : Nat) (grouplist : List Nat) :
    Nat → Nat → Int × List Event
  | 0, _ => (Denied, [])
  | n + 1, idx =>
    let r := dev_has_rights w uid grouplist (Dev.event idx) false true false
    if r.1 = DIE then (DIE, r.2)
    else if r.1 ≠ 0 then (Granted, r.2)
    else ((events_loop w uid grouplist n (idx + 1)).1,
          r.2 ++ (events_loop w uid grouplist n (idx + 1)).2)

/-- The function `events_have_rights` of `util.c`: indices 0..31. -/
def events_have_rights (w : World) (uid : Nat) (grouplist : List Nat) : Int × List Event :=
  events_loop w uid grouplist 32 0

/-- The end of `ttys_have_rights`, after the scan loop: the chmod repair of
the first free console `vtfree` (-1 when there is none). -/
def ttys_after_loop (cfg : Config) (w : World) (vtfree : Int) : Outcome :=
  if cfg.u_flags &&& FlagAllowChmod ≠ 0 ∧ vtfree ≠ -1 then tty_dev_chmod w vtfree.toNat
  else ⟨Denied, [], w⟩

/-- The scan loop of `ttys_have_rights` with `n` iterations left, at index
`idx` with `mask = 1 << idx`, followed by the code after the loop.  `vtfree`
is -1 or the first free index seen so far. -/
def ttys_loop (cfg : Config) (w : World) (uid : Nat) (grouplist : List Nat) (vstate : Nat) :
    Nat → Nat → Nat → Int → Outcome
  | 0, _, _, vtfree => ttys_after_loop cfg w vtfree
  | n + 1, idx, mask, vtfree =>
    if vstate &&& mask ≠ 0 then
      ttys_loop cfg w uid grouplist vstate n (idx + 1) (mask <<< 1) vtfree
    else
      let r := dev_has_rights w uid grouplist (tty_name idx) false true true
      if r.1 = DIE then ⟨DIE, r.2, w⟩
      else if r.1 ≠ 0 then ⟨Granted, r.2, w⟩
      else
        let k := ttys_loop cfg w uid grouplist vstate n (idx + 1) (mask <<< 1)
          (if vtfree = -1 then (idx : Int) else vtfree)
        ⟨k.ret, r.2 ++ k.trace, k.world⟩

/-- The function `ttys_have_rights` of `util.c`. -/
def ttys_have_rights (cfg : Config) (w : World) (uid : Nat) (grouplist : List Nat)
    (shareVTs : Bool) : Outcome :=
  let z := tty_zero_dev_has_rights cfg w uid grouplist
  if z.1 = DIE then ⟨DIE, z.2.2, w⟩
  else if z.1 = 0 then ⟨Denied, z.2.2, w⟩
  else if shareVTs then
    let r := dev_has_rights w uid grouplist (tty_name z.1.toNat) false true true
    ⟨r.1, z.2.2 ++ r.2, w⟩
  else
    let k := ttys_loop cfg w uid grouplist z.2.1 15 1 (1 <<< 1) (-1)
    ⟨k.ret, z.2.2 ++ k.trace, k.world⟩

/-! ## Graphics devices -/

/-- The loop of `fbs_have_rights` with `n` iterations left, at index `idx`. -/
def fbs_loop (w : World) (uid : Nat) (grouplist : List Nat) :
    Nat → Nat → Int × List Event
  | 0, _ => (Denied, [])
  | n + 1, idx =>
    let r := dev_has_rights w uid grouplist (Dev.fb idx) false true true
    if r.1 = DIE then (DIE, r.2)
    else if r.1 ≠ 0 then (Granted, r.2)
    else ((fbs_loop w uid grouplist n (idx + 1)).1,
          r.2 ++ (fbs_loop w uid grouplist n (idx + 1)).2)

/-- The function `fbs_have_rights` of `util.c`: indices 0..7. -/
def fbs_have_rights (w : World) (uid : Nat) (grouplist : List Nat) : Int × List Event :=
  fbs_loop w uid grouplist 8 0

/-- The function `drm_dev_has_rights` of `util.c`.  After a failed master
ioctl the code calls `debug` and then tests `errno`. -/
def drm_dev_has_rights (cfg : Config) (w : World) (idx : Nat) (uid : Nat)
    (grouplist : List Nat) : Int × List Event :=
  match w.open_rdonly (Dev.card idx) with
  | SysResult.err e => (Denied, [Event.open_rdonly (Dev.card idx) (SysResult.err e)])
  | SysResult.ok =>
    let r := dev_has_rights w uid grouplist (Dev.card idx) true true true
    if r.1 ≠ Granted then
      (r.1, Event.open_rdonly (Dev.card idx) SysResult.ok :: r.2 ++ [Event.close (Dev.card idx)])
    else
      match w.drm_set_master idx with
      | SysResult.err e =>
        (if errno_after_debug cfg w (Event.drm_set_master idx (SysResult.err e)) e = EACCES
          then Denied else DIE,
          Event.open_rdonly (Dev.card idx) SysResult.ok :: r.2 ++
          [Event.drm_set_master idx (SysResult.err e),
           Event.errno_read
             (errno_after_debug cfg w (Event.drm_set_master idx (SysResult.err e)) e),
           Event.close (Dev.card idx)])
      | SysResult.ok =>
        match w.drm_drop_master idx with
        | SysResult.err e =>
          (if errno_after_debug cfg w (Event.drm_drop_master idx (SysResult.err e)) e = EACCES
            then Denied else DIE,
            Event.open_rdonly (Dev.card idx) SysResult.ok :: r.2 ++
            [Event.drm_set_master idx SysResult.ok,
             Event.drm_drop_master idx (SysResult.err e),
             Event.errno_read
               (errno_after_debug cfg w (Event.drm_drop_master idx (SysResult.err e)) e),
             Event.close (Dev.card idx)])
        | SysResult.ok =>
          (Granted,
            Event.open_rdonly (Dev.card idx) SysResult.ok :: r.2 ++
            [Event.drm_set_master idx SysResult.ok,
             Event.drm_drop_master idx SysResult.ok, Event.close (Dev.card idx)])

/-- The loop of `drms_have_rights` with `n` iterations left, at index `idx`. -/
def drms_loop (cfg : Config) (w : World) (uid : Nat) (grouplist : List Nat) :
    Nat → Nat → Int × List Event
  | 0, _ => (Denied, [])
  | n + 1, idx =>
    let r := drm_dev_has_rights cfg w idx uid grouplist
    if r.1 ≠ 0 then (r.1, r.2)
    else ((drms_loop cfg w uid grouplist n (idx + 1)).1,
          r.2 ++ (drms_loop cfg w uid grouplist n (idx + 1)).2)

/-- The function `drms_have_rights` of `util.c`: indices 0..15. -/
def drms_have_rights (cfg : Config) (w : World) (uid : Nat) (grouplist : List Nat) :
    Int × List Event :=
  drms_loop cfg w uid grouplist 16 0

/-- The function `video_has_rights` of `util.c`. -/
def video_has_rights (cfg : Config) (w : World) (uid : Nat) (grouplist : List Nat) :
    Int × List Event :=
  let r := fbs_have_rights w uid grouplist
  if r.1 ≠ Granted then r
  else
    let d := drms_have_rights cfg w uid grouplist
    (d.1, r.2 ++ d.2)

/-! ## The combined verdict -/

/-- The function `handle_auto_rights` of `util.c`. -/
def handle_auto_rights (cfg : Config) (w : World) (uid : Nat) (grouplist : List Nat)
    (shareVTs : Bool) : Outcome :=
  let v := video_has_rights cfg w uid grouplist
  if v.1 = DIE then ⟨DIE, v.2, w⟩
  else
    let result1 : Int := if v.1 = 0 then Denied else Granted
    let t := ttys_have_rights cfg w uid grouplist shareVTs
    if t.ret = DIE then ⟨DIE, v.2 ++ t.trace, t.world⟩
    else
      let result2 : Int := if t.ret = 0 then Denied else result1
      let e := events_have_rights t.world uid grouplist
      if e.1 = DIE then ⟨DIE, v.2 ++ t.trace ++ e.2, t.world⟩
      else ⟨if e.1 = 0 then Denied else result2, v.2 ++ t.trace ++ e.2, t.world⟩

/-- The function `check_rights` of `util.c`. -/
def check_rights (cfg : Config) (w : World) (uid : Nat) (shareVTs : Bool) : Outcome :=
  if cfg.u_flags &&& FlagDropRootAuto ≠ 0 then
    match w.user_groups uid with
    | none => ⟨DIE, [Event.get_user_groups uid none], w⟩
    | some grouplist =>
      let r := handle_auto_rights cfg w uid grouplist shareVTs
      ⟨r.ret, Event.get_user_groups uid (some grouplist) :: r.trace, r.world⟩
  else ⟨((cfg.u_flags &&& FlagDropRoot : Nat) : Int), [], w⟩

/-! ## `drop_user_privileges` -/

/-- The real, effective and saved user id of the process. -/
structure Creds where
  ruid : Nat
  euid : Nat
  suid : Nat
deriving DecidableEq, Repr

/-- The value `(uid_t) -1`, which `setresuid` reads as "leave unchanged". -/
abbrev UID_UNCHANGED : Nat := 4294967295

/-- The credentials after a successful `setresuid (ruid, euid, suid)`: an
argument equal to `(uid_t) -1` leaves that id as it was. -/
def setresuid_result (c : Creds) (ruid euid suid : Nat) : Creds :=
  ⟨if ruid = UID_UNCHANGED then c.ruid else ruid,
   if euid = UID_UNCHANGED then c.euid else euid,
   if suid = UID_UNCHANGED then c.suid else suid⟩

/-- The permission rule of Linux `setresuid`: a process whose effective uid
is 0 may set any value; any other process may set each id only to the
current real, effective or saved uid. -/
def setresuid_permitted (c : Creds) (ruid euid suid : Nat) : Bool :=
  let ok := fun x => x = UID_UNCHANGED ∨ c.euid = 0 ∨ x = c.ruid ∨ x = c.euid ∨ x = c.suid
  decide (ok ruid ∧ ok euid ∧ ok suid)

/-- The function `drop_user_privileges` of `util.c`, which calls
`setresuid (-1, uid, uid)`.  `permitted` is the kernel's decision on the
call; the components are the return value and the credentials afterwards. -/
def drop_user_privileges (permitted : Creds → Nat → Nat → Nat → Bool) (c : Creds) (uid : Nat) :
    Int × Creds :=
  if permitted c UID_UNCHANGED uid uid then
    (Granted, setresuid_result c UID_UNCHANGED uid uid)
  else (Denied, c)

/-! ## Vocabulary of the properties -/

/-- The three verdicts: Granted, Denied or Fatal. -/
def IsVerdict (x : Int) : Prop := x = Granted ∨ x = Denied ∨ x = DIE

instance (x : Int) : Decidable (IsVerdict x) :=
  inferInstanceAs (Decidable (x = Granted ∨ x = Denied ∨ x = DIE))

/-- The steps whose outcome the code turns into `DIE` at the place of the
step: a failed `stat` or `fstat` (`dev_has_rights`, `tty_dev_chmod`), a failed
`chmod` (`tty_dev_chmod`), a failed `VT_GETSTATE` (`tty_zero_dev_has_rights`),
and a read of `errno` that finds a value other than `EACCES`, after the
failed `open` of tty0 (`tty_zero_dev_has_rights`) or after a failed master
ioctl (`drm_dev_has_rights`).  A failed `open` of a card node is `False` in
`drm_dev_has_rights` whatever the errno, and is not among them. -/
def Event.yields_die : Event → Bool
  | Event.stat _ none => true
  | Event.fstat _ none => true
  | Event.chmod _ _ false => true
  | Event.vt_getstate none => true
  | Event.errno_read e => decide (e ≠ EACCES)
  | _ => false

/-- The `chmod` calls among the calls of a run, in order: node, mode written
and whether the call succeeded. -/
def chmod_calls : List Event → List (Dev × Nat × Bool)
  | [] => []
  | Event.chmod dev mode ok :: rest => (dev, mode, ok) :: chmod_calls rest
  | _ :: rest => chmod_calls rest

/-! ## Sample kernel states

Concrete states on which the properties below are evaluated.  In all of them
but the last every metadata call succeeds. -/

/-- Framebuffers are open to everybody (mode 0666) and every other node is
root-only; no card node can be opened (errno 2, `ENOENT`). -/
def world_fb_only : World where
  stat := fun d =>
    match d with
    | Dev.fb _ => some ⟨0o020666, 0, 44⟩
    | _ => some ⟨0o020600, 0, 0⟩
  open_rdonly := fun _ => SysResult.err 2
  vt_getstate := none
  drm_set_master := fun _ => SysResult.err EACCES
  drm_drop_master := fun _ => SysResult.err EACCES
  chmod := fun _ _ => false
  user_groups := fun _ => some [1000]
  stderr_errno := fun _ => none

/-- Card nodes are open to everybody, can be opened and accept both master
ioctls; every other node, the framebuffers included, is root-only. -/
def world_card_only : World where
  stat := fun d =>
    match d with
    | Dev.card _ => some ⟨0o020666, 0, 44⟩
    | _ => some ⟨0o020600, 0, 0⟩
  open_rdonly := fun _ => SysResult.ok
  vt_getstate := none
  drm_set_master := fun _ => SysResult.ok
  drm_drop_master := fun _ => SysResult.ok
  chmod := fun _ _ => false
  user_groups := fun _ => some [1000]
  stderr_errno := fun _ => none

/-- The usual console setup: tty0 is `crw--w---- root:tty` (group 5), the
other consoles are root-only, console 1 is active and in use (bits 0 and 1 of
`v_state`), `chmod` succeeds, and user 1000 is in groups 1000 and 5. -/
def world_console : World where
  stat := fun d =>
    match d with
    | Dev.tty 0 => some ⟨0o020620, 0, 5⟩
    | _ => some ⟨0o020600, 0, 0⟩
  open_rdonly := fun _ => SysResult.ok
  vt_getstate := some (1, 3)
  drm_set_master := fun _ => SysResult.ok
  drm_drop_master := fun _ => SysResult.ok
  chmod := fun _ _ => true
  user_groups := fun _ => some [1000, 5]
  stderr_errno := fun _ => none

/-- As `world_console`, but the consoles other than tty0 are
`crw-rw---- root:tty`. -/
def world_console_open : World where
  stat := fun d =>
    match d with
    | Dev.tty 0 => some ⟨0o020620, 0, 5⟩
    | Dev.tty _ => some ⟨0o020660, 0, 5⟩
    | _ => some ⟨0o020600, 0, 0⟩
  open_rdonly := fun _ => SysResult.ok
  vt_getstate := some (1, 3)
  drm_set_master := fun _ => SysResult.ok
  drm_drop_master := fun _ => SysResult.ok
  chmod := fun _ _ => true
  user_groups := fun _ => some [1000, 5]
  stderr_errno := fun _ => none

/-- No metadata call succeeds. -/
def world_broken : World where
  stat := fun _ => none
  open_rdonly := fun _ => SysResult.ok
  vt_getstate := none
  drm_set_master := fun _ => SysResult.ok
  drm_drop_master := fun _ => SysResult.ok
  chmod := fun _ _ => false
  user_groups := fun _ => some [1000]
  stderr_errno := fun _ => none

/-! ## Process supervision (`xinit.c`) -/

/-- The errno value `ESRCH` of Linux: no such process. -/
abbrev ESRCH : Nat := 3

/-- The signals `shutdown` sends. -/
inductive Signal where
  | SIGHUP
  | SIGTERM
  | SIGKILL
deriving DecidableEq, Repr

/-- What the operating system and the X library answer to the supervisor.
`fork k` is the return value of the `k`-th call of `fork`; `exec_fails`
tells whether the `exec` of a child returns (it returns only on failure);
`waitpid k pid` is the return value of the `k`-th call of
`waitpid (pid, &status, WNOHANG)`: `pid` when that child has exited, 0 while
it runs, -1 on error; `XOpenDisplay k` tells whether the `k`-th connection
attempt succeeds; `killpg pgrp sig` is the outcome of `killpg`.  Calls are
counted from 0. -/
structure Procs where
  fork : Nat → Int
  exec_fails : Bool
  waitpid : Nat → Int → Int
  XOpenDisplay : Nat → Bool
  killpg : Int → Signal → SysResult

/-- One call performed by the supervisor, with its outcome. -/
inductive PEvent where
  | fork (r : Int)
  | exec
  | setpriority (pid : Int)
  | waitpid (pid : Int) (r : Int)
  | sleep (secs : Nat)
  | alarm (secs : Nat)
  | sigsuspend
  | XOpenDisplay (ok : Bool)
  | XCloseDisplay
  | killpg (pgrp : Int) (sig : Signal) (r : SysResult)
deriving DecidableEq, Repr

/-- The globals `serverpid`, `clientpid` and `xd` (whether a display
connection is held) of `xinit.c`, the number of `fork`, `waitpid` and
`XOpenDisplay` calls made so far, and all calls made so far, in order. -/
structure PState where
  serverpid : Int
  clientpid : Int
  xd : Bool
  nfork : Nat
  nwait : Nat
  nopen : Nat
  calls : List PEvent
deriving DecidableEq, Repr

/-- The state of the globals at program start: `serverpid = -1`,
`clientpid = -1`, `xd = NULL`, and no call made. -/
def PState.initial : PState := ⟨-1, -1, false, 0, 0, 0, []⟩

/-- The poll at the head of an iteration of `processTimeout`:
`pidfound = waitpid (serverpid, &status, WNOHANG)`. -/
def processTimeout_poll (os : Procs) (s : PState) : Int × PState :=
  (os.waitpid s.nwait s.serverpid,
    { s with
      nwait := s.nwait + 1
      calls := s.calls ++ [PEvent.waitpid s.serverpid (os.waitpid s.nwait s.serverpid)] })

/-- The body of `if (timeout)` in `processTimeout`: `sleep (1)`.  The
progress messages written to `stderr` are left out. -/
def processTimeout_sleep (timeout : Nat) (s : PState) : PState :=
  if timeout ≠ 0 then { s with calls := s.calls ++ [PEvent.sleep 1] } else s

/-- The loop of `processTimeout` with `left = timeout - i` at the head of the
iteration, so that the exit test `++i > timeout` is `left = 0`.  The
component returned with the state is `pidfound`. -/
def processTimeout_loop (os : Procs) (timeout : Nat) : Nat → PState → Int × PState
  | 0, s =>
    if (processTimeout_poll os s).1 = s.serverpid then processTimeout_poll os s
    else ((processTimeout_poll os s).1, processTimeout_sleep timeout (processTimeout_poll os s).2)
  | left + 1, s =>
    if (processTimeout_poll os s).1 = s.serverpid then processTimeout_poll os s
    else processTimeout_loop os timeout left
      (processTimeout_sleep timeout (processTimeout_poll os s).2)

/-- The function `processTimeout` of `xinit.c`: true if the wait for the
server's exit timed out, false if the server was seen to have exited. -/
def processTimeout (os : Procs) (timeout : Nat) (s : PState) : Bool × PState :=
  let r := processTimeout_loop os timeout timeout s
  (decide (r.2.serverpid ≠ r.1), r.2)

/-- The call `xd = XOpenDisplay (u_display)` of `waitforserver`, recorded. -/
def waitforserver_connect (os : Procs) (s : PState) : PState :=
  { s with
    xd := os.XOpenDisplay s.nopen
    nopen := s.nopen + 1
    calls := s.calls ++ [PEvent.XOpenDisplay (os.XOpenDisplay s.nopen)] }

/-- The loop of `waitforserver` with `n` cycles left. -/
def waitforserver_loop (os : Procs) : Nat → PState → Bool × PState
  | 0, s => (false, s)
  | n + 1, s =>
    if (waitforserver_connect os s).xd then (true, waitforserver_connect os s)
    else if (processTimeout os 1 (waitforserver_connect os s)).1 = false then
      (false, (processTimeout os 1 (waitforserver_connect os s)).2)
    else waitforserver_loop os n (processTimeout os 1 (waitforserver_connect os s)).2

/-- The function `waitforserver` of `xinit.c`: 120 cycles. -/
def waitforserver (os : Procs) (s : PState) : Bool × PState :=
  waitforserver_loop os 120 s

/-- The first block of `shutdown`: with a client process group, close the
display connection and send it a hangup.  An IO error during the close jumps
back into `shutdown` (`ignorexio`), and a failed `killpg` is only logged: in
both cases `shutdown` goes on. -/
def shutdown_clients (os : Procs) (s : PState) : PState :=
  if s.clientpid > 0 then
    { s with
      xd := false
      calls := s.calls ++ [PEvent.XCloseDisplay,
        PEvent.killpg s.clientpid Signal.SIGHUP (os.killpg s.clientpid Signal.SIGHUP)] }
  else s

/-- The call `killpg (serverpid, sig)` of `shutdown`, recorded. -/
def shutdown_signal (os : Procs) (sig : Signal) (s : PState) : PState :=
  { s with calls := s.calls ++ [PEvent.killpg s.serverpid sig (os.killpg s.serverpid sig)] }

/-- The function `shutdown` of `xinit.c` (the `__sun` part left out). -/
def shutdown (os : Procs) (s : PState) : Bool × PState :=
  if (shutdown_clients os s).serverpid < 0 then (true, shutdown_clients os s)
  else
    match os.killpg (shutdown_clients os s).serverpid Signal.SIGTERM with
    | SysResult.err e =>
      (decide (e = ESRCH), shutdown_signal os Signal.SIGTERM (shutdown_clients os s))
    | SysResult.ok =>
      let t := processTimeout os 10 (shutdown_signal os Signal.SIGTERM (shutdown_clients os s))
      if t.1 = false then (true, t.2)
      else if os.killpg t.2.serverpid Signal.SIGKILL = SysResult.err ESRCH then
        (true, shutdown_signal os Signal.SIGKILL t.2)
      else
        let u := processTimeout os 3 (shutdown_signal os Signal.SIGKILL t.2)
        if u.1 then (false, u.2) else (true, u.2)

/-- The call `serverpid = fork ()` of `startServer`, recorded. -/
def startServer_fork (os : Procs) (s : PState) : PState :=
  { s with
    serverpid := os.fork s.nfork
    nfork := s.nfork + 1
    calls := s.calls ++ [PEvent.fork (os.fork s.nfork)] }

/-- The calls `setpriority (PRIO_PROCESS, serverpid, -1)` of `startServer`,
recorded. -/
def startServer_setpriority (s : PState) : PState :=
  { s with calls := s.calls ++ [PEvent.setpriority s.serverpid] }

/-- The calls `alarm (15); sigsuspend (&old); alarm (0);` of `startServer`,
recorded. -/
def startServer_suspend (s : PState) : PState :=
  { s with calls := s.calls ++ [PEvent.alarm 15, PEvent.sigsuspend, PEvent.alarm 0] }

/-- The `default` branch of the `switch` of `startServer`: the parent
process after a successful `fork`. -/
def startServer_parent (os : Procs) (s : PState) : Option Int × PState :=
  if (processTimeout os 0 (startServer_setpriority s)).1 = false then
    (some (-1), { (processTimeout os 0 (startServer_setpriority s)).2 with serverpid := -1 })
  else if (waitforserver os
      (startServer_suspend (processTimeout os 0 (startServer_setpriority s)).2)).1 = false then
    (some (-1),
      { (shutdown os (waitforserver os
          (startServer_suspend (processTimeout os 0 (startServer_setpriority s)).2)).2).2
        with serverpid := -1 })
  else
    (some (waitforserver os
        (startServer_suspend (processTimeout os 0 (startServer_setpriority s)).2)).2.serverpid,
      (waitforserver os
        (startServer_suspend (processTimeout os 0 (startServer_setpriority s)).2)).2)

/-- The function `startServer` of `xinit.c`.  The first component is the
return value, or `none` when the call does not return because `exec` replaced
the process image of the child. -/
def startServer (os : Procs) (s : PState) : Option Int × PState :=
  if (startServer_fork os s).serverpid = 0 then
    if os.exec_fails then
      (some (-1), { startServer_fork os s with
        calls := (startServer_fork os s).calls ++ [PEvent.exec] })
    else
      (none, { startServer_fork os s with
        calls := (startServer_fork os s).calls ++ [PEvent.exec] })
  else if (startServer_fork os s).serverpid = -1 then
    (some (startServer_fork os s).serverpid, startServer_fork os s)
  else startServer_parent os (startServer_fork os s)

/-- The number of `sleep` calls in a list of calls. -/
def sleep_calls : List PEvent → Nat
  | [] => 0
  | PEvent.sleep _ :: rest => sleep_calls rest + 1
  | _ :: rest => sleep_calls rest

/-- The number of `XOpenDisplay` calls in a list of calls. -/
def open_calls : List PEvent → Nat
  | [] => 0
  | PEvent.XOpenDisplay _ :: rest => open_calls rest + 1
  | _ :: rest => open_calls rest

/-- The signals sent in a list of calls, in order. -/
def signals_sent : List PEvent → List (Int × Signal)
  | [] => []
  | PEvent.killpg pgrp sig _ :: rest => (pgrp, sig) :: signals_sent rest
  | _ :: rest => signals_sent rest

/-- An operating system in which the server, process 1234, never exits and
never accepts a connection, and every signal is delivered. -/
def os_server_hangs : Procs where
  fork := fun _ => 1234
  exec_fails := false
  waitpid := fun _ _ => 0
  XOpenDisplay := fun _ => false
  killpg := fun _ _ => SysResult.ok

/-- What a wait leaves untouched: the pids, the display connection, the
`fork` and `XOpenDisplay` counts, the signals sent and the connection
attempts made. -/
def PState.same_but_waits (s r : PState) : Prop :=
  r.serverpid = s.serverpid ∧ r.clientpid = s.clientpid ∧ r.xd = s.xd ∧ r.nfork = s.nfork ∧
  r.nopen = s.nopen ∧ signals_sent r.calls = signals_sent s.calls ∧
  open_calls r.calls = open_calls s.calls

/-- The same operating system, except that every hangup signal has the
outcome `r`. -/
def Procs.with_hangup (os : Procs) (r : SysResult) : Procs :=
  { os with killpg := fun pgrp sig => if sig = Signal.SIGHUP then r else os.killpg pgrp sig }

/-- An operating system in which the server, process 1234, keeps running and
accepts the third connection attempt. -/
def os_server_ready : Procs where
  fork := fun _ => 1234
  exec_fails := false
  waitpid := fun _ _ => 0
  XOpenDisplay := fun k => decide (2 ≤ k)
  killpg := fun _ _ => SysResult.ok

/-- An operating system in which the server, process 1234, never accepts a
connection and is seen to have exited from the fourth poll on. -/
def os_server_dies : Procs where
  fork := fun _ => 1234
  exec_fails := false
  waitpid := fun k pid => if 3 ≤ k then pid else 0
  XOpenDisplay := fun _ => false
  killpg := fun _ _ => SysResult.ok

/-- The supervisor with server 1234 started and connected, and no client. -/
def state_server_only : PState := ⟨1234, -1, true, 1, 1, 1, []⟩

/-- The supervisor with server 1234 and client 1300 started. -/
def state_both : PState := ⟨1234, 1300, true, 2, 1, 1, []⟩

/-! ## The configuration file (`util.c`) -/

/-- A C string, without its terminating NUL byte. -/
abbrev CStr := List Char

/-- The NUL byte. -/
abbrev NUL : Char := Char.ofNat 0

/-- The macro `IS_SPACE` of `util.c`: space, tab or newline. -/
def IS_SPACE (c : Char) : Bool := c = ' ' || c = '\t' || c = '\n'

/-- The byte `buf[p]`. -/
def peek (buf : List Char) (p : Nat) : Char := buf.getD p NUL

/-- The loop of `s_space` over the bytes from position `p` on. -/
def s_space_from : List Char → Nat → Nat
  | [], p => p
  | c :: rest, p => if IS_SPACE c then s_space_from rest (p + 1) else p

/-- The function `s_space` of `util.c`: the first position from `p` on that
does not hold a space.  Pointers into `buf` are positions. -/
def s_space (buf : List Char) (p : Nat) : Nat := s_space_from (buf.drop p) p

/-- The loop of `s_no_space` over the bytes from position `p` on. -/
def s_no_space_from : List Char → Nat → Nat
  | [], p => p
  | c :: rest, p => if c ≠ NUL ∧ ¬ IS_SPACE c then s_no_space_from rest (p + 1) else p

/-- The function `s_no_space` of `util.c`: the first position from `p` on
that holds a space or the terminator. -/
def s_no_space (buf : List Char) (p : Nat) : Nat := s_no_space_from (buf.drop p) p

/-- The loop of `strchr` over the bytes from position `p` on. -/
def strchr_from (ch : Char) : List Char → Nat → Option Nat
  | [], _ => none
  | c :: rest, p =>
    if c = ch then some p else if c = NUL then none else strchr_from ch rest (p + 1)

/-- The libc function `strchr` on the string at position `p`. -/
def strchr (buf : List Char) (p : Nat) (ch : Char) : Option Nat :=
  strchr_from ch (buf.drop p) p

/-- The string at position `p`: the bytes up to the first NUL. -/
def cstr (buf : List Char) (p : Nat) : CStr := (buf.drop p).takeWhile (fun c => c ≠ NUL)

/-- The libc function `strlen` on the string at position `p`. -/
def strlen (buf : List Char) (p : Nat) : Nat := (cstr buf p).length

/-- The function `s_space_right_end (s, e)` of `util.c`, by recursion on the
position `e`.  The loop `while (e-- != s)` decrements `e` also when it ends
because `e` has reached `s`, so that the value returned is then `s - 1`; it
is above `s` in every other case.  Callers pass `s ≤ e`. -/
def s_space_right_end (buf : List Char) (s : Nat) : Nat → Int
  | 0 => -1
  | e + 1 =>
    if e + 1 = s then (s : Int) - 1
    else if IS_SPACE (peek buf e) then s_space_right_end buf s e
    else (e : Int) + 1

/-- The function `s_space_right` of `util.c`. -/
def s_space_right (buf : List Char) (s : Nat) : Int :=
  s_space_right_end buf s (s + strlen buf s)

/-- The function `parse_int` of `util.c`: 1, 0, or `SCHROEDINGER_CAT` (-1). -/
def parse_int (value : CStr) : Int :=
  if value = "true".toList ∨ value = "yes".toList then 1
  else if value = "false".toList ∨ value = "no".toList then 0
  else -1

/-- The globals that `parse_config` sets: `u_flags` and `allowed`, and the
strings `u_session`, `u_display` and `u_server` (`none` is `NULL`). -/
structure Globals where
  cfg : Config
  u_session : Option CStr
  u_display : Option CStr
  u_server : Option CStr
deriving DecidableEq, Repr

/-- The initial values of the globals of `util.c`. -/
def Globals.initial : Globals := ⟨Config.initial, none, none, none⟩

/-- What `parse_config` reads from outside: the content of the configuration
file (`none` when `fopen` fails) and whether `strdup` of a string succeeds. -/
structure ConfEnv where
  config_file : Option (List Char)
  strdup_ok : CStr → Bool

/-- The error messages of `parse_config`, with the line number they cite. -/
inductive ConfigError where
  | missing_equals (line : Nat)
  | missing_key (line : Nat)
  | missing_value (line : Nat)
  | invalid_value (key : CStr) (value : CStr) (line : Nat)
  | invalid_key (key : CStr) (line : Nat)
  | out_of_memory
deriving DecidableEq, Repr

/-- How the processing of a line, or of the file, ends: `next` goes on (for
the file: `return True`), `quit` is `goto quit` (`return False`) after the
error message, `undefined` is a write outside `buf`. -/
inductive Parse where
  | next (g : Globals)
  | quit (g : Globals) (err : ConfigError)
  | undefined
deriving DecidableEq, Repr

/-- The return value of `parse_config`, when it has one. -/
def Parse.ret : Parse → Option Int
  | Parse.next _ => some Granted
  | Parse.quit _ _ => some Denied
  | Parse.undefined => none

/-- The statement `flags &= ~mask` on a 32-bit `int`. -/
def clear_flags (flags mask : Nat) : Nat := flags &&& (0xFFFFFFFF ^^^ mask)

/-- The functions `set_session`, `set_display` and `set_server` of `util.c`
share this shape: free the old string, duplicate the new one, and report
whether the duplicate is not `NULL`. -/
def set_string (env : ConfEnv) (value : CStr) : Option CStr :=
  if env.strdup_ok value then some value else none

/-- The chain of `strcmp` tests at the end of the loop body of
`parse_config`, on the trimmed key and value. -/
def apply_setting (env : ConfEnv) (g : Globals) (line : Nat) (key val_s : CStr) : Parse :=
  if key = "allowed-users".toList then
    if val_s = "rootonly".toList then
      Parse.next { g with cfg := { g.cfg with allowed := Allowed.RootOnly } }
    else if val_s = "console".toList then
      Parse.next { g with cfg := { g.cfg with allowed := Allowed.ConsoleOnly } }
    else if val_s = "anybody".toList then
      Parse.next { g with cfg := { g.cfg with allowed := Allowed.Anybody } }
    else Parse.quit g (ConfigError.invalid_value key val_s line)
  else if key = "drop-root".toList then
    let g1 : Globals :=
      { g with cfg := { g.cfg with
          u_flags := clear_flags g.cfg.u_flags (FlagDropRoot ||| FlagDropRootAuto) } }
    if parse_int val_s = -1 then
      if val_s ≠ "auto".toList then Parse.quit g1 (ConfigError.invalid_value key val_s line)
      else Parse.next
        { g1 with cfg := { g1.cfg with u_flags := g1.cfg.u_flags ||| FlagDropRootAuto } }
    else if parse_int val_s ≠ 0 then
      Parse.next { g1 with cfg := { g1.cfg with u_flags := g1.cfg.u_flags ||| FlagDropRoot } }
    else Parse.next g1
  else if key = "debug".toList then
    let g1 : Globals :=
      { g with cfg := { g.cfg with u_flags := clear_flags g.cfg.u_flags FlagDebug } }
    if parse_int val_s = -1 then Parse.quit g1 (ConfigError.invalid_value key val_s line)
    else if parse_int val_s ≠ 0 then
      Parse.next { g1 with cfg := { g1.cfg with u_flags := g1.cfg.u_flags ||| FlagDebug } }
    else Parse.next g1
  else if key = "allow-chmod".toList then
    let g1 : Globals :=
      { g with cfg := { g.cfg with u_flags := clear_flags g.cfg.u_flags FlagAllowChmod } }
    if parse_int val_s = -1 then Parse.quit g1 (ConfigError.invalid_value key val_s line)
    else if parse_int val_s ≠ 0 then
      Parse.next { g1 with cfg := { g1.cfg with u_flags := g1.cfg.u_flags ||| FlagAllowChmod } }
    else Parse.next g1
  else if key = "session-wrapper".toList then
    if (set_string env val_s).isSome then Parse.next { g with u_session := set_string env val_s }
    else Parse.quit { g with u_session := none } ConfigError.out_of_memory
  else if key = "u_display".toList then
    if (set_string env val_s).isSome then Parse.next { g with u_display := set_string env val_s }
    else Parse.quit { g with u_display := none } ConfigError.out_of_memory
  else if key = "u_server".toList then
    if (set_string env val_s).isSome then Parse.next { g with u_server := set_string env val_s }
    else Parse.quit { g with u_server := none } ConfigError.out_of_memory
  else Parse.quit g (ConfigError.invalid_key key line)

/-- The body of the `while (fgets (...))` loop of `parse_config` on the bytes
`chunk` that `fgets` has put into `buf`, for the line counter `line` (already
incremented).  The writes `*temp = 0` are `List.set`. -/
def parse_line (env : ConfEnv) (g : Globals) (line : Nat) (chunk : List Char) : Parse :=
  let buf := chunk ++ [NUL]
  let key := s_space buf 0
  if peek buf key = '#' ∨ peek buf key = NUL then Parse.next g
  else
    match strchr buf key '=' with
    | none => Parse.quit g (ConfigError.missing_equals line)
    | some temp =>
      let val_s := s_space buf (temp + 1)
      let kend := s_space_right_end buf key temp
      if kend = (key : Int) then Parse.quit g (ConfigError.missing_key line)
      else if kend < 0 then Parse.undefined
      else
        let vend := s_space_right (buf.set kend.toNat NUL) val_s
        if vend = (val_s : Int) then Parse.quit g (ConfigError.missing_value line)
        else if vend < 0 then Parse.undefined
        else
          apply_setting env g line
            (cstr ((buf.set kend.toNat NUL).set vend.toNat NUL) key)
            (cstr ((buf.set kend.toNat NUL).set vend.toNat NUL) val_s)

/-- The successive results of `fgets (buf, 1024, config)` on the rest of
the file: each call takes bytes up to and including the next newline, and at
most 1023 of them.  `cur` holds the bytes the current call has taken. -/
def fgets_chunks : List Char → List Char → List (List Char)
  | [], cur => if cur = [] then [] else [cur]
  | c :: rest, cur =>
    if c = '\n' ∨ cur.length + 1 = 1023 then (cur ++ [c]) :: fgets_chunks rest []
    else fgets_chunks rest (cur ++ [c])

/-- The `while (fgets (...))` loop of `parse_config` and what follows it:
`line` is the value of the counter before the increment. -/
def parse_lines (env : ConfEnv) : List (List Char) → Nat → Globals → Parse
  | [], _, g => Parse.next g
  | chunk :: rest, line, g =>
    match parse_line env g (line + 1) chunk with
    | Parse.next g1 => parse_lines env rest (line + 1) g1
    | Parse.quit g1 err => Parse.quit g1 err
    | Parse.undefined => Parse.undefined

/-- The function `parse_config` of `util.c`.  The call of
`find_free_display`, whose result is not used, and the debug output are left
out. -/
def parse_config (env : ConfEnv) (g : Globals) : Parse :=
  match env.config_file with
  | none => Parse.next g
  | some content => parse_lines env (fgets_chunks content []) 0 g

/-- A configuration file with the given content, and memory for every
string. -/
def conf_file (content : String) : ConfEnv := ⟨some content.toList, fun _ => true⟩

/-- The content of a file made of the given lines, each ended by a
newline. -/
def config_lines : List (List Char) → List Char
  | [] => []
  | l :: rest => l ++ '\n' :: config_lines rest

/-- The globals after the statement `u_flags &= ~FlagDebug`. -/
def Globals.debug_cleared (g : Globals) : Globals :=
  { g with cfg := { g.cfg with u_flags := clear_flags g.cfg.u_flags FlagDebug } }

/-- The globals after `u_flags &= ~FlagDebug` and `u_flags |= FlagDebug`. -/
def Globals.debug_set (g : Globals) : Globals :=
  { g with cfg := { g.cfg with u_flags := clear_flags g.cfg.u_flags FlagDebug ||| FlagDebug } }

/-! ## The command line and `main` (`xinit.c`) -/

/-- The value `R_OK` of `unistd.h`. -/
abbrev R_OK : Nat := 4
/-- The value `X_OK` of `unistd.h`. -/
abbrev X_OK : Nat := 1
/-- The value `EXIT_FAILURE` of `stdlib.h`. -/
abbrev EXIT_FAILURE : Int := 1

/-- The arrays `clientargv` and `serverargv`: 96 pointers to strings, `none`
is `NULL`.  A pointer into the array is an index. -/
abbrev ArgVec := List (Option CStr)

/-- The arrays at program start: static storage holds null pointers. -/
def ArgVec.zeroed : ArgVec := List.replicate 96 none

/-- How `add_args` ends: with the pointer it returns and the array it has
filled; with a store beyond the end of the array; or, for the loop model,
with its step count used up. -/
inductive AddArgs where
  | done (argv : Nat) (vec : ArgVec)
  | out_of_bounds
  | out_of_fuel
deriving DecidableEq, Repr

/-- The `for` loop of `add_args` from the test `*cur != 0` on: `cur` is a
position in the string `buf`, `argv` an index in `vec`.  The last token,
which ends with the string, is stored without a step of `argv`.  The first
argument bounds the number of passes. -/
def add_args_loop : Nat → List Char → Nat → Nat → ArgVec → AddArgs
  | 0, _, _, _, _ => AddArgs.out_of_fuel
  | fuel + 1, buf, cur, argv, vec =>
    if peek buf cur = NUL then AddArgs.done argv vec
    else if vec.length ≤ argv then AddArgs.out_of_bounds
    else if peek buf (s_no_space buf (cur + 1)) = NUL then
      AddArgs.done argv (vec.set argv (some (cstr buf cur)))
    else
      add_args_loop fuel (buf.set (s_no_space buf (cur + 1)) NUL)
        (s_space (buf.set (s_no_space buf (cur + 1)) NUL) (s_no_space buf (cur + 1) + 1))
        (argv + 1)
        (vec.set argv (some (cstr (buf.set (s_no_space buf (cur + 1)) NUL) cur)))

/-- The function `add_args (argv, args)` of `util.c` on a string `args` that
is not `NULL`.  Every pass of the loop moves `cur` forward, so that one pass
per byte is enough. -/
def add_args (vec : ArgVec) (argv : Nat) (args : CStr) : AddArgs :=
  add_args_loop (args.length + 1) (args ++ [NUL]) (s_space (args ++ [NUL]) 0) argv vec

/-- What `main` reads from outside: the configuration file, the device
nodes, the user ids of the process, the kernel's decision on `setresuid`,
the environment variables, and the outcome of `access (path, mode) == 0`. -/
structure MainEnv where
  conf : ConfEnv
  world : World
  creds : Creds
  setresuid_ok : Creds → Nat → Nat → Nat → Bool
  getenv : String → Option CStr
  access : CStr → Nat → Bool

/-- The calls of `main` that the properties speak of, with their arguments
and return values. -/
inductive MainEvent where
  | parse_config (r : Option Int)
  | set_display (value : CStr) (ok : Bool)
  | is_user_allowed (uid : Nat) (r : Int)
  | check_rights (uid : Nat) (shareVTs : Bool) (r : Int)
  | drop_user_privileges (uid : Nat) (r : Int)
  | access (path : CStr) (mode : Nat) (ok : Bool)
  | free_util
deriving DecidableEq, Repr

/-- The variables of `main` and the globals it works on.  `argv` is the part
of the command line from the pointer `argv` on (`argc` is its length);
`client` and `server` are indices in `clientargv` and `serverargv`. -/
structure MainState where
  argv : List CStr
  g : Globals
  clientargv : ArgVec
  serverargv : ArgVec
  client : Nat
  server : Nat
  client_given : Bool
  server_given : Bool
  start_of_client_args : Nat
  start_of_server_args : Nat
  shareVTs : Bool
  world : World
  creds : Creds
  events : List MainEvent

/-- The state on entry to `main`: `client = clientargv + 2` and
`server = serverargv + 2`. -/
def MainState.initial (env : MainEnv) (argv : List CStr) : MainState :=
  { argv := argv, g := Globals.initial,
    clientargv := ArgVec.zeroed, serverargv := ArgVec.zeroed, client := 2, server := 2,
    client_given := false, server_given := false,
    start_of_client_args := 0, start_of_server_args := 0, shareVTs := false,
    world := env.world, creds := env.creds, events := [] }

/-- Where a part of `main` leaves control: at the next statement, at the
label `quit`, or in a step that C leaves undefined (a null pointer read as a
string, a store beyond an array). -/
inductive Phase where
  | go (s : MainState)
  | quit (s : MainState)
  | undefined (s : MainState)

/-- Sequencing of the parts of `main`. -/
def Phase.andThen (p : Phase) (f : MainState → Phase) : Phase :=
  match p with
  | Phase.go s => f s
  | Phase.quit s => Phase.quit s
  | Phase.undefined s => Phase.undefined s

/-- The statements `prog_name = s_basename (*argv++); argc--;` and the call
of `parse_config`. -/
def main_parse_config (env : MainEnv) (s : MainState) : Phase :=
  match s.argv with
  | [] => Phase.undefined s
  | _ :: rest =>
    match parse_config env.conf s.g with
    | Parse.next g1 =>
      Phase.go { s with argv := rest, g := g1,
                        events := s.events ++ [MainEvent.parse_config (some 1)] }
    | Parse.quit g1 _ =>
      Phase.quit { s with argv := rest, g := g1,
                          events := s.events ++ [MainEvent.parse_config (some 0)] }
    | Parse.undefined =>
      Phase.undefined { s with argv := rest,
                               events := s.events ++ [MainEvent.parse_config none] }

/-- The expression `argc != 0 ? **argv : 0`. -/
def first_char (argv : List CStr) : Char :=
  match argv with
  | [] => NUL
  | a :: _ => peek a 0

/-- The loop `while ( argc != 0 )` that copies the client arguments: the
result is the rest of the command line, `cptr` and the array, or `none` after
"too many client arguments". -/
def client_args_loop : List CStr → Nat → ArgVec → Option (List CStr × Nat × ArgVec)
  | [], cptr, vec => some ([], cptr, vec)
  | cp :: rest, cptr, vec =>
    if cp = "--".toList then some (cp :: rest, cptr, vec)
    else if cptr > 96 - 2 then none
    else client_args_loop rest (cptr + 1) (vec.set cptr (some cp))

/-- The statements of `main` from `*cptr = NULL` to the end of the client
part: the terminator, and the step over the `--`. -/
def client_args_end (s : MainState) (r : List CStr × Nat × ArgVec) : Phase :=
  if r.2.2.length ≤ r.2.1 then Phase.undefined s
  else Phase.go { s with argv := r.1.tail, clientargv := r.2.2.set r.2.1 none }

/-- The part "copy the client args" of `main`. -/
def main_client_args (s : MainState) : Phase :=
  if first_char s.argv ≠ '/' ∧ first_char s.argv ≠ '.' then
    match s.g.u_session with
    | none => Phase.undefined s
    | some session =>
      match add_args s.clientargv s.client session with
      | AddArgs.done cptr vec =>
        match client_args_loop s.argv cptr vec with
        | none => Phase.quit { s with start_of_client_args := cptr - s.client }
        | some r => client_args_end { s with start_of_client_args := cptr - s.client } r
      | AddArgs.out_of_bounds => Phase.undefined s
      | AddArgs.out_of_fuel => Phase.undefined s
  else
    match client_args_loop s.argv s.client s.clientargv with
    | none => Phase.quit { s with client_given := true }
    | some r => client_args_end { s with client_given := true } r

/-- The statement `*sptr++ = u_display;`. -/
def store_display (s : MainState) (sptr : Nat) (vec : ArgVec) : Option (Nat × ArgVec) :=
  if vec.length ≤ sptr then none else some (sptr + 1, vec.set sptr s.g.u_display)

/-- The loop `while ( --argc != 0 )` that copies the server arguments and
looks for `-sharevts`.  With `argc = 0` on entry the counter goes to -1 and
the body reads `argv [argc]`, a null pointer, as a string: `none`.  With one
token left the loop ends at once.  The inner `none` is "too many server
arguments". -/
def server_args_loop : List CStr → Nat → ArgVec → Bool → Option (Option (Nat × ArgVec × Bool))
  | [], _, _, _ => none
  | [_], sptr, vec, sh => some (some (sptr, vec, sh))
  | cp :: next :: rest, sptr, vec, sh =>
    if sptr > 96 - 2 then some none
    else
      server_args_loop (next :: rest) (sptr + 1) (vec.set sptr (some cp))
        (sh || decide (cp = "-sharevts".toList))

/-- The statements of `main` from `start_of_server_args = sptr - server` to
`*sptr = NULL`. -/
def server_args_end (s : MainState) (sptr : Nat) (vec : ArgVec) : Phase :=
  match server_args_loop s.argv sptr vec s.shareVTs with
  | none => Phase.undefined { s with start_of_server_args := sptr - s.server }
  | some none => Phase.quit { s with start_of_server_args := sptr - s.server }
  | some (some r) =>
    if r.2.1.length ≤ r.1 then
      Phase.undefined { s with start_of_server_args := sptr - s.server }
    else
      Phase.go { s with start_of_server_args := sptr - s.server,
                        serverargv := r.2.1.set r.1 none, shareVTs := r.2.2 }

/-- The part "display" of `main`: the display of the configuration is
stored, unless the next token is `:` and a digit, which becomes the
display. -/
def main_display (env : MainEnv) (s : MainState) (sptr : Nat) (vec : ArgVec) : Phase :=
  match s.argv with
  | [] =>
    match store_display s sptr vec with
    | none => Phase.undefined s
    | some r => server_args_end s r.1 r.2
  | cp :: _ =>
    if peek cp 0 ≠ ':' ∨ ¬ (peek cp 1).isDigit then
      match store_display s sptr vec with
      | none => Phase.undefined s
      | some r => server_args_end s r.1 r.2
    else if (set_string env.conf cp).isSome then
      server_args_end
        { s with g := { s.g with u_display := set_string env.conf cp },
                 events := s.events ++ [MainEvent.set_display cp true] } sptr vec
    else
      Phase.quit { s with g := { s.g with u_display := none },
                          events := s.events ++ [MainEvent.set_display cp false] }

/-- The part "Copy the server args" of `main`. -/
def main_server_args (env : MainEnv) (s : MainState) : Phase :=
  if first_char s.argv ≠ '/' ∧ first_char s.argv ≠ '.' then
    match s.g.u_server with
    | none => Phase.undefined s
    | some srv =>
      match add_args s.serverargv s.server srv with
      | AddArgs.done sptr vec => main_display env s sptr vec
      | AddArgs.out_of_bounds => Phase.undefined s
      | AddArgs.out_of_fuel => Phase.undefined s
  else
    main_display env { s with server_given := true, argv := s.argv.tail }
      (s.server + 1) (s.serverargv.set s.server s.argv.head?)

/-- The part of `main` from `uid = getuid ()` to the call of
`drop_user_privileges`. -/
def main_rights (env : MainEnv) (s : MainState) : Phase :=
  if is_user_allowed s.g.cfg s.creds.ruid = 0 then
    Phase.quit { s with events := s.events ++ [MainEvent.is_user_allowed s.creds.ruid 0] }
  else if (check_rights s.g.cfg s.world s.creds.ruid s.shareVTs).ret = DIE then
    Phase.quit
      { s with world := (check_rights s.g.cfg s.world s.creds.ruid s.shareVTs).world,
               events := s.events ++
                [MainEvent.is_user_allowed s.creds.ruid (is_user_allowed s.g.cfg s.creds.ruid),
                 MainEvent.check_rights s.creds.ruid s.shareVTs DIE] }
  else if (check_rights s.g.cfg s.world s.creds.ruid s.shareVTs).ret = 0 then
    Phase.go
      { s with world := (check_rights s.g.cfg s.world s.creds.ruid s.shareVTs).world,
               events := s.events ++
                [MainEvent.is_user_allowed s.creds.ruid (is_user_allowed s.g.cfg s.creds.ruid),
                 MainEvent.check_rights s.creds.ruid s.shareVTs 0] }
  else if (drop_user_privileges env.setresuid_ok s.creds s.creds.ruid).1 = 0 then
    Phase.quit
      { s with world := (check_rights s.g.cfg s.world s.creds.ruid s.shareVTs).world,
               events := s.events ++
                [MainEvent.is_user_allowed s.creds.ruid (is_user_allowed s.g.cfg s.creds.ruid),
                 MainEvent.check_rights s.creds.ruid s.shareVTs
                   (check_rights s.g.cfg s.world s.creds.ruid s.shareVTs).ret,
                 MainEvent.drop_user_privileges s.creds.ruid 0] }
  else
    Phase.go
      { s with world := (check_rights s.g.cfg s.world s.creds.ruid s.shareVTs).world,
               creds := (drop_user_privileges env.setresuid_ok s.creds s.creds.ruid).2,
               events := s.events ++
                [MainEvent.is_user_allowed s.creds.ruid (is_user_allowed s.g.cfg s.creds.ruid),
                 MainEvent.check_rights s.creds.ruid s.shareVTs
                   (check_rights s.g.cfg s.world s.creds.ruid s.shareVTs).ret,
                 MainEvent.drop_user_privileges s.creds.ruid
                   (drop_user_privileges env.setresuid_ok s.creds s.creds.ruid).1] }

/-- The name of a startup file as `main` puts it into `xinitrcbuf` or
`xserverrcbuf`, an array of 256 bytes: the value of the variable `var` if it
is set, else the file `rc` below `$XDG_CONFIG_HOME`, else below
`$HOME/.config`, else the empty string.  `none` is a `strcpy` of more than
255 bytes. -/
def startup_file (env : MainEnv) (var : String) (rc : CStr) : Option CStr :=
  match env.getenv var with
  | some cp => if cp.length < 256 then some cp else none
  | none =>
    match env.getenv "XDG_CONFIG_HOME" with
    | some xdg_config => some ((xdg_config ++ rc).take 255)
    | none =>
      match env.getenv "HOME" with
      | some home => some ((home ++ "/.config".toList ++ rc).take 255)
      | none => some []

/-- The part of `main` under `if ( !client_given )`. -/
def main_xinitrc (env : MainEnv) (s : MainState) : Phase :=
  if s.client_given then Phase.go s
  else
    match startup_file env "XINITRC" "/xorg/xinitrc".toList with
    | none => Phase.undefined s
    | some xinitrcbuf =>
      if xinitrcbuf = [] then Phase.go s
      else if env.access xinitrcbuf R_OK then
        Phase.go { s with client := s.client + s.start_of_client_args - 1,
                          clientargv :=
                            s.clientargv.set (s.client + s.start_of_client_args - 1)
                              (some xinitrcbuf),
                          events := s.events ++ [MainEvent.access xinitrcbuf R_OK true] }
      else Phase.go { s with events := s.events ++ [MainEvent.access xinitrcbuf R_OK false] }

/-- The part of `main` under `if ( !server_given )`. -/
def main_xserverrc (env : MainEnv) (s : MainState) : Phase :=
  if s.server_given then Phase.go s
  else
    match startup_file env "XSERVERRC" "/xorg/xserverrc".toList with
    | none => Phase.undefined s
    | some xserverrcbuf =>
      if xserverrcbuf = [] then Phase.go s
      else if env.access xserverrcbuf R_OK then
        Phase.go { s with server := s.server + s.start_of_server_args - 1,
                          serverargv :=
                            s.serverargv.set (s.server + s.start_of_server_args - 1)
                              (some xserverrcbuf),
                          events := s.events ++ [MainEvent.access xserverrcbuf R_OK true] }
      else Phase.go { s with events := s.events ++ [MainEvent.access xserverrcbuf R_OK false] }

/-- The call `check_execute_rights (*server)` in `main`, with the function
of `util.c`: `access (path, X_OK) == 0`.  A null pointer in `*server` is
printed by the error message as a string. -/
def main_check_execute_rights (env : MainEnv) (s : MainState) : Phase :=
  match s.serverargv.getD s.server none with
  | none => Phase.undefined s
  | some path =>
    if env.access path X_OK then
      Phase.go { s with events := s.events ++ [MainEvent.access path X_OK true] }
    else Phase.quit { s with events := s.events ++ [MainEvent.access path X_OK false] }

/-- The statements of `main` up to the call of `check_execute_rights`. -/
def main_checks (env : MainEnv) (argv : List CStr) : Phase :=
  (((((((main_parse_config env (MainState.initial env argv)).andThen main_client_args).andThen
    (main_server_args env)).andThen (main_rights env)).andThen (main_xinitrc env)).andThen
    (main_xserverrc env)).andThen (main_check_execute_rights env))

/-- A run of `main`: the value it returns (`none` if the run leaves what C
defines) and the state it leaves. -/
structure MainRun where
  ret : Option Int
  state : MainState

/-- The function `main` of `xinit.c`.  The statement `return 0;` follows the
call of `check_execute_rights`; the statements after it, which install the
signal handlers and call `startServer`, `startClient`, `wait` and
`shutdown`, are not reached.  The label `quit` calls `free_util` and
returns `EXIT_FAILURE`. -/
def main (env : MainEnv) (argv : List CStr) : MainRun :=
  match main_checks env argv with
  | Phase.go s => ⟨some 0, s⟩
  | Phase.quit s => ⟨some EXIT_FAILURE, { s with events := s.events ++ [MainEvent.free_util] }⟩
  | Phase.undefined s => ⟨none, s⟩

/-- A command line as the shell passes it. -/
def command_line (words : List String) : List CStr := words.map String.toList

/-- A system without a configuration file, with the device nodes of
`world_console`, for the user 1000 running the setuid-root program, where
`/usr/bin/X` and `/usr/bin/xterm` can be executed. -/
def env_console_user : MainEnv :=
  { conf := ⟨none, fun _ => true⟩, world := world_console, creds := ⟨1000, 0, 0⟩,
    setresuid_ok := fun c r e u => setresuid_permitted c r e u,
    getenv := fun _ => none,
    access := fun path _ => decide (path = "/usr/bin/X".toList ∨ path = "/usr/bin/xterm".toList) }

/-- A seat whose device nodes are all `crw-rw-rw-`: every probe grants. -/
def world_seat : World where
  stat := fun _ => some ⟨0o020666, 0, 0⟩
  open_rdonly := fun _ => SysResult.ok
  vt_getstate := some (1, 3)
  drm_set_master := fun _ => SysResult.ok
  drm_drop_master := fun _ => SysResult.ok
  chmod := fun _ _ => true
  user_groups := fun _ => some [1000]
  stderr_errno := fun _ => none

/-- As `env_console_user`, on the device nodes of `world_seat`. -/
def env_seat_user : MainEnv := { env_console_user with world := world_seat }

/-- As `env_console_user`, with a configuration file of the given
content. -/
def env_configured (content : String) : MainEnv :=
  { env_console_user with conf := conf_file content }

/-- A seat with three cards, all `crw-rw-rw-`: card 0 cannot be opened,
`DRM_IOCTL_SET_MASTER` fails on card 1 with `EACCES`, and card 2 accepts
both ioctls. -/
def world_cards : World where
  stat := fun _ => some ⟨0o020666, 0, 0⟩
  open_rdonly := fun d => if d = Dev.card 0 then SysResult.err 2 else SysResult.ok
  vt_getstate := some (1, 3)
  drm_set_master := fun idx => if idx = 1 then SysResult.err EACCES else SysResult.ok
  drm_drop_master := fun _ => SysResult.ok
  chmod := fun _ _ => true
  user_groups := fun _ => some [1000]
  stderr_errno := fun _ => none

/-- As `world_cards`, but `DRM_IOCTL_SET_MASTER` fails on card 1 with `EIO`
(5). -/
def world_cards_broken : World := { world_cards with
  drm_set_master := fun idx => if idx = 1 then SysResult.err 5 else SysResult.ok }

/-- The errno value `ENOSPC` of Linux: no space left on device. -/
abbrev ENOSPC : Nat := 28

/-- As `world_cards`, with `stderr` on a full device: every output of
`debug` fails and leaves `ENOSPC` in `errno`. -/
def world_cards_stderr_full : World :=
  { world_cards with stderr_errno := fun _ => some ENOSPC }

/-- The configuration after the line `debug = yes`: the initial flags and
`FlagDebug`. -/
def Config.debug_on : Config :=
  ⟨FlagAllowChmod ||| FlagDropRootAuto ||| FlagDebug, Allowed.ConsoleOnly⟩

/-- As `world_console`, but no node can be opened (`EACCES`), and `stderr`
is on a full device. -/
def world_console_locked : World :=
  { world_console with
    open_rdonly := fun _ => SysResult.err EACCES
    stderr_errno := fun _ => some ENOSPC }

/-! ## The free display (`util.c`) -/

/-- What `find_free_display` reads from outside: whether `stat (path, &st)`
succeeds on a path, and whether `malloc (size)` returns a block. -/
structure DisplayEnv where
  stat_ok : CStr → Bool
  malloc_ok : Nat → Bool

/-- The bytes that `snprintf (buf, size, ...)` puts into `buf` when the
formatted text is `text`: at most `size - 1` bytes of the text and the
terminator; nothing at all for the size 0. -/
def snprintf_bytes (size : Nat) (text : CStr) : List Char :=
  if size = 0 then [] else text.take (size - 1) ++ [NUL]

/-- The size `sizeof (char) >> 2` that `s_display` passes to `x_malloc` and
to `snprintf`. -/
def s_display_size : Nat := 1 >>> 2

/-- The function `s_display` of `util.c`: the bytes of the block it returns,
`none` for `NULL`. -/
def s_display (m : DisplayEnv) (num : Nat) : Option (List Char) :=
  if m.malloc_ok s_display_size then
    some (snprintf_bytes s_display_size (':' :: (Nat.repr num).toList))
  else none

/-- The path that `snprintf (path, DISPLAY_LENGTH, DISPLAY_PATH, idx)` of
`find_free_display` builds; `DISPLAY_LENGTH` is
`sizeof ("/tmp/.X11-unix/X%d")`, 19. -/
def display_path (idx : Nat) : CStr :=
  cstr (snprintf_bytes 19 ("/tmp/.X11-unix/X".toList ++ (Nat.repr idx).toList)) 0

/-- The loop of `find_free_display` with `n` iterations left, at index
`idx`. -/
def find_free_display_loop (m : DisplayEnv) : Nat → Nat → Option (List Char)
  | 0, _ => none
  | n + 1, idx =>
    if ¬ m.stat_ok (display_path idx) then s_display m idx
    else find_free_display_loop m n (idx + 1)

/-- The function `find_free_display` of `util.c`: indices 0..99. -/
def find_free_display (m : DisplayEnv) : Option (List Char) :=
  find_free_display_loop m 100 0

/-- A system where the sockets of the displays 0 and 1 exist and `malloc`
returns a block for every size. -/
def display_env_two_taken : DisplayEnv :=
  ⟨fun path => decide (path = "/tmp/.X11-unix/X0".toList ∨ path = "/tmp/.X11-unix/X1".toList),
   fun _ => true⟩

/-- The array `vec` after the strings `l` are stored from index `p` on. -/
def store_args (vec : ArgVec) : Nat → List CStr → ArgVec
  | _, [] => vec
  | p, x :: rest => store_args (vec.set p (some x)) (p + 1) rest

/-! ## Strings of tokens -/

/-- A string written as its tokens, each followed by its separator:
`spaced [(t1, s1), ..., (tn, sn)]` is `t1 s1 ... tn sn`. -/
def spaced : List (CStr × CStr) → CStr
  | [] => []
  | (t, s) :: rest => t ++ (s ++ spaced rest)

/-- A token: not empty, without the NUL byte and without space, tab and
newline. -/
def is_token (t : CStr) : Bool :=
  decide (t ≠ []) && t.all (fun c => decide (c ≠ NUL) && !IS_SPACE c)

/-- A separator: only space, tab and newline. -/
def is_blank (s : CStr) : Bool := s.all IS_SPACE

/-- The layout of a string of `n` tokens: every first component is a token,
every second component a separator, and only the last separator may be
empty. -/
def well_spaced : List (CStr × CStr) → Bool
  | [] => true
  | (t, s) :: rest =>
    is_token t && is_blank s && (decide (s ≠ []) || decide (rest = [])) && well_spaced rest

/-- The position `add_args` returns for a string of the given layout, as
the code computes it: every token but one that ends the string moves `argv`
forward. -/
def add_args_end : List (CStr × CStr) → Nat → Nat
  | [], argv => argv
  | (_, s) :: rest, argv => if s = [] then argv else add_args_end rest (argv + 1)

/-! # Properties -/

/-! ## Bit tests -/

theorem and_bit_eq_zero_iff (m i : Nat) : m &&& 2 ^ i = 0 ↔ m.testBit i = false := by
  rw [Nat.and_two_pow]
  cases h : m.testBit i <;> simp

theorem and_S_IROTH (m : Nat) : m &&& S_IROTH = 0 ↔ m.testBit 2 = false :=
  and_bit_eq_zero_iff m 2

theorem and_S_IWOTH (m : Nat) : m &&& S_IWOTH = 0 ↔ m.testBit 1 = false :=
  and_bit_eq_zero_iff m 1

theorem and_S_IRGRP (m : Nat) : m &&& S_IRGRP = 0 ↔ m.testBit 5 = false :=
  and_bit_eq_zero_iff m 5

theorem and_S_IWGRP (m : Nat) : m &&& S_IWGRP = 0 ↔ m.testBit 4 = false :=
  and_bit_eq_zero_iff m 4

theorem and_S_IRUSR (m : Nat) : m &&& S_IRUSR = 0 ↔ m.testBit 8 = false :=
  and_bit_eq_zero_iff m 8

theorem and_S_IWUSR (m : Nat) : m &&& S_IWUSR = 0 ↔ m.testBit 7 = false :=
  and_bit_eq_zero_iff m 7

/-! ## `dev_has_rights` -/

theorem group_list_find_from_eq (gl : List Nat) (idx value : Nat) :
    group_list_find_from gl idx value = -1 ↔ value ∉ gl := by
  induction gl generalizing idx with
  | nil => simp [group_list_find_from]
  | cons g rest ih =>
    simp only [group_list_find_from, List.mem_cons, not_or]
    by_cases hg : g = value
    · simp only [hg, if_true, not_true_eq_false, false_and, iff_false]
      omega
    · rw [if_neg hg, ih]
      constructor
      · intro h; exact ⟨fun h2 => hg h2.symm, h⟩
      · intro h; exact h.2

theorem group_list_find_eq (gl : List Nat) (value : Nat) :
    group_list_find gl value = -1 ↔ value ∉ gl :=
  group_list_find_from_eq gl 0 value

theorem check_other_rights_iff (st : Stat) (read write : Bool) :
    check_other_rights st read write = true ↔
      (read = true → st.st_mode.testBit 2 = true) ∧
      (write = true → st.st_mode.testBit 1 = true) := by
  unfold check_other_rights
  simp only [and_S_IROTH, and_S_IWOTH]
  cases read <;> cases write <;> cases st.st_mode.testBit 2 <;>
    cases st.st_mode.testBit 1 <;> simp

theorem check_user_rights_iff (st : Stat) (uid : Nat) (read write : Bool) :
    check_user_rights st uid read write = true ↔
      st.st_uid = uid ∧ (read = true → st.st_mode.testBit 8 = true) ∧
      (write = true → st.st_mode.testBit 7 = true) := by
  unfold check_user_rights
  simp only [and_S_IRUSR, and_S_IWUSR]
  by_cases hu : st.st_uid = uid
  · cases read <;> cases write <;> cases st.st_mode.testBit 8 <;>
      cases st.st_mode.testBit 7 <;> simp [hu]
  · simp [hu]

theorem check_group_rights_iff (st : Stat) (gl : List Nat) (read write : Bool) :
    check_group_rights st gl read write = true ↔
      st.st_gid ∈ gl ∧ (read = true → st.st_mode.testBit 5 = true) ∧
      (write = true → st.st_mode.testBit 4 = true) := by
  unfold check_group_rights
  simp only [and_S_IRGRP, and_S_IWGRP, group_list_find_eq]
  by_cases hg : st.st_gid ∈ gl
  · cases read <;> cases write <;> cases st.st_mode.testBit 5 <;>
      cases st.st_mode.testBit 4 <;> simp [hg]
  · simp [hg]

/-- The verdict of `dev_has_rights` when the metadata call succeeds. -/
theorem dev_has_rights_of_stat (w : World) (uid : Nat) (gl : List Nat) (dev : Dev)
    (fd read write : Bool) (st : Stat) (h : w.stat dev = some st) :
    (dev_has_rights w uid gl dev fd read write).1 =
      if check_other_rights st read write = true ∨ check_user_rights st uid read write = true ∨
          check_group_rights st gl read write = true then Granted else Denied := by
  unfold dev_has_rights
  rw [h]
  by_cases h1 : check_other_rights st read write = true
  · simp [h1]
  · by_cases h2 : check_user_rights st uid read write = true
    · simp [h1, h2]
    · by_cases h3 : check_group_rights st gl read write = true
      · simp [h1, h2, h3]
      · simp [h1, h2, h3]

/-- C1: when the metadata call succeeds, `dev_has_rights` returns Granted iff
every requested bit is set in the other bits, or the owner is `uid` and every
requested bit is set in the owner bits, or the file's group is in the group
list and every requested bit is set in the group bits; otherwise it returns
Denied. -/
theorem dev_has_rights_granted_iff (w : World) (uid : Nat) (grouplist : List Nat) (dev : Dev)
    (fd read write : Bool) (st : Stat) (h : w.stat dev = some st) :
    ((dev_has_rights w uid grouplist dev fd read write).1 = Granted ↔
      ((read = true → st.st_mode.testBit 2 = true) ∧
        (write = true → st.st_mode.testBit 1 = true)) ∨
      (st.st_uid = uid ∧ (read = true → st.st_mode.testBit 8 = true) ∧
        (write = true → st.st_mode.testBit 7 = true)) ∨
      (st.st_gid ∈ grouplist ∧ (read = true → st.st_mode.testBit 5 = true) ∧
        (write = true → st.st_mode.testBit 4 = true))) ∧
    ((dev_has_rights w uid grouplist dev fd read write).1 ≠ Granted →
      (dev_has_rights w uid grouplist dev fd read write).1 = Denied) := by
  rw [dev_has_rights_of_stat w uid grouplist dev fd read write st h,
    ← check_other_rights_iff, ← check_user_rights_iff, ← check_group_rights_iff]
  constructor
  · constructor
    · intro hg
      by_contra hn
      rw [if_neg hn] at hg
      exact absurd hg (by decide)
    · intro hc
      rw [if_pos hc]
  · intro hn
    by_cases hc : check_other_rights st read write = true ∨
        check_user_rights st uid read write = true ∨
        check_group_rights st grouplist read write = true
    · rw [if_pos hc] at hn
      exact absurd rfl hn
    · rw [if_neg hc]

/-! ## Every evaluator returns one of the three verdicts -/

theorem dev_has_rights_verdict (w : World) (uid : Nat) (gl : List Nat) (dev : Dev)
    (fd read write : Bool) : IsVerdict (dev_has_rights w uid gl dev fd read write).1 := by
  unfold dev_has_rights IsVerdict
  split
  · simp
  · split
    · simp
    · split
      · simp
      · split <;> simp

theorem fbs_loop_verdict (w : World) (uid : Nat) (gl : List Nat) (n idx : Nat) :
    IsVerdict (fbs_loop w uid gl n idx).1 := by
  induction n generalizing idx with
  | zero => simp [fbs_loop, IsVerdict]
  | succ n ih =>
    simp only [fbs_loop]
    split
    · simp [IsVerdict]
    · split
      · simp [IsVerdict]
      · exact ih (idx + 1)

theorem events_loop_verdict (w : World) (uid : Nat) (gl : List Nat) (n idx : Nat) :
    IsVerdict (events_loop w uid gl n idx).1 := by
  induction n generalizing idx with
  | zero => simp [events_loop, IsVerdict]
  | succ n ih =>
    simp only [events_loop]
    split
    · simp [IsVerdict]
    · split
      · simp [IsVerdict]
      · exact ih (idx + 1)

theorem drm_dev_has_rights_verdict (cfg : Config) (w : World) (idx uid : Nat) (gl : List Nat) :
    IsVerdict (drm_dev_has_rights cfg w idx uid gl).1 := by
  unfold drm_dev_has_rights
  split
  · simp [IsVerdict]
  · simp only
    split
    · exact dev_has_rights_verdict w uid gl (Dev.card idx) true true true
    · split
      · split <;> simp [IsVerdict]
      · split
        · split <;> simp [IsVerdict]
        · simp [IsVerdict]

theorem drms_loop_verdict (cfg : Config) (w : World) (uid : Nat) (gl : List Nat) (n idx : Nat) :
    IsVerdict (drms_loop cfg w uid gl n idx).1 := by
  induction n generalizing idx with
  | zero => simp [drms_loop, IsVerdict]
  | succ n ih =>
    simp only [drms_loop]
    split
    · exact drm_dev_has_rights_verdict cfg w idx uid gl
    · exact ih (idx + 1)

theorem video_has_rights_verdict (cfg : Config) (w : World) (uid : Nat) (gl : List Nat) :
    IsVerdict (video_has_rights cfg w uid gl).1 := by
  unfold video_has_rights
  simp only
  split
  · exact fbs_loop_verdict w uid gl 8 0
  · exact drms_loop_verdict cfg w uid gl 16 0

theorem tty_dev_chmod_verdict (w : World) (idx : Nat) :
    (tty_dev_chmod w idx).ret = Granted ∨ (tty_dev_chmod w idx).ret = DIE := by
  unfold tty_dev_chmod
  split
  · simp
  · simp only
    split <;> simp

theorem ttys_loop_verdict (cfg : Config) (w : World) (uid : Nat) (gl : List Nat) (vstate : Nat)
    (n idx mask : Nat) (vtfree : Int) :
    IsVerdict (ttys_loop cfg w uid gl vstate n idx mask vtfree).ret := by
  induction n generalizing idx mask vtfree with
  | zero =>
    simp only [ttys_loop, ttys_after_loop]
    split
    · rcases tty_dev_chmod_verdict w vtfree.toNat with h | h <;> simp [IsVerdict, h]
    · simp [IsVerdict]
  | succ n ih =>
    simp only [ttys_loop]
    split
    · exact ih _ _ _
    · split
      · simp [IsVerdict]
      · split
        · simp [IsVerdict]
        · exact ih _ _ _

theorem ttys_have_rights_verdict (cfg : Config) (w : World) (uid : Nat) (gl : List Nat)
    (shareVTs : Bool) : IsVerdict (ttys_have_rights cfg w uid gl shareVTs).ret := by
  unfold ttys_have_rights
  simp only
  split
  · simp [IsVerdict]
  · split
    · simp [IsVerdict]
    · split
      · exact dev_has_rights_verdict _ _ _ _ _ _ _
      · exact ttys_loop_verdict _ _ _ _ _ _ _ _ _

/-! ## `handle_auto_rights` -/

/-- C2: `handle_auto_rights` returns Granted iff the graphics, console and
input verdicts are all Granted, Fatal iff at least one of them is Fatal, and
Denied in every remaining case.  Each sub-verdict is Granted, Denied or
Fatal; the input verdict is taken in the kernel state the console check
leaves. -/
theorem handle_auto_rights_combines (cfg : Config) (w : World) (uid : Nat)
    (grouplist : List Nat) (shareVTs : Bool) :
    IsVerdict (video_has_rights cfg w uid grouplist).1 ∧
    IsVerdict (ttys_have_rights cfg w uid grouplist shareVTs).ret ∧
    IsVerdict (events_have_rights
      (ttys_have_rights cfg w uid grouplist shareVTs).world uid grouplist).1 ∧
    ((handle_auto_rights cfg w uid grouplist shareVTs).ret = Granted ↔
      (video_has_rights cfg w uid grouplist).1 = Granted ∧
      (ttys_have_rights cfg w uid grouplist shareVTs).ret = Granted ∧
      (events_have_rights
        (ttys_have_rights cfg w uid grouplist shareVTs).world uid grouplist).1 = Granted) ∧
    ((handle_auto_rights cfg w uid grouplist shareVTs).ret = DIE ↔
      (video_has_rights cfg w uid grouplist).1 = DIE ∨
      (ttys_have_rights cfg w uid grouplist shareVTs).ret = DIE ∨
      (events_have_rights
        (ttys_have_rights cfg w uid grouplist shareVTs).world uid grouplist).1 = DIE) ∧
    ((handle_auto_rights cfg w uid grouplist shareVTs).ret ≠ Granted →
      (handle_auto_rights cfg w uid grouplist shareVTs).ret ≠ DIE →
      (handle_auto_rights cfg w uid grouplist shareVTs).ret = Denied) := by
  have hv := video_has_rights_verdict cfg w uid grouplist
  have ht := ttys_have_rights_verdict cfg w uid grouplist shareVTs
  have he := events_loop_verdict (ttys_have_rights cfg w uid grouplist shareVTs).world
    uid grouplist 32 0
  refine ⟨hv, ht, he, ?_⟩
  unfold handle_auto_rights
  simp only [events_have_rights]
  unfold IsVerdict at hv ht he
  rcases hv with hv | hv | hv <;> rcases ht with ht | ht | ht <;>
    rcases he with he | he | he <;> simp [hv, ht, he, Granted, Denied, DIE]

/-! ## `is_user_allowed` -/

/-- C3: `is_user_allowed` is true for uid 0 under every policy, and for a
non-zero uid it is false iff the policy is RootOnly; ConsoleOnly and Anybody
answer alike on every uid. -/
theorem is_user_allowed_spec (cfg : Config) :
    is_user_allowed cfg 0 = Granted ∧
    (∀ uid : Nat, uid ≠ 0 →
      ((is_user_allowed cfg uid = Denied ↔ cfg.allowed = Allowed.RootOnly) ∧
       (is_user_allowed cfg uid ≠ Denied → is_user_allowed cfg uid = Granted))) ∧
    (∀ (flags flags2 : Nat) (uid : Nat),
      is_user_allowed ⟨flags, Allowed.ConsoleOnly⟩ uid =
        is_user_allowed ⟨flags2, Allowed.Anybody⟩ uid) := by
  refine ⟨by simp [is_user_allowed], ?_, ?_⟩
  · intro uid hu
    unfold is_user_allowed
    cases h : cfg.allowed <;> simp [hu]
  · intro f1 f2 uid
    simp [is_user_allowed]

/-! ## A fatal outcome is never downgraded -/

theorem stat_event_yields_die (w : World) (dev : Dev) (fd : Bool) :
    (stat_event w dev fd).yields_die = true ↔ w.stat dev = none := by
  unfold stat_event
  cases fd <;> cases h : w.stat dev <;> simp [Event.yields_die]

theorem dev_has_rights_trace (w : World) (uid : Nat) (gl : List Nat) (dev : Dev)
    (fd read write : Bool) :
    (dev_has_rights w uid gl dev fd read write).2 = [stat_event w dev fd] := by
  unfold dev_has_rights
  split
  · rfl
  · split
    · rfl
    · split
      · rfl
      · split <;> rfl

theorem dev_has_rights_die_iff (w : World) (uid : Nat) (gl : List Nat) (dev : Dev)
    (fd read write : Bool) :
    (dev_has_rights w uid gl dev fd read write).1 = DIE ↔ w.stat dev = none := by
  cases h : w.stat dev with
  | none => simp [dev_has_rights, h]
  | some st =>
    rw [dev_has_rights_of_stat w uid gl dev fd read write st h]
    split <;> simp [Granted, Denied, DIE]

theorem dev_has_rights_fatal (w : World) (uid : Nat) (gl : List Nat) (dev : Dev)
    (fd read write : Bool)
    (h : (dev_has_rights w uid gl dev fd read write).2.any Event.yields_die = true) :
    (dev_has_rights w uid gl dev fd read write).1 = DIE := by
  rw [dev_has_rights_trace] at h
  simp only [List.any_cons, List.any_nil, Bool.or_false] at h
  rw [dev_has_rights_die_iff]
  exact (stat_event_yields_die w dev fd).1 h

theorem fbs_loop_fatal (w : World) (uid : Nat) (gl : List Nat) (n idx : Nat)
    (h : (fbs_loop w uid gl n idx).2.any Event.yields_die = true) :
    (fbs_loop w uid gl n idx).1 = DIE := by
  induction n generalizing idx with
  | zero => simp [fbs_loop] at h
  | succ n ih =>
    simp only [fbs_loop] at h ⊢
    split
    · rfl
    · rename_i hd
      split
      · rename_i hg
        rw [if_neg hd, if_pos hg] at h
        exact absurd (dev_has_rights_fatal _ _ _ _ _ _ _ h) hd
      · rename_i hg
        rw [if_neg hd, if_neg hg] at h
        simp only [List.any_append, Bool.or_eq_true] at h
        rcases h with h | h
        · exact absurd (dev_has_rights_fatal _ _ _ _ _ _ _ h) hd
        · exact ih _ h

theorem events_loop_fatal (w : World) (uid : Nat) (gl : List Nat) (n idx : Nat)
    (h : (events_loop w uid gl n idx).2.any Event.yields_die = true) :
    (events_loop w uid gl n idx).1 = DIE := by
  induction n generalizing idx with
  | zero => simp [events_loop] at h
  | succ n ih =>
    simp only [events_loop] at h ⊢
    split
    · rfl
    · rename_i hd
      split
      · rename_i hg
        rw [if_neg hd, if_pos hg] at h
        exact absurd (dev_has_rights_fatal _ _ _ _ _ _ _ h) hd
      · rename_i hg
        rw [if_neg hd, if_neg hg] at h
        simp only [List.any_append, Bool.or_eq_true] at h
        rcases h with h | h
        · exact absurd (dev_has_rights_fatal _ _ _ _ _ _ _ h) hd
        · exact ih _ h

theorem yields_die_open_ok (dev : Dev) :
    (Event.open_rdonly dev SysResult.ok).yields_die = false := by
  cases dev <;> rfl

theorem yields_die_open_card (idx : Nat) (r : SysResult) :
    (Event.open_rdonly (Dev.card idx) r).yields_die = false := by
  cases r <;> rfl

theorem yields_die_close (dev : Dev) : (Event.close dev).yields_die = false := rfl

theorem yields_die_set_master_ok (idx : Nat) :
    (Event.drm_set_master idx SysResult.ok).yields_die = false := rfl

theorem yields_die_drop_master_ok (idx : Nat) :
    (Event.drm_drop_master idx SysResult.ok).yields_die = false := rfl

theorem yields_die_set_master_err (idx e : Nat) :
    (Event.drm_set_master idx (SysResult.err e)).yields_die = false := rfl

theorem yields_die_drop_master_err (idx e : Nat) :
    (Event.drm_drop_master idx (SysResult.err e)).yields_die = false := rfl

theorem yields_die_open_err (dev : Dev) (e : Nat) :
    (Event.open_rdonly dev (SysResult.err e)).yields_die = false := rfl

theorem yields_die_errno_read (e : Nat) :
    (Event.errno_read e).yields_die = decide (e ≠ EACCES) := rfl

theorem drm_dev_has_rights_fatal (cfg : Config) (w : World) (idx uid : Nat) (gl : List Nat)
    (h : (drm_dev_has_rights cfg w idx uid gl).2.any Event.yields_die = true) :
    (drm_dev_has_rights cfg w idx uid gl).1 = DIE := by
  have hd := dev_has_rights_fatal w uid gl (Dev.card idx) true true true
  unfold drm_dev_has_rights at h ⊢
  split
  · rename_i e he
    simp [he, yields_die_open_card] at h
  · rename_i he
    simp only [he] at h
    simp only
    split
    · rename_i hg
      rw [if_pos hg] at h
      simp only [List.any_cons, List.any_append, List.any_nil, Bool.or_false, Bool.or_eq_true,
        yields_die_open_ok, yields_die_close, Bool.false_eq_true, false_or, or_false] at h
      exact hd h
    · rename_i hg
      rw [if_neg hg] at h
      have hnd : (dev_has_rights w uid gl (Dev.card idx) true true true).2.any
          Event.yields_die = false := by
        cases hc : (dev_has_rights w uid gl (Dev.card idx) true true true).2.any
          Event.yields_die with
        | false => rfl
        | true =>
          have := hd hc
          simp only [ne_eq, not_not] at hg
          rw [hg] at this
          exact absurd this (by decide)
      split
      · rename_i e hs
        simp only [hs] at h
        simp only [List.any_cons, List.any_append, List.any_nil, Bool.or_false, Bool.or_eq_true,
          yields_die_open_ok, yields_die_close, yields_die_set_master_err,
          yields_die_errno_read, hnd, Bool.false_eq_true, false_or, or_false,
          decide_eq_true_eq] at h
        rw [if_neg h]
      · rename_i hs
        simp only [hs] at h
        split
        · rename_i e hr
          simp only [hr] at h
          simp only [List.any_cons, List.any_append, List.any_nil, Bool.or_false,
            Bool.or_eq_true, yields_die_open_ok, yields_die_close, yields_die_set_master_ok,
            yields_die_drop_master_err, yields_die_errno_read, hnd, Bool.false_eq_true,
            false_or, or_false, decide_eq_true_eq] at h
          rw [if_neg h]
        · rename_i hr
          simp only [hr] at h
          simp [yields_die_open_ok, yields_die_close, yields_die_set_master_ok,
            yields_die_drop_master_ok, hnd] at h

theorem drms_loop_fatal (cfg : Config) (w : World) (uid : Nat) (gl : List Nat) (n idx : Nat)
    (h : (drms_loop cfg w uid gl n idx).2.any Event.yields_die = true) :
    (drms_loop cfg w uid gl n idx).1 = DIE := by
  induction n generalizing idx with
  | zero => simp [drms_loop] at h
  | succ n ih =>
    simp only [drms_loop] at h ⊢
    split
    · rename_i hg
      rw [if_pos hg] at h
      exact drm_dev_has_rights_fatal _ _ _ _ _ h
    · rename_i hg
      rw [if_neg hg] at h
      simp only [List.any_append, Bool.or_eq_true] at h
      rcases h with h | h
      · have := drm_dev_has_rights_fatal _ _ _ _ _ h
        simp only [ne_eq, not_not] at hg
        rw [hg] at this
        exact absurd this (by decide)
      · exact ih _ h

theorem video_has_rights_fatal (cfg : Config) (w : World) (uid : Nat) (gl : List Nat)
    (h : (video_has_rights cfg w uid gl).2.any Event.yields_die = true) :
    (video_has_rights cfg w uid gl).1 = DIE := by
  unfold video_has_rights at h ⊢
  simp only at h ⊢
  split
  · rename_i hg
    rw [if_pos hg] at h
    exact fbs_loop_fatal _ _ _ _ _ h
  · rename_i hg
    rw [if_neg hg] at h
    simp only [List.any_append, Bool.or_eq_true] at h
    rcases h with h | h
    · have := fbs_loop_fatal w uid gl 8 0 h
      simp only [ne_eq, not_not, fbs_have_rights] at hg
      rw [hg] at this
      exact absurd this (by decide)
    · exact drms_loop_fatal _ _ _ _ _ _ h

theorem tty_dev_chmod_fatal (w : World) (idx : Nat)
    (h : (tty_dev_chmod w idx).trace.any Event.yields_die = true) :
    (tty_dev_chmod w idx).ret = DIE := by
  unfold tty_dev_chmod at h ⊢
  split
  · rfl
  · rename_i st hs
    simp only [hs] at h
    simp only
    split
    · rename_i hc
      rw [if_pos hc] at h
      simp [Event.yields_die] at h
    · rfl

theorem tty_zero_dev_has_rights_fatal (cfg : Config) (w : World) (uid : Nat) (gl : List Nat)
    (h : (tty_zero_dev_has_rights cfg w uid gl).2.2.any Event.yields_die = true) :
    (tty_zero_dev_has_rights cfg w uid gl).1 = DIE := by
  have hd := dev_has_rights_fatal w uid gl (tty_name 0) true false true
  unfold tty_zero_dev_has_rights at h ⊢
  split
  · rename_i e he
    simp only [he] at h
    simp only [List.any_cons, List.any_nil, Bool.or_false, yields_die_open_err,
      yields_die_errno_read, Bool.false_or, decide_eq_true_eq] at h
    rw [if_neg h]
  · rename_i he
    simp only [he] at h
    simp only
    split
    · rename_i hg
      rw [if_pos hg] at h
      simp only [List.any_cons, Bool.or_eq_true, yields_die_open_ok, Bool.false_eq_true,
        false_or] at h
      exact hd h
    · rename_i hg
      rw [if_neg hg] at h
      split
      · rfl
      · rename_i vts hv
        simp only [hv] at h
        simp only [List.any_cons, List.any_append, List.any_nil, Bool.or_false, Bool.or_eq_true,
          yields_die_open_ok, yields_die_close, Bool.false_eq_true, false_or, or_false] at h
        rcases h with h | h
        · have := hd h
          simp only [ne_eq, not_not] at hg
          rw [hg] at this
          exact absurd this (by decide)
        · simp [Event.yields_die] at h

theorem ttys_loop_fatal (cfg : Config) (w : World) (uid : Nat) (gl : List Nat) (vstate : Nat)
    (n idx mask : Nat) (vtfree : Int)
    (h : (ttys_loop cfg w uid gl vstate n idx mask vtfree).trace.any Event.yields_die = true) :
    (ttys_loop cfg w uid gl vstate n idx mask vtfree).ret = DIE := by
  induction n generalizing idx mask vtfree with
  | zero =>
    simp only [ttys_loop, ttys_after_loop] at h ⊢
    split
    · rename_i hc
      rw [if_pos hc] at h
      exact tty_dev_chmod_fatal _ _ h
    · rename_i hc
      rw [if_neg hc] at h
      simp at h
  | succ n ih =>
    simp only [ttys_loop] at h ⊢
    split
    · rename_i hm
      rw [if_pos hm] at h
      exact ih _ _ _ h
    · rename_i hm
      rw [if_neg hm] at h
      split
      · rfl
      · rename_i hd
        rw [if_neg hd] at h
        split
        · rename_i hg
          rw [if_pos hg] at h
          exact absurd (dev_has_rights_fatal _ _ _ _ _ _ _ h) hd
        · rename_i hg
          rw [if_neg hg] at h
          simp only [List.any_append, Bool.or_eq_true] at h
          rcases h with h | h
          · exact absurd (dev_has_rights_fatal _ _ _ _ _ _ _ h) hd
          · exact ih _ _ _ h

theorem ttys_have_rights_fatal (cfg : Config) (w : World) (uid : Nat) (gl : List Nat)
    (shareVTs : Bool)
    (h : (ttys_have_rights cfg w uid gl shareVTs).trace.any Event.yields_die = true) :
    (ttys_have_rights cfg w uid gl shareVTs).ret = DIE := by
  have hz := tty_zero_dev_has_rights_fatal cfg w uid gl
  unfold ttys_have_rights at h ⊢
  simp only at h ⊢
  split
  · rfl
  · rename_i hd
    rw [if_neg hd] at h
    split
    · rename_i h0
      rw [if_pos h0] at h
      exact absurd (hz h) hd
    · rename_i h0
      rw [if_neg h0] at h
      split
      · rename_i hs
        rw [if_pos hs] at h
        simp only [List.any_append, Bool.or_eq_true] at h
        rcases h with h | h
        · exact absurd (hz h) hd
        · exact dev_has_rights_fatal _ _ _ _ _ _ _ h
      · rename_i hs
        rw [if_neg hs] at h
        simp only [List.any_append, Bool.or_eq_true] at h
        rcases h with h | h
        · exact absurd (hz h) hd
        · exact ttys_loop_fatal _ _ _ _ _ _ _ _ _ h

theorem handle_auto_rights_fatal (cfg : Config) (w : World) (uid : Nat) (gl : List Nat)
    (shareVTs : Bool)
    (h : (handle_auto_rights cfg w uid gl shareVTs).trace.any Event.yields_die = true) :
    (handle_auto_rights cfg w uid gl shareVTs).ret = DIE := by
  have hv := video_has_rights_fatal cfg w uid gl
  have ht := ttys_have_rights_fatal cfg w uid gl shareVTs
  have he := events_loop_fatal (ttys_have_rights cfg w uid gl shareVTs).world uid gl 32 0
  unfold handle_auto_rights at h ⊢
  simp only [events_have_rights] at h ⊢
  split
  · rfl
  · rename_i h1
    rw [if_neg h1] at h
    split
    · rfl
    · rename_i h2
      rw [if_neg h2] at h
      split
      · rfl
      · rename_i h3
        rw [if_neg h3] at h
        simp only [List.any_append, Bool.or_eq_true] at h
        rcases h with (h | h) | h
        · exact absurd (hv h) h1
        · exact absurd (ht h) h2
        · exact absurd (he h) h3

theorem dev_has_rights_die_fatal (w : World) (uid : Nat) (gl : List Nat) (dev : Dev)
    (fd read write : Bool) :
    (dev_has_rights w uid gl dev fd read write).1 = DIE ↔
      (dev_has_rights w uid gl dev fd read write).2.any Event.yields_die = true := by
  constructor
  · intro h
    rw [dev_has_rights_trace]
    simp only [List.any_cons, List.any_nil, Bool.or_false]
    exact (stat_event_yields_die w dev fd).2 ((dev_has_rights_die_iff _ _ _ _ _ _ _).1 h)
  · exact dev_has_rights_fatal w uid gl dev fd read write

theorem drm_dev_has_rights_die_fatal (cfg : Config) (w : World) (idx uid : Nat) (gl : List Nat) :
    (drm_dev_has_rights cfg w idx uid gl).1 = DIE ↔
      (drm_dev_has_rights cfg w idx uid gl).2.any Event.yields_die = true := by
  constructor
  · intro h
    have hd := (dev_has_rights_die_fatal w uid gl (Dev.card idx) true true true).1
    unfold drm_dev_has_rights at h ⊢
    cases ho : w.open_rdonly (Dev.card idx) with
    | err e => simp [ho, Denied, DIE] at h
    | ok =>
      simp only [ho] at h ⊢
      by_cases hg : (dev_has_rights w uid gl (Dev.card idx) true true true).1 ≠ Granted
      · rw [if_pos hg] at h ⊢
        simp only [List.any_cons, List.any_append, Bool.or_eq_true]
        exact Or.inl (Or.inr (hd h))
      · rw [if_neg hg] at h ⊢
        cases hs : w.drm_set_master idx with
        | err e =>
          simp only [hs] at h ⊢
          by_cases he : errno_after_debug cfg w (Event.drm_set_master idx (SysResult.err e)) e
              = EACCES
          · simp [he, Denied, DIE] at h
          · simp [yields_die_set_master_err, yields_die_errno_read, he]
        | ok =>
          simp only [hs] at h ⊢
          cases hr : w.drm_drop_master idx with
          | err e =>
            simp only [hr] at h ⊢
            by_cases he : errno_after_debug cfg w (Event.drm_drop_master idx (SysResult.err e)) e
                = EACCES
            · simp [he, Denied, DIE] at h
            · simp [yields_die_drop_master_err, yields_die_errno_read, he]
          | ok =>
            simp [hr, Granted, DIE] at h
  · exact drm_dev_has_rights_fatal cfg w idx uid gl

theorem tty_zero_die_fatal (cfg : Config) (w : World) (uid : Nat) (gl : List Nat) :
    (tty_zero_dev_has_rights cfg w uid gl).1 = DIE ↔
      (tty_zero_dev_has_rights cfg w uid gl).2.2.any Event.yields_die = true := by
  constructor
  · intro h
    have hd := (dev_has_rights_die_fatal w uid gl (tty_name 0) true false true).1
    unfold tty_zero_dev_has_rights at h ⊢
    cases ho : w.open_rdonly (tty_name 0) with
    | err e =>
      simp only [ho] at h ⊢
      by_cases he : errno_after_debug cfg w (Event.open_rdonly (tty_name 0) (SysResult.err e)) e
          = EACCES
      · simp [he, Denied, DIE] at h
      · simp [yields_die_open_err, yields_die_errno_read, he]
    | ok =>
      simp only [ho] at h ⊢
      by_cases hg : (dev_has_rights w uid gl (tty_name 0) true false true).1 ≠ Granted
      · rw [if_pos hg] at h ⊢
        simp only [List.any_cons, Bool.or_eq_true]
        exact Or.inr (hd h)
      · rw [if_neg hg] at h ⊢
        cases hs : w.vt_getstate with
        | none => simp [Event.yields_die]
        | some vts =>
          simp only [hs] at h
          exact absurd h (by simp only [DIE]; omega)
  · exact tty_zero_dev_has_rights_fatal cfg w uid gl

theorem tty_dev_chmod_die_fatal (w : World) (idx : Nat) :
    (tty_dev_chmod w idx).ret = DIE ↔
      (tty_dev_chmod w idx).trace.any Event.yields_die = true := by
  constructor
  · intro h
    unfold tty_dev_chmod at h ⊢
    cases hs : w.stat (tty_name idx) with
    | none => simp [Event.yields_die]
    | some st =>
      simp only [hs] at h ⊢
      by_cases hc : w.chmod (tty_name idx) (st.st_mode ||| (S_IRGRP ||| S_IWGRP)) = true
      · rw [if_pos hc] at h
        simp [Granted, DIE] at h
      · rw [if_neg hc]
        simp [Event.yields_die]
  · exact tty_dev_chmod_fatal w idx

/-- C4: in auto mode, when a step performed during the evaluation has an
outcome the code treats as fatal (a failed metadata call of a device probe,
a failed console state query, a failed chmod, and a test of `errno` that
does not find `EACCES`, made after `debug` when the open of tty0 or a master
ioctl has failed), `check_rights` returns Fatal; and each evaluator function
returns Fatal when such a step occurs among the steps it performed, so none
maps a Fatal it received to Denied or Granted.  The last four parts say that
these are exactly the steps on which a device probe, a card check, the tty0
check and the chmod repair return Fatal. -/
theorem check_rights_fatal_propagates (cfg : Config) (w : World) (uid : Nat)
    (grouplist : List Nat) (shareVTs : Bool) :
    ((check_rights cfg w uid shareVTs).trace.any Event.yields_die = true →
      (check_rights cfg w uid shareVTs).ret = DIE) ∧
    ((handle_auto_rights cfg w uid grouplist shareVTs).trace.any Event.yields_die = true →
      (handle_auto_rights cfg w uid grouplist shareVTs).ret = DIE) ∧
    ((video_has_rights cfg w uid grouplist).2.any Event.yields_die = true →
      (video_has_rights cfg w uid grouplist).1 = DIE) ∧
    ((fbs_have_rights w uid grouplist).2.any Event.yields_die = true →
      (fbs_have_rights w uid grouplist).1 = DIE) ∧
    ((drms_have_rights cfg w uid grouplist).2.any Event.yields_die = true →
      (drms_have_rights cfg w uid grouplist).1 = DIE) ∧
    ((ttys_have_rights cfg w uid grouplist shareVTs).trace.any Event.yields_die = true →
      (ttys_have_rights cfg w uid grouplist shareVTs).ret = DIE) ∧
    ((events_have_rights w uid grouplist).2.any Event.yields_die = true →
      (events_have_rights w uid grouplist).1 = DIE) ∧
    (∀ dev fd read write,
      (dev_has_rights w uid grouplist dev fd read write).1 = DIE ↔
        (dev_has_rights w uid grouplist dev fd read write).2.any Event.yields_die = true) ∧
    (∀ idx, (drm_dev_has_rights cfg w idx uid grouplist).1 = DIE ↔
      (drm_dev_has_rights cfg w idx uid grouplist).2.any Event.yields_die = true) ∧
    ((tty_zero_dev_has_rights cfg w uid grouplist).1 = DIE ↔
      (tty_zero_dev_has_rights cfg w uid grouplist).2.2.any Event.yields_die = true) ∧
    (∀ idx, (tty_dev_chmod w idx).ret = DIE ↔
      (tty_dev_chmod w idx).trace.any Event.yields_die = true) := by
  refine ⟨?_, handle_auto_rights_fatal cfg w uid grouplist shareVTs,
    video_has_rights_fatal cfg w uid grouplist, fbs_loop_fatal w uid grouplist 8 0,
    drms_loop_fatal cfg w uid grouplist 16 0, ttys_have_rights_fatal cfg w uid grouplist shareVTs,
    events_loop_fatal w uid grouplist 32 0,
    fun dev fd read write => dev_has_rights_die_fatal w uid grouplist dev fd read write,
    fun idx => drm_dev_has_rights_die_fatal cfg w idx uid grouplist,
    tty_zero_die_fatal cfg w uid grouplist, fun idx => tty_dev_chmod_die_fatal w idx⟩
  intro h
  unfold check_rights at h ⊢
  split
  · rename_i ha
    rw [if_pos ha] at h
    split
    · rfl
    · rename_i gl hg
      simp only [hg] at h
      simp only [List.any_cons, Bool.or_eq_true] at h
      rcases h with h | h
      · simp [Event.yields_die] at h
      · exact handle_auto_rights_fatal cfg w uid gl shareVTs h
  · rename_i ha
    rw [if_neg ha] at h
    simp at h

/-! ## `video_has_rights` -/

theorem dev_has_rights_ne_die (w : World) (uid : Nat) (gl : List Nat) (dev : Dev)
    (fd read write : Bool) (h : w.stat dev ≠ none) :
    (dev_has_rights w uid gl dev fd read write).1 ≠ DIE := by
  rw [ne_eq, dev_has_rights_die_iff]
  exact h

theorem verdict_truthy {x : Int} (hv : IsVerdict x) (hd : x ≠ DIE) : x ≠ 0 ↔ x = Granted := by
  rcases hv with h | h | h
  · simp [h, Granted]
  · simp [h, Granted, Denied]
  · exact absurd h hd

theorem fbs_loop_granted_iff (w : World) (uid : Nat) (gl : List Nat) (n idx : Nat)
    (h : ∀ i, idx ≤ i → i < idx + n → w.stat (Dev.fb i) ≠ none) :
    (fbs_loop w uid gl n idx).1 ≠ DIE ∧
    ((fbs_loop w uid gl n idx).1 = Granted ↔
      ∃ i, idx ≤ i ∧ i < idx + n ∧
        (dev_has_rights w uid gl (Dev.fb i) false true true).1 = Granted) := by
  induction n generalizing idx with
  | zero =>
    simp only [fbs_loop]
    refine ⟨by decide, ?_⟩
    constructor
    · intro hc; exact absurd hc (by decide)
    · rintro ⟨i, h1, h2, _⟩; omega
  | succ n ih =>
    have hd := dev_has_rights_ne_die w uid gl (Dev.fb idx) false true true
      (h idx (Nat.le_refl _) (by omega))
    have hv := dev_has_rights_verdict w uid gl (Dev.fb idx) false true true
    have ih1 := ih (idx + 1) (fun i h1 h2 => h i (by omega) (by omega))
    simp only [fbs_loop]
    rw [if_neg hd]
    by_cases hg : (dev_has_rights w uid gl (Dev.fb idx) false true true).1 ≠ 0
    · rw [if_pos hg]
      refine ⟨by simp [DIE], ?_⟩
      constructor
      · intro _
        exact ⟨idx, Nat.le_refl _, by omega, (verdict_truthy hv hd).1 hg⟩
      · intro _; rfl
    · rw [if_neg hg]
      refine ⟨ih1.1, ?_⟩
      rw [ih1.2]
      constructor
      · rintro ⟨i, h1, h2, h3⟩
        exact ⟨i, by omega, by omega, h3⟩
      · rintro ⟨i, h1, h2, h3⟩
        by_cases hi : i = idx
        · subst hi
          exact absurd ((verdict_truthy hv hd).2 h3) hg
        · exact ⟨i, by omega, by omega, h3⟩

theorem drms_loop_granted_iff (cfg : Config) (w : World) (uid : Nat) (gl : List Nat) (n idx : Nat)
    (h : ∀ i, idx ≤ i → i < idx + n → (drm_dev_has_rights cfg w i uid gl).1 ≠ DIE) :
    (drms_loop cfg w uid gl n idx).1 ≠ DIE ∧
    ((drms_loop cfg w uid gl n idx).1 = Granted ↔
      ∃ i, idx ≤ i ∧ i < idx + n ∧ (drm_dev_has_rights cfg w i uid gl).1 = Granted) := by
  induction n generalizing idx with
  | zero =>
    simp only [drms_loop]
    refine ⟨by decide, ?_⟩
    constructor
    · intro hc; exact absurd hc (by decide)
    · rintro ⟨i, h1, h2, _⟩; omega
  | succ n ih =>
    have hd := h idx (Nat.le_refl _) (by omega)
    have hv := drm_dev_has_rights_verdict cfg w idx uid gl
    have ih1 := ih (idx + 1) (fun i h1 h2 => h i (by omega) (by omega))
    simp only [drms_loop]
    by_cases hg : (drm_dev_has_rights cfg w idx uid gl).1 ≠ 0
    · rw [if_pos hg]
      refine ⟨hd, ?_⟩
      constructor
      · intro hgr
        exact ⟨idx, Nat.le_refl _, by omega, hgr⟩
      · intro _
        exact (verdict_truthy hv hd).1 hg
    · rw [if_neg hg]
      refine ⟨ih1.1, ?_⟩
      rw [ih1.2]
      constructor
      · rintro ⟨i, h1, h2, h3⟩
        exact ⟨i, by omega, by omega, h3⟩
      · rintro ⟨i, h1, h2, h3⟩
        by_cases hi : i = idx
        · subst hi
          exact absurd ((verdict_truthy hv hd).2 h3) hg
        · exact ⟨i, by omega, by omega, h3⟩

/-- C5, as the code has it: in a device state where no framebuffer probe and
no card check is Fatal, `video_has_rights` is Granted iff some framebuffer
index 0..7 grants read+write and some card index 0..15 passes its check;
with a usable framebuffer the verdict is that of the card scan, and with no
usable framebuffer it is Denied and the card scan is not run. -/
theorem video_has_rights_needs_both (cfg : Config) (w : World) (uid : Nat) (grouplist : List Nat)
    (hfb : ∀ i, i < 8 → w.stat (Dev.fb i) ≠ none)
    (hcard : ∀ j, j < 16 → (drm_dev_has_rights cfg w j uid grouplist).1 ≠ DIE) :
    ((video_has_rights cfg w uid grouplist).1 = Granted ↔
      (∃ i, i < 8 ∧ (dev_has_rights w uid grouplist (Dev.fb i) false true true).1 = Granted) ∧
      (∃ j, j < 16 ∧ (drm_dev_has_rights cfg w j uid grouplist).1 = Granted)) ∧
    ((video_has_rights cfg w uid grouplist).1 ≠ Granted →
      (video_has_rights cfg w uid grouplist).1 = Denied) ∧
    ((∃ i, i < 8 ∧ (dev_has_rights w uid grouplist (Dev.fb i) false true true).1 = Granted) →
      (video_has_rights cfg w uid grouplist).1 = (drms_have_rights cfg w uid grouplist).1) ∧
    ((∀ i, i < 8 → (dev_has_rights w uid grouplist (Dev.fb i) false true true).1 ≠ Granted) →
      (video_has_rights cfg w uid grouplist).1 = Denied ∧
      (video_has_rights cfg w uid grouplist).2 = (fbs_have_rights w uid grouplist).2) := by
  have hf := fbs_loop_granted_iff w uid grouplist 8 0 (fun i _ h2 => hfb i (by omega))
  have hc := drms_loop_granted_iff cfg w uid grouplist 16 0 (fun j _ h2 => hcard j (by omega))
  have hfv := fbs_loop_verdict w uid grouplist 8 0
  have hvv := video_has_rights_verdict cfg w uid grouplist
  have hfex : (fbs_loop w uid grouplist 8 0).1 = Granted ↔
      ∃ i, i < 8 ∧ (dev_has_rights w uid grouplist (Dev.fb i) false true true).1 = Granted := by
    rw [hf.2]
    constructor
    · rintro ⟨i, _, h2, h3⟩; exact ⟨i, by omega, h3⟩
    · rintro ⟨i, h2, h3⟩; exact ⟨i, Nat.zero_le _, by omega, h3⟩
  have hcex : (drms_loop cfg w uid grouplist 16 0).1 = Granted ↔
      ∃ j, j < 16 ∧ (drm_dev_has_rights cfg w j uid grouplist).1 = Granted := by
    rw [hc.2]
    constructor
    · rintro ⟨i, _, h2, h3⟩; exact ⟨i, by omega, h3⟩
    · rintro ⟨i, h2, h3⟩; exact ⟨i, Nat.zero_le _, by omega, h3⟩
  rw [← hfex, ← hcex]
  unfold video_has_rights
  simp only [fbs_have_rights, drms_have_rights]
  by_cases hg : (fbs_loop w uid grouplist 8 0).1 = Granted
  · simp only [hg, ne_eq, not_true_eq_false, if_false, true_and, forall_true_left]
    refine ⟨?_, ?_⟩
    · intro hn
      rcases drms_loop_verdict cfg w uid grouplist 16 0 with h | h | h
      · exact absurd h hn
      · exact h
      · exact absurd h hc.1
    · intro hall
      rw [hfex] at hg
      obtain ⟨i, h1, h2⟩ := hg
      exact absurd h2 (hall i h1)
  · have hden : (fbs_loop w uid grouplist 8 0).1 = Denied := by
      rcases hfv with h | h | h
      · exact absurd h hg
      · exact h
      · exact absurd h hf.1
    simp only [ne_eq, hg, not_false_eq_true, if_true, false_and, false_implies, and_true,
      true_and, forall_true_left, implies_true, iff_false]
    exact ⟨hden, fun _ => hden⟩

/-! ## `ttys_have_rights` -/

theorem chmod_calls_append (a b : List Event) :
    chmod_calls (a ++ b) = chmod_calls a ++ chmod_calls b := by
  induction a with
  | nil => rfl
  | cons e rest ih =>
    cases e <;> simp [chmod_calls, ih]

theorem chmod_calls_dev_has_rights (w : World) (uid : Nat) (gl : List Nat) (dev : Dev)
    (fd read write : Bool) :
    chmod_calls (dev_has_rights w uid gl dev fd read write).2 = [] := by
  rw [dev_has_rights_trace]
  unfold stat_event
  cases fd <;> rfl

theorem shift_mask (idx : Nat) : (2 ^ idx) <<< 1 = 2 ^ (idx + 1) := by
  rw [Nat.shiftLeft_eq, Nat.pow_one, Nat.pow_succ]

theorem mask_test (vstate idx : Nat) : vstate &&& 2 ^ idx ≠ 0 ↔ vstate.testBit idx = true := by
  rw [ne_eq, and_bit_eq_zero_iff]
  cases vstate.testBit idx <;> simp

theorem ttys_loop_used (cfg : Config) (w : World) (uid : Nat) (gl : List Nat) (vstate : Nat)
    (n idx : Nat) (vtfree : Int) (h : vstate.testBit idx = true) :
    ttys_loop cfg w uid gl vstate (n + 1) idx (2 ^ idx) vtfree =
      ttys_loop cfg w uid gl vstate n (idx + 1) (2 ^ (idx + 1)) vtfree := by
  simp only [ttys_loop]
  rw [if_pos ((mask_test vstate idx).2 h), shift_mask]

theorem ttys_loop_die (cfg : Config) (w : World) (uid : Nat) (gl : List Nat) (vstate : Nat)
    (n idx : Nat) (vtfree : Int) (h : vstate.testBit idx = false)
    (hp : (dev_has_rights w uid gl (tty_name idx) false true true).1 = DIE) :
    ttys_loop cfg w uid gl vstate (n + 1) idx (2 ^ idx) vtfree =
      ⟨DIE, (dev_has_rights w uid gl (tty_name idx) false true true).2, w⟩ := by
  simp only [ttys_loop]
  rw [if_neg (fun hc => by rw [(mask_test vstate idx).1 hc] at h; exact absurd h (by decide)),
    if_pos hp]

theorem ttys_loop_granted (cfg : Config) (w : World) (uid : Nat) (gl : List Nat) (vstate : Nat)
    (n idx : Nat) (vtfree : Int) (h : vstate.testBit idx = false)
    (hp : (dev_has_rights w uid gl (tty_name idx) false true true).1 = Granted) :
    ttys_loop cfg w uid gl vstate (n + 1) idx (2 ^ idx) vtfree =
      ⟨Granted, (dev_has_rights w uid gl (tty_name idx) false true true).2, w⟩ := by
  simp only [ttys_loop]
  rw [if_neg (fun hc => by rw [(mask_test vstate idx).1 hc] at h; exact absurd h (by decide)),
    if_neg (by rw [hp]; decide), if_pos (by rw [hp]; decide)]

theorem ttys_loop_denied (cfg : Config) (w : World) (uid : Nat) (gl : List Nat) (vstate : Nat)
    (n idx : Nat) (vtfree : Int) (h : vstate.testBit idx = false)
    (hp : (dev_has_rights w uid gl (tty_name idx) false true true).1 = Denied) :
    ttys_loop cfg w uid gl vstate (n + 1) idx (2 ^ idx) vtfree =
      ⟨(ttys_loop cfg w uid gl vstate n (idx + 1) (2 ^ (idx + 1))
          (if vtfree = -1 then (idx : Int) else vtfree)).ret,
        (dev_has_rights w uid gl (tty_name idx) false true true).2 ++
        (ttys_loop cfg w uid gl vstate n (idx + 1) (2 ^ (idx + 1))
          (if vtfree = -1 then (idx : Int) else vtfree)).trace,
        (ttys_loop cfg w uid gl vstate n (idx + 1) (2 ^ (idx + 1))
          (if vtfree = -1 then (idx : Int) else vtfree)).world⟩ := by
  simp only [ttys_loop]
  rw [if_neg (fun hc => by rw [(mask_test vstate idx).1 hc] at h; exact absurd h (by decide)),
    if_neg (by rw [hp]; decide), if_neg (by rw [hp]; decide), shift_mask]

/-- The two ways the console scan ends.  Either it stops at the first free
index whose probe is not Denied, with that verdict and without any chmod; or
every free index is Denied and the scan ends in `ttys_after_loop` on the
first free index (or on the `vtfree` it was entered with). -/
theorem ttys_loop_cases (cfg : Config) (w : World) (uid : Nat) (gl : List Nat) (vstate : Nat)
    (n idx : Nat) (vtfree : Int) :
    (∃ i, idx ≤ i ∧ i < idx + n ∧ vstate.testBit i = false ∧
      (∀ k, idx ≤ k → k < i → vstate.testBit k = false →
        (dev_has_rights w uid gl (tty_name k) false true true).1 = Denied) ∧
      (dev_has_rights w uid gl (tty_name i) false true true).1 ≠ Denied ∧
      (ttys_loop cfg w uid gl vstate n idx (2 ^ idx) vtfree).ret =
        (if (dev_has_rights w uid gl (tty_name i) false true true).1 = DIE
          then DIE else Granted) ∧
      (ttys_loop cfg w uid gl vstate n idx (2 ^ idx) vtfree).world = w ∧
      chmod_calls (ttys_loop cfg w uid gl vstate n idx (2 ^ idx) vtfree).trace = []) ∨
    ((∀ k, idx ≤ k → k < idx + n → vstate.testBit k = false →
        (dev_has_rights w uid gl (tty_name k) false true true).1 = Denied) ∧
      ∃ v : Int,
        ((vtfree ≠ -1 ∧ v = vtfree) ∨
         (vtfree = -1 ∧ v = -1 ∧ ∀ k, idx ≤ k → k < idx + n → vstate.testBit k = true) ∨
         (vtfree = -1 ∧ ∃ j : Nat, v = (j : Int) ∧ idx ≤ j ∧ j < idx + n ∧
            vstate.testBit j = false ∧ ∀ k, idx ≤ k → k < j → vstate.testBit k = true)) ∧
        (ttys_loop cfg w uid gl vstate n idx (2 ^ idx) vtfree).ret =
          (ttys_after_loop cfg w v).ret ∧
        (ttys_loop cfg w uid gl vstate n idx (2 ^ idx) vtfree).world =
          (ttys_after_loop cfg w v).world ∧
        chmod_calls (ttys_loop cfg w uid gl vstate n idx (2 ^ idx) vtfree).trace =
          chmod_calls (ttys_after_loop cfg w v).trace) := by
  induction n generalizing idx vtfree with
  | zero =>
    right
    refine ⟨fun k h1 h2 => by omega, vtfree, ?_, by simp [ttys_loop], by simp [ttys_loop],
      by simp [ttys_loop]⟩
    by_cases hv : vtfree = -1
    · right; left
      exact ⟨hv, hv, fun k h1 h2 => by omega⟩
    · left
      exact ⟨hv, rfl⟩
  | succ n ih =>
    cases hb : vstate.testBit idx with
    | true =>
      rw [ttys_loop_used cfg w uid gl vstate n idx vtfree hb]
      rcases ih (idx + 1) vtfree with ⟨i, h1, h2, h3, h4, h5⟩ | ⟨h1, v, h2, h3⟩
      · left
        exact ⟨i, by omega, by omega, h3, fun k hk1 hk2 hk3 => by
          by_cases hk : k = idx
          · subst hk; rw [hb] at hk3; exact absurd hk3 (by decide)
          · exact h4 k (by omega) hk2 hk3, h5⟩
      · right
        refine ⟨fun k hk1 hk2 hk3 => ?_, v, ?_, h3⟩
        · by_cases hk : k = idx
          · subst hk; rw [hb] at hk3; exact absurd hk3 (by decide)
          · exact h1 k (by omega) (by omega) hk3
        · rcases h2 with h2 | ⟨h2, h2b, h2c⟩ | ⟨h2, j, hj1, hj2, hj3, hj4, hj5⟩
          · left; exact h2
          · right; left
            refine ⟨h2, h2b, fun k hk1 hk2 => ?_⟩
            by_cases hk : k = idx
            · subst hk; exact hb
            · exact h2c k (by omega) (by omega)
          · right; right
            refine ⟨h2, j, hj1, by omega, by omega, hj4, fun k hk1 hk2 => ?_⟩
            by_cases hk : k = idx
            · subst hk; exact hb
            · exact hj5 k (by omega) hk2
    | false =>
      rcases dev_has_rights_verdict w uid gl (tty_name idx) false true true with hp | hp | hp
      · left
        rw [ttys_loop_granted cfg w uid gl vstate n idx vtfree hb hp]
        refine ⟨idx, Nat.le_refl _, by omega, hb, fun k hk1 hk2 => by omega, ?_, ?_, rfl, ?_⟩
        · rw [hp]; decide
        · rw [hp]; rfl
        · exact chmod_calls_dev_has_rights _ _ _ _ _ _ _
      · rw [ttys_loop_denied cfg w uid gl vstate n idx vtfree hb hp]
        rcases ih (idx + 1) (if vtfree = -1 then (idx : Int) else vtfree) with
          ⟨i, h1, h2, h3, h4, h5, h6, h7, h8⟩ | ⟨h1, v, h2, h3, h4, h5⟩
        · left
          refine ⟨i, by omega, by omega, h3, fun k hk1 hk2 hk3 => ?_, h5, h6, h7, ?_⟩
          · by_cases hk : k = idx
            · subst hk; exact hp
            · exact h4 k (by omega) hk2 hk3
          · simp only [chmod_calls_append, chmod_calls_dev_has_rights, h8, List.append_nil]
        · right
          refine ⟨fun k hk1 hk2 hk3 => ?_, v, ?_, h3, h4, ?_⟩
          · by_cases hk : k = idx
            · subst hk; exact hp
            · exact h1 k (by omega) (by omega) hk3
          · by_cases hv : vtfree = -1
            · rw [if_pos hv] at h2
              right; right
              have hne : ((idx : Nat) : Int) ≠ -1 := by omega
              rcases h2 with ⟨_, h2⟩ | ⟨h2, _⟩ | ⟨h2, _⟩
              · exact ⟨hv, idx, h2, Nat.le_refl _, by omega, hb, fun k hk1 hk2 => by omega⟩
              · exact absurd h2 hne
              · exact absurd h2 hne
            · rw [if_neg hv] at h2
              left
              rcases h2 with h2 | ⟨h2, _⟩ | ⟨h2, _⟩
              · exact h2
              · exact absurd h2 hv
              · exact absurd h2 hv
          · simp only [chmod_calls_append, chmod_calls_dev_has_rights, h5, List.nil_append]
      · left
        rw [ttys_loop_die cfg w uid gl vstate n idx vtfree hb hp]
        refine ⟨idx, Nat.le_refl _, by omega, hb, fun k hk1 hk2 => by omega, ?_, ?_, rfl, ?_⟩
        · rw [hp]; decide
        · rw [hp]; rfl
        · exact chmod_calls_dev_has_rights _ _ _ _ _ _ _

theorem tty_name_of_lt (i : Nat) (h : i < 100) : tty_name i = Dev.tty i := by
  simp [tty_name, snprintf_idx, h]

/-- When the tty0 check returns an active console (neither `DIE` nor 0), tty0
was opened, the write probe was Granted and `VT_GETSTATE` answered; the
return value and `*vstate` are its `v_active` and `v_state`. -/
theorem tty_zero_passed (cfg : Config) (w : World) (uid : Nat) (gl : List Nat)
    (hdie : (tty_zero_dev_has_rights cfg w uid gl).1 ≠ DIE)
    (hact : (tty_zero_dev_has_rights cfg w uid gl).1 ≠ 0) :
    ∃ vts, w.vt_getstate = some vts ∧ w.open_rdonly (Dev.tty 0) = SysResult.ok ∧
      (dev_has_rights w uid gl (Dev.tty 0) true false true).1 = Granted ∧
      (tty_zero_dev_has_rights cfg w uid gl).1 = ((vts.1 % 65536 : Nat) : Int) ∧
      (tty_zero_dev_has_rights cfg w uid gl).2.1 = vts.2 % 65536 ∧
      chmod_calls (tty_zero_dev_has_rights cfg w uid gl).2.2 = [] := by
  have hn : tty_name 0 = Dev.tty 0 := tty_name_of_lt 0 (by decide)
  have hv := dev_has_rights_verdict w uid gl (Dev.tty 0) true false true
  have ht := dev_has_rights_trace w uid gl (Dev.tty 0) true false true
  unfold tty_zero_dev_has_rights at hdie hact ⊢
  rw [hn] at hdie hact ⊢
  cases ho : w.open_rdonly (Dev.tty 0) with
  | err e =>
    simp only [ho] at hdie hact
    by_cases he : errno_after_debug cfg w (Event.open_rdonly (Dev.tty 0) (SysResult.err e)) e
        = EACCES
    · simp [he] at hact
    · simp [he] at hdie
  | ok =>
    simp only [ho] at hdie hact ⊢
    by_cases hg : (dev_has_rights w uid gl (Dev.tty 0) true false true).1 = Granted
    · simp only [hg, ne_eq, not_true_eq_false, if_false] at hdie hact ⊢
      cases hs : w.vt_getstate with
      | none => simp [hs] at hdie
      | some vts =>
        simp only [hs]
        refine ⟨vts, rfl, trivial, trivial, rfl, rfl, ?_⟩
        rw [ht]
        simp [chmod_calls, stat_event]
    · simp only [ne_eq, hg, not_false_eq_true, if_true] at hdie hact
      rcases hv with h | h | h
      · exact absurd h hg
      · exact absurd h hact
      · exact absurd h hdie

theorem allow_chmod_test (cfg : Config) :
    cfg.u_flags &&& FlagAllowChmod ≠ 0 ↔ cfg.u_flags.testBit 3 = true :=
  mask_test cfg.u_flags 3

/-- The verdict of the chmod repair when the metadata call succeeds. -/
theorem tty_dev_chmod_of_stat (w : World) (j : Nat) (hj : j < 100) (st : Stat)
    (hs : w.stat (Dev.tty j) = some st) :
    tty_dev_chmod w j =
      if w.chmod (Dev.tty j) (st.st_mode ||| 0o060) = true then
        ⟨Granted, [Event.stat (Dev.tty j) (some st),
          Event.chmod (Dev.tty j) (st.st_mode ||| 0o060) true],
          w.after_chmod (Dev.tty j) (st.st_mode ||| 0o060)⟩
      else
        ⟨DIE, [Event.stat (Dev.tty j) (some st),
          Event.chmod (Dev.tty j) (st.st_mode ||| 0o060) false], w⟩ := by
  unfold tty_dev_chmod
  rw [tty_name_of_lt j hj, hs]
  rfl

/-- The console verdict in non-shared mode once the tty0 check has passed:
the verdict of the scan of indices 1..15. -/
theorem ttys_have_rights_eq_scan (cfg : Config) (w : World) (uid : Nat) (gl : List Nat)
    (hdie : (tty_zero_dev_has_rights cfg w uid gl).1 ≠ DIE)
    (hact : (tty_zero_dev_has_rights cfg w uid gl).1 ≠ 0) :
    ttys_have_rights cfg w uid gl false =
      ⟨(ttys_loop cfg w uid gl (tty_zero_dev_has_rights cfg w uid gl).2.1 15 1 (2 ^ 1) (-1)).ret,
        (tty_zero_dev_has_rights cfg w uid gl).2.2 ++
        (ttys_loop cfg w uid gl (tty_zero_dev_has_rights cfg w uid gl).2.1 15 1 (2 ^ 1) (-1)).trace,
        (ttys_loop cfg w uid gl (tty_zero_dev_has_rights cfg w uid gl).2.1 15 1 (2 ^ 1)
          (-1)).world⟩ := by
  unfold ttys_have_rights
  simp only
  rw [if_neg hdie, if_neg hact]
  rfl

/-- C7: in non-shared mode, once the tty0 check has passed with a non-zero
active console and in-use bitmask m, and no probe of a free console is
Fatal: the console verdict is Granted if some index in 1..15 with its bit
clear in m has read+write access; otherwise, if chmod repair is allowed and
some index in 1..15 has its bit clear, it is the outcome of the chmod on the
lowest such index, Granted on success and Fatal on failure; otherwise it is
Denied. -/
theorem ttys_have_rights_scan (cfg : Config) (w : World) (uid : Nat) (grouplist : List Nat)
    (hdie : (tty_zero_dev_has_rights cfg w uid grouplist).1 ≠ DIE)
    (hact : (tty_zero_dev_has_rights cfg w uid grouplist).1 ≠ 0)
    (hprobe : ∀ i, 1 ≤ i → i < 16 →
      (tty_zero_dev_has_rights cfg w uid grouplist).2.1.testBit i = false →
      w.stat (Dev.tty i) ≠ none) :
    ((∃ i, 1 ≤ i ∧ i < 16 ∧
        (tty_zero_dev_has_rights cfg w uid grouplist).2.1.testBit i = false ∧
        (dev_has_rights w uid grouplist (Dev.tty i) false true true).1 = Granted) →
      (ttys_have_rights cfg w uid grouplist false).ret = Granted) ∧
    ((∀ i, 1 ≤ i → i < 16 →
        (tty_zero_dev_has_rights cfg w uid grouplist).2.1.testBit i = false →
        (dev_has_rights w uid grouplist (Dev.tty i) false true true).1 ≠ Granted) →
      (∀ j, 1 ≤ j → j < 16 → cfg.u_flags.testBit 3 = true →
        (tty_zero_dev_has_rights cfg w uid grouplist).2.1.testBit j = false →
        (∀ k, 1 ≤ k → k < j →
          (tty_zero_dev_has_rights cfg w uid grouplist).2.1.testBit k = true) →
        (ttys_have_rights cfg w uid grouplist false).ret = (tty_dev_chmod w j).ret ∧
        ∃ st, w.stat (Dev.tty j) = some st ∧
          (ttys_have_rights cfg w uid grouplist false).ret =
            if w.chmod (Dev.tty j) (st.st_mode ||| 0o060) = true then Granted else DIE) ∧
      ((cfg.u_flags.testBit 3 = false ∨
          ∀ i, 1 ≤ i → i < 16 →
            (tty_zero_dev_has_rights cfg w uid grouplist).2.1.testBit i = true) →
        (ttys_have_rights cfg w uid grouplist false).ret = Denied)) := by
  rw [ttys_have_rights_eq_scan cfg w uid grouplist hdie hact]
  simp only
  have hcases := ttys_loop_cases cfg w uid grouplist
    (tty_zero_dev_has_rights cfg w uid grouplist).2.1 15 1 (-1)
  have hnd : ∀ i, 1 ≤ i → i < 16 →
      (tty_zero_dev_has_rights cfg w uid grouplist).2.1.testBit i = false →
      (dev_has_rights w uid grouplist (tty_name i) false true true).1 ≠ DIE := by
    intro i h1 h2 h3
    rw [tty_name_of_lt i (by omega)]
    exact dev_has_rights_ne_die _ _ _ _ _ _ _ (hprobe i h1 h2 h3)
  constructor
  · rintro ⟨i, h1, h2, h3, h4⟩
    rcases hcases with ⟨i', g1, g2, g3, g4, g5, g6, _⟩ | ⟨g1, _⟩
    · rw [g6, if_neg (hnd i' g1 (by omega) g3)]
    · have := g1 i h1 (by omega) h3
      rw [tty_name_of_lt i (by omega), h4] at this
      exact absurd this (by decide)
  · intro hall
    have hright : ∃ v : Int,
        ((v = -1 ∧ ∀ k, 1 ≤ k → k < 1 + 15 →
            (tty_zero_dev_has_rights cfg w uid grouplist).2.1.testBit k = true) ∨
         (∃ j : Nat, v = (j : Int) ∧ 1 ≤ j ∧ j < 1 + 15 ∧
            (tty_zero_dev_has_rights cfg w uid grouplist).2.1.testBit j = false ∧
            ∀ k, 1 ≤ k → k < j →
              (tty_zero_dev_has_rights cfg w uid grouplist).2.1.testBit k = true)) ∧
        (ttys_loop cfg w uid grouplist (tty_zero_dev_has_rights cfg w uid grouplist).2.1
          15 1 (2 ^ 1) (-1)).ret = (ttys_after_loop cfg w v).ret := by
      rcases hcases with ⟨i', g1, g2, g3, g4, g5, g6, _⟩ | ⟨_, v, g2, g3, _⟩
      · exfalso
        have hv := dev_has_rights_verdict w uid grouplist (tty_name i') false true true
        rcases hv with h | h | h
        · rw [tty_name_of_lt i' (by omega)] at h
          exact hall i' g1 (by omega) g3 h
        · exact g5 h
        · exact hnd i' g1 (by omega) g3 h
      · refine ⟨v, ?_, g3⟩
        rcases g2 with ⟨g2, _⟩ | ⟨_, g2, g2b⟩ | ⟨_, g2⟩
        · exact absurd rfl g2
        · left; exact ⟨g2, g2b⟩
        · right; exact g2
    obtain ⟨v, hv, hret⟩ := hright
    rw [hret]
    constructor
    · intro j hj1 hj2 hflag hjfree hjlow
      have hvj : v = (j : Int) := by
        rcases hv with ⟨_, hall2⟩ | ⟨j', hv1, hv2, hv3, hv4, hv5⟩
        · have := hall2 j hj1 (by omega)
          rw [hjfree] at this
          exact absurd this (by decide)
        · have hjj : j' = j := by
            by_contra hne
            rcases Nat.lt_or_gt_of_ne hne with hlt | hgt
            · have := hjlow j' hv2 hlt
              rw [hv4] at this
              exact absurd this (by decide)
            · have := hv5 j hj1 hgt
              rw [hjfree] at this
              exact absurd this (by decide)
          rw [hv1, hjj]
      have hafter : ttys_after_loop cfg w v = tty_dev_chmod w j := by
        unfold ttys_after_loop
        rw [if_pos ⟨(allow_chmod_test cfg).2 hflag, by rw [hvj]; omega⟩, hvj]
        rfl
      rw [hafter]
      refine ⟨rfl, ?_⟩
      cases hs : w.stat (Dev.tty j) with
      | none => exact absurd hs (hprobe j hj1 hj2 hjfree)
      | some st =>
        refine ⟨st, rfl, ?_⟩
        rw [tty_dev_chmod_of_stat w j (by omega) st hs]
        split <;> rfl
    · intro hno
      unfold ttys_after_loop
      rw [if_neg]
      rintro ⟨hc1, hc2⟩
      rcases hno with hno | hno
      · rw [(allow_chmod_test cfg).1 hc1] at hno
        exact absurd hno (by decide)
      · rcases hv with ⟨hv1, _⟩ | ⟨j', _, hv2, hv3, hv4, _⟩
        · exact hc2 hv1
        · have := hno j' hv2 (by omega)
          rw [hv4] at this
          exact absurd this (by decide)

/-- C6, as the code has it: when tty0 opens, `tty_zero_dev_has_rights` asks
the device probe for write access only (read is not requested); for every
state of tty0 in which that write probe is Denied, the tty0 check and the
console verdict are Denied. -/
theorem ttys_have_rights_needs_tty0_write (cfg : Config) (w : World) (uid : Nat)
    (grouplist : List Nat) (shareVTs : Bool)
    (hopen : w.open_rdonly (Dev.tty 0) = SysResult.ok)
    (hden : (dev_has_rights w uid grouplist (Dev.tty 0) true false true).1 = Denied) :
    (tty_zero_dev_has_rights cfg w uid grouplist).1 = Denied ∧
    (ttys_have_rights cfg w uid grouplist shareVTs).ret = Denied := by
  have hn : tty_name 0 = Dev.tty 0 := tty_name_of_lt 0 (by decide)
  have hz : (tty_zero_dev_has_rights cfg w uid grouplist).1 = Denied := by
    unfold tty_zero_dev_has_rights
    rw [hn]
    simp only [hopen]
    rw [if_pos (by rw [hden]; decide)]
    exact hden
  refine ⟨hz, ?_⟩
  unfold ttys_have_rights
  simp only
  rw [if_neg (by rw [hz]; decide), if_pos hz]

/-! ## The only change of a device node is the chmod repair -/

theorem chmod_calls_stat_event (w : World) (dev : Dev) (fd : Bool) :
    chmod_calls [stat_event w dev fd] = [] := by
  unfold stat_event
  cases fd <;> rfl

theorem tty_zero_no_chmod (cfg : Config) (w : World) (uid : Nat) (gl : List Nat) :
    chmod_calls (tty_zero_dev_has_rights cfg w uid gl).2.2 = [] := by
  have ht := dev_has_rights_trace w uid gl (tty_name 0) true false true
  unfold tty_zero_dev_has_rights
  split
  · rfl
  · simp only
    split
    · rw [ht]
      simp [chmod_calls, stat_event]
    · split
      · rw [ht]
        simp [chmod_calls, stat_event]
      · rw [ht]
        simp [chmod_calls, stat_event]

theorem fbs_loop_no_chmod (w : World) (uid : Nat) (gl : List Nat) (n idx : Nat) :
    chmod_calls (fbs_loop w uid gl n idx).2 = [] := by
  induction n generalizing idx with
  | zero => rfl
  | succ n ih =>
    simp only [fbs_loop]
    split
    · exact chmod_calls_dev_has_rights _ _ _ _ _ _ _
    · split
      · exact chmod_calls_dev_has_rights _ _ _ _ _ _ _
      · simp only [chmod_calls_append, chmod_calls_dev_has_rights, ih, List.append_nil]

theorem events_loop_no_chmod (w : World) (uid : Nat) (gl : List Nat) (n idx : Nat) :
    chmod_calls (events_loop w uid gl n idx).2 = [] := by
  induction n generalizing idx with
  | zero => rfl
  | succ n ih =>
    simp only [events_loop]
    split
    · exact chmod_calls_dev_has_rights _ _ _ _ _ _ _
    · split
      · exact chmod_calls_dev_has_rights _ _ _ _ _ _ _
      · simp only [chmod_calls_append, chmod_calls_dev_has_rights, ih, List.append_nil]

theorem drm_dev_no_chmod (cfg : Config) (w : World) (idx uid : Nat) (gl : List Nat) :
    chmod_calls (drm_dev_has_rights cfg w idx uid gl).2 = [] := by
  have ht := dev_has_rights_trace w uid gl (Dev.card idx) true true true
  unfold drm_dev_has_rights
  split
  · rfl
  · simp only
    split
    · rw [ht]; simp [chmod_calls, stat_event]
    · split
      · rw [ht]; simp [chmod_calls, stat_event]
      · split
        · rw [ht]; simp [chmod_calls, stat_event]
        · rw [ht]; simp [chmod_calls, stat_event]

theorem drms_loop_no_chmod (cfg : Config) (w : World) (uid : Nat) (gl : List Nat) (n idx : Nat) :
    chmod_calls (drms_loop cfg w uid gl n idx).2 = [] := by
  induction n generalizing idx with
  | zero => rfl
  | succ n ih =>
    simp only [drms_loop]
    split
    · exact drm_dev_no_chmod _ _ _ _ _
    · simp only [chmod_calls_append, drm_dev_no_chmod, ih, List.append_nil]

theorem video_no_chmod (cfg : Config) (w : World) (uid : Nat) (gl : List Nat) :
    chmod_calls (video_has_rights cfg w uid gl).2 = [] := by
  unfold video_has_rights
  simp only
  split
  · exact fbs_loop_no_chmod _ _ _ _ _
  · simp only [chmod_calls_append, fbs_have_rights, drms_have_rights, fbs_loop_no_chmod,
      drms_loop_no_chmod, List.append_nil]

theorem group_bits_added (m k : Nat) :
    (m ||| 0o060).testBit k = (m.testBit k || decide (k = 4) || decide (k = 5)) := by
  have h : (0o060 : Nat) = 2 ^ 4 ||| 2 ^ 5 := by decide
  rw [h, Nat.testBit_or, Nat.testBit_or, Nat.testBit_two_pow, Nat.testBit_two_pow,
    Bool.or_assoc]
  congr 2
  · exact decide_eq_decide.2 ⟨fun h => h.symm, fun h => h.symm⟩
  · exact decide_eq_decide.2 ⟨fun h => h.symm, fun h => h.symm⟩

/-- The chmod calls and the final kernel state of the console check. -/
theorem ttys_have_rights_chmod (cfg : Config) (w : World) (uid : Nat) (gl : List Nat)
    (shareVTs : Bool) :
    (chmod_calls (ttys_have_rights cfg w uid gl shareVTs).trace = [] ∧
      (ttys_have_rights cfg w uid gl shareVTs).world = w) ∨
    (∃ i st vts, cfg.u_flags.testBit 3 = true ∧ shareVTs = false ∧ 1 ≤ i ∧ i < 16 ∧
      w.vt_getstate = some vts ∧ (vts.2 % 65536).testBit i = false ∧
      w.stat (Dev.tty i) = some st ∧
      chmod_calls (ttys_have_rights cfg w uid gl shareVTs).trace =
        [(Dev.tty i, st.st_mode ||| 0o060, w.chmod (Dev.tty i) (st.st_mode ||| 0o060))] ∧
      (ttys_have_rights cfg w uid gl shareVTs).world =
        if w.chmod (Dev.tty i) (st.st_mode ||| 0o060) = true
          then w.after_chmod (Dev.tty i) (st.st_mode ||| 0o060) else w) := by
  by_cases hdie : (tty_zero_dev_has_rights cfg w uid gl).1 = DIE
  · left
    unfold ttys_have_rights
    simp only
    rw [if_pos hdie]
    exact ⟨tty_zero_no_chmod cfg w uid gl, rfl⟩
  by_cases hact : (tty_zero_dev_has_rights cfg w uid gl).1 = 0
  · left
    unfold ttys_have_rights
    simp only
    rw [if_neg hdie, if_pos hact]
    exact ⟨tty_zero_no_chmod cfg w uid gl, rfl⟩
  cases shareVTs with
  | true =>
    left
    unfold ttys_have_rights
    simp only
    rw [if_neg hdie, if_neg hact]
    simp only [if_true, chmod_calls_append, tty_zero_no_chmod, chmod_calls_dev_has_rights,
      List.append_nil, and_self]
  | false =>
    rw [ttys_have_rights_eq_scan cfg w uid gl hdie hact]
    simp only [chmod_calls_append, tty_zero_no_chmod, List.nil_append]
    obtain ⟨vts, hvts, _, _, _, hm, _⟩ := tty_zero_passed cfg w uid gl hdie hact
    rcases ttys_loop_cases cfg w uid gl (tty_zero_dev_has_rights cfg w uid gl).2.1 15 1 (-1) with
      ⟨_, _, _, _, _, _, _, g7, g8⟩ | ⟨_, v, g2, _, g4, g5⟩
    · left
      exact ⟨g8, g7⟩
    · rw [g4, g5]
      rcases g2 with ⟨g2, _⟩ | ⟨_, g2, _⟩ | ⟨_, j, hj1, hj2, hj3, hj4, _⟩
      · exact absurd rfl g2
      · left
        unfold ttys_after_loop
        rw [if_neg (fun hc => hc.2 g2)]
        exact ⟨rfl, rfl⟩
      · by_cases hflag : cfg.u_flags &&& FlagAllowChmod ≠ 0
        · have hafter : ttys_after_loop cfg w v = tty_dev_chmod w j := by
            unfold ttys_after_loop
            rw [if_pos ⟨hflag, by rw [hj1]; omega⟩, hj1]
            rfl
          rw [hafter]
          cases hs : w.stat (Dev.tty j) with
          | none =>
            left
            unfold tty_dev_chmod
            rw [tty_name_of_lt j (by omega), hs]
            exact ⟨rfl, rfl⟩
          | some st =>
            right
            refine ⟨j, st, vts, (allow_chmod_test cfg).1 hflag, trivial, hj2, by omega, hvts,
              by rw [← hm]; exact hj4, hs, ?_⟩
            rw [tty_dev_chmod_of_stat w j (by omega) st hs]
            cases hc : w.chmod (Dev.tty j) (st.st_mode ||| 0o060) <;> simp [chmod_calls]
        · left
          unfold ttys_after_loop
          rw [if_neg (fun hc => hflag hc.1)]
          exact ⟨rfl, rfl⟩

theorem handle_auto_rights_chmod (cfg : Config) (w : World) (uid : Nat) (gl : List Nat)
    (shareVTs : Bool) :
    (chmod_calls (handle_auto_rights cfg w uid gl shareVTs).trace = [] ∧
      (handle_auto_rights cfg w uid gl shareVTs).world = w) ∨
    (chmod_calls (handle_auto_rights cfg w uid gl shareVTs).trace =
        chmod_calls (ttys_have_rights cfg w uid gl shareVTs).trace ∧
      (handle_auto_rights cfg w uid gl shareVTs).world =
        (ttys_have_rights cfg w uid gl shareVTs).world) := by
  unfold handle_auto_rights
  simp only
  split
  · left
    exact ⟨video_no_chmod cfg w uid gl, rfl⟩
  · right
    split
    · simp only [chmod_calls_append, video_no_chmod, List.nil_append, and_self]
    · split
      · simp only [chmod_calls_append, video_no_chmod, events_have_rights,
          events_loop_no_chmod, List.nil_append, List.append_nil, and_self]
      · simp only [chmod_calls_append, video_no_chmod, events_have_rights,
          events_loop_no_chmod, List.nil_append, List.append_nil, and_self]

/-- C8: during one rights evaluation at most one chmod is called and nothing
else changes a device node.  When it is called, the AllowChmod flag is set,
the node is a console with index in 1..15 whose bit is clear in the in-use
bitmask, and the mode written is the node's previous mode with the group-read
and group-write bits added and every other bit unchanged. -/
theorem check_rights_chmod_only (cfg : Config) (w : World) (uid : Nat) (shareVTs : Bool) :
    (chmod_calls (check_rights cfg w uid shareVTs).trace = [] ∧
      (check_rights cfg w uid shareVTs).world = w) ∨
    (∃ i st vts, cfg.u_flags.testBit 3 = true ∧ 1 ≤ i ∧ i < 16 ∧
      w.vt_getstate = some vts ∧ (vts.2 % 65536).testBit i = false ∧
      w.stat (Dev.tty i) = some st ∧
      chmod_calls (check_rights cfg w uid shareVTs).trace =
        [(Dev.tty i, st.st_mode ||| 0o060, w.chmod (Dev.tty i) (st.st_mode ||| 0o060))] ∧
      (∀ k, (st.st_mode ||| 0o060).testBit k =
        (st.st_mode.testBit k || decide (k = 4) || decide (k = 5))) ∧
      (check_rights cfg w uid shareVTs).world =
        if w.chmod (Dev.tty i) (st.st_mode ||| 0o060) = true
          then w.after_chmod (Dev.tty i) (st.st_mode ||| 0o060) else w) := by
  unfold check_rights
  split
  · split
    · left
      exact ⟨rfl, rfl⟩
    · rename_i gl hg
      simp only [chmod_calls]
      rcases handle_auto_rights_chmod cfg w uid gl shareVTs with ⟨h1, h2⟩ | ⟨h1, h2⟩
      · left
        exact ⟨h1, h2⟩
      · rw [h1, h2]
        rcases ttys_have_rights_chmod cfg w uid gl shareVTs with h | h
        · left
          exact h
        · right
          obtain ⟨i, st, vts, g1, _, g3, g4, g5, g6, g7, g8, g9⟩ := h
          exact ⟨i, st, vts, g1, g3, g4, g5, g6, g7, g8, group_bits_added st.st_mode, g9⟩
  · left
    exact ⟨rfl, rfl⟩

/-! ## `check_rights` -/

theorem drop_root_flag_value (n : Nat) :
    ((n &&& FlagDropRoot : Nat) : Int) = if n.testBit 0 = true then Granted else Denied := by
  have h := Nat.and_two_pow n 0
  rw [Nat.pow_zero, Nat.mul_one] at h
  rw [h]
  cases n.testBit 0 <;> rfl

theorem auto_flag_test (cfg : Config) :
    cfg.u_flags &&& FlagDropRootAuto ≠ 0 ↔ cfg.u_flags.testBit 1 = true :=
  mask_test cfg.u_flags 1

/-- C9: with the AutoDrop flag clear, `check_rights` is decided by the
ForceDrop flag alone (true iff it is set), is never Fatal, performs no call
and is the same for every uid, shareVTs and kernel state; with AutoDrop set
it is Fatal when the group list cannot be resolved and otherwise exactly the
verdict of `handle_auto_rights` for that uid and group list. -/
theorem check_rights_modes (cfg : Config) (w : World) (uid : Nat) (shareVTs : Bool) :
    (cfg.u_flags.testBit 1 = false →
      (check_rights cfg w uid shareVTs).ret =
        (if cfg.u_flags.testBit 0 = true then Granted else Denied) ∧
      (check_rights cfg w uid shareVTs).ret ≠ DIE ∧
      (check_rights cfg w uid shareVTs).trace = [] ∧
      ∀ (w2 : World) (uid2 : Nat) (shareVTs2 : Bool),
        (check_rights cfg w2 uid2 shareVTs2).ret = (check_rights cfg w uid shareVTs).ret) ∧
    (cfg.u_flags.testBit 1 = true →
      (w.user_groups uid = none → (check_rights cfg w uid shareVTs).ret = DIE) ∧
      ∀ grouplist, w.user_groups uid = some grouplist →
        (check_rights cfg w uid shareVTs).ret =
          (handle_auto_rights cfg w uid grouplist shareVTs).ret ∧
        (check_rights cfg w uid shareVTs).world =
          (handle_auto_rights cfg w uid grouplist shareVTs).world) := by
  constructor
  · intro hoff
    have hflag : ¬ cfg.u_flags &&& FlagDropRootAuto ≠ 0 := by
      rw [auto_flag_test, hoff]
      decide
    have hval : ∀ (w2 : World) (uid2 : Nat) (s2 : Bool),
        check_rights cfg w2 uid2 s2 =
          ⟨((cfg.u_flags &&& FlagDropRoot : Nat) : Int), [], w2⟩ := by
      intro w2 uid2 s2
      unfold check_rights
      rw [if_neg hflag]
    rw [hval w uid shareVTs]
    refine ⟨drop_root_flag_value _, ?_, rfl, fun w2 uid2 s2 => by rw [hval w2 uid2 s2]⟩
    simp only
    rw [drop_root_flag_value]
    split <;> decide
  · intro hon
    have hflag : cfg.u_flags &&& FlagDropRootAuto ≠ 0 := (auto_flag_test cfg).2 hon
    unfold check_rights
    rw [if_pos hflag]
    constructor
    · intro hnone
      simp only [hnone]
    · intro gl hgl
      simp only [hgl, and_self]

/-! ## `drop_user_privileges` -/

/-- C10, as the code has it: after `drop_user_privileges (uid)` returns
success the effective and saved user ids equal `uid` (for `uid` other than
`(uid_t) -1`) and the real user id is what it was, so that all three equal
`uid` when the real user id already was `uid`; when the underlying call
fails it returns failure and the ids are unchanged. -/
theorem drop_user_privileges_spec (permitted : Creds → Nat → Nat → Nat → Bool) (c : Creds)
    (uid : Nat) :
    (permitted c UID_UNCHANGED uid uid = true →
      (drop_user_privileges permitted c uid).1 = Granted ∧
      (drop_user_privileges permitted c uid).2.ruid = c.ruid ∧
      (uid ≠ UID_UNCHANGED →
        (drop_user_privileges permitted c uid).2.euid = uid ∧
        (drop_user_privileges permitted c uid).2.suid = uid) ∧
      (uid ≠ UID_UNCHANGED → c.ruid = uid →
        (drop_user_privileges permitted c uid).2 = ⟨uid, uid, uid⟩)) ∧
    (permitted c UID_UNCHANGED uid uid = false →
      (drop_user_privileges permitted c uid).1 = Denied ∧
      (drop_user_privileges permitted c uid).2 = c) := by
  constructor
  · intro hp
    unfold drop_user_privileges
    rw [if_pos hp]
    refine ⟨rfl, rfl, ?_, ?_⟩
    · intro hu
      simp [setresuid_result, hu]
    · intro hu hr
      simp [setresuid_result, hu, hr]
  · intro hp
    unfold drop_user_privileges
    rw [if_neg (by rw [hp]; decide)]
    exact ⟨rfl, rfl⟩

/-! ## The properties on the sample kernel states -/

theorem dev_has_rights_granted_iff_witness :
    (dev_has_rights world_console 1000 [1000, 5] (Dev.tty 0) true false true).1 = Granted ∧
    (dev_has_rights world_console 1000 [1000, 5] (Dev.tty 0) true true true).1 = Denied :=
  ⟨(dev_has_rights_granted_iff world_console 1000 [1000, 5] (Dev.tty 0) true false true
      ⟨0o020620, 0, 5⟩ rfl).1.2 (by decide),
   (dev_has_rights_granted_iff world_console 1000 [1000, 5] (Dev.tty 0) true true true
      ⟨0o020620, 0, 5⟩ rfl).2 (by decide)⟩

theorem check_rights_fatal_propagates_witness :
    (check_rights Config.initial world_broken 1000 false).trace.any Event.yields_die = true ∧
    (check_rights Config.initial world_broken 1000 false).ret = DIE ∧
    Event.errno_read ENOSPC ∈
      (check_rights Config.debug_on world_cards_stderr_full 1000 false).trace ∧
    (check_rights Config.debug_on world_cards_stderr_full 1000 false).ret = DIE ∧
    (check_rights Config.initial world_cards_stderr_full 1000 false).trace.any Event.yields_die
      = false ∧
    (tty_zero_dev_has_rights Config.debug_on world_console_locked 1000 [1000, 5]).2.2
      = [Event.open_rdonly (Dev.tty 0) (SysResult.err EACCES), Event.errno_read ENOSPC] ∧
    (tty_zero_dev_has_rights Config.debug_on world_console_locked 1000 [1000, 5]).1 = DIE ∧
    (tty_zero_dev_has_rights Config.initial world_console_locked 1000 [1000, 5]).1 = Denied :=
  ⟨by decide,
   (check_rights_fatal_propagates Config.initial world_broken 1000 [1000] false).1 (by decide),
   by decide!,
   (check_rights_fatal_propagates Config.debug_on world_cards_stderr_full 1000 [1000] false).1
      (by decide!),
   by decide!,
   by decide!,
   (check_rights_fatal_propagates Config.debug_on world_console_locked 1000 [1000,
      5] false).2.2.2.2.2.2.2.2.2.1.2 (by decide!),
   by decide!⟩

/-- C5 fails as stated: with framebuffers open to everybody and no probe
Fatal, the graphics verdict is Denied because no card passes; and with no
usable framebuffer it is Denied although the card scan is Granted. -/
theorem video_has_rights_any_counterexample :
    ((video_has_rights Config.initial world_fb_only 1000 [1000]).2.any Event.yields_die = false ∧
      (drms_have_rights Config.initial world_fb_only 1000 [1000]).2.any Event.yields_die = false ∧
      (dev_has_rights world_fb_only 1000 [1000] (Dev.fb 0) false true true).1 = Granted ∧
      (video_has_rights Config.initial world_fb_only 1000 [1000]).1 = Denied) ∧
    ((video_has_rights Config.initial world_card_only 1000 [1000]).2.any Event.yields_die
        = false ∧
      (drms_have_rights Config.initial world_card_only 1000 [1000]).2.any Event.yields_die
        = false ∧
      (∀ i, i < 8 →
        (dev_has_rights world_card_only 1000 [1000] (Dev.fb i) false true true).1 = Denied) ∧
      (drms_have_rights Config.initial world_card_only 1000 [1000]).1 = Granted ∧
      (video_has_rights Config.initial world_card_only 1000 [1000]).1 = Denied) := by
  decide

theorem video_has_rights_needs_both_witness :
    (video_has_rights Config.initial world_fb_only 1000 [1000]).1 =
      (drms_have_rights Config.initial world_fb_only 1000 [1000]).1 ∧
    ((video_has_rights Config.initial world_fb_only 1000 [1000]).1 = Granted ↔
      (∃ i, i < 8 ∧
        (dev_has_rights world_fb_only 1000 [1000] (Dev.fb i) false true true).1 = Granted) ∧
      (∃ j, j < 16 ∧
        (drm_dev_has_rights Config.initial world_fb_only j 1000 [1000]).1 = Granted)) :=
  ⟨(video_has_rights_needs_both Config.initial world_fb_only 1000 [1000] (by decide)
      (by decide)).2.2.1
      ⟨0, by decide, by decide⟩,
   (video_has_rights_needs_both Config.initial world_fb_only 1000 [1000] (by decide)
      (by decide)).1⟩

/-- C6 fails as stated: tty0 opens, the probe of tty0 for read and write is
Denied (the user's group may only write), and the console verdict is
Granted. -/
theorem tty_zero_read_write_counterexample :
    world_console_open.open_rdonly (Dev.tty 0) = SysResult.ok ∧
    (dev_has_rights world_console_open 1000 [1000, 5] (Dev.tty 0) true true true).1 = Denied ∧
    (ttys_have_rights Config.initial world_console_open 1000 [1000, 5] false).ret = Granted ∧
    (ttys_have_rights Config.initial world_console_open 1000 [1000, 5] true).ret = Granted := by
  decide

theorem ttys_have_rights_needs_tty0_write_witness :
    (dev_has_rights world_card_only 1000 [1000] (Dev.tty 0) true false true).1 = Denied ∧
    (ttys_have_rights Config.initial world_card_only 1000 [1000] false).ret = Denied :=
  ⟨by decide,
   (ttys_have_rights_needs_tty0_write Config.initial world_card_only 1000 [1000] false rfl
      (by decide)).2⟩

theorem ttys_have_rights_scan_witness :
    (tty_zero_dev_has_rights Config.initial world_console 1000 [1000, 5]).1 = 1 ∧
    (tty_zero_dev_has_rights Config.initial world_console 1000 [1000, 5]).2.1 = 3 ∧
    (ttys_have_rights Config.initial world_console 1000 [1000, 5] false).ret =
      (tty_dev_chmod world_console 2).ret ∧
    (ttys_have_rights Config.initial world_console 1000 [1000, 5] false).ret = Granted ∧
    (ttys_have_rights ⟨FlagDropRootAuto, Allowed.ConsoleOnly⟩ world_console 1000 [1000, 5]
      false).ret = Denied ∧
    (ttys_have_rights Config.initial world_console_open 1000 [1000, 5] false).ret = Granted :=
  ⟨by decide, by decide,
   (((ttys_have_rights_scan Config.initial world_console 1000 [1000, 5]
      (by decide) (by decide) (by decide)).2 (by decide)).1 2 (by decide) (by decide)
      (by decide) (by decide) (by decide)).1,
   by decide,
   ((ttys_have_rights_scan ⟨FlagDropRootAuto, Allowed.ConsoleOnly⟩ world_console 1000 [1000, 5]
      (by decide) (by decide) (by decide)).2 (by decide)).2 (Or.inl (by decide)),
   (ttys_have_rights_scan Config.initial world_console_open 1000 [1000, 5]
      (by decide) (by decide) (by decide)).1 ⟨2, by decide, by decide, by decide, by decide⟩⟩

/-- C10 fails as stated: from real uid 1000 and effective and saved uid 0,
`drop_user_privileges (500)` succeeds and leaves the real uid at 1000. -/
theorem drop_user_privileges_real_uid_counterexample :
    (drop_user_privileges setresuid_permitted ⟨1000, 0, 0⟩ 500).1 = Granted ∧
    (drop_user_privileges setresuid_permitted ⟨1000, 0, 0⟩ 500).2 = ⟨1000, 500, 500⟩ ∧
    (drop_user_privileges setresuid_permitted ⟨1000, 0, 0⟩ 500).2.ruid ≠ 500 := by
  decide

theorem handle_auto_rights_combines_witness :
    (video_has_rights Config.initial world_console 1000 [1000, 5]).1 = Denied ∧
    (ttys_have_rights Config.initial world_console 1000 [1000, 5] false).ret = Granted ∧
    (handle_auto_rights Config.initial world_console 1000 [1000, 5] false).ret = Denied :=
  ⟨by decide, by decide,
   (handle_auto_rights_combines Config.initial world_console 1000 [1000, 5] false).2.2.2.2.2
      (by decide) (by decide)⟩

theorem is_user_allowed_spec_witness :
    is_user_allowed ⟨0, Allowed.RootOnly⟩ 0 = Granted ∧
    is_user_allowed ⟨0, Allowed.RootOnly⟩ 1000 = Denied ∧
    is_user_allowed ⟨0, Allowed.ConsoleOnly⟩ 1000 = Granted :=
  ⟨(is_user_allowed_spec ⟨0, Allowed.RootOnly⟩).1,
   ((is_user_allowed_spec ⟨0, Allowed.RootOnly⟩).2.1 1000 (by decide)).1.2 rfl,
   ((is_user_allowed_spec ⟨0, Allowed.ConsoleOnly⟩).2.1 1000 (by decide)).2 (by decide)⟩

theorem check_rights_chmod_only_witness :
    chmod_calls (check_rights Config.initial world_console 1000 false).trace =
      [(Dev.tty 2, 0o020660, true)] ∧
    ((chmod_calls (check_rights Config.initial world_console 1000 false).trace = [] ∧
        (check_rights Config.initial world_console 1000 false).world = world_console) ∨
      (∃ i st vts, Config.initial.u_flags.testBit 3 = true ∧ 1 ≤ i ∧ i < 16 ∧
        world_console.vt_getstate = some vts ∧ (vts.2 % 65536).testBit i = false ∧
        world_console.stat (Dev.tty i) = some st ∧
        chmod_calls (check_rights Config.initial world_console 1000 false).trace =
          [(Dev.tty i, st.st_mode ||| 0o060,
            world_console.chmod (Dev.tty i) (st.st_mode ||| 0o060))] ∧
        (∀ k, (st.st_mode ||| 0o060).testBit k =
          (st.st_mode.testBit k || decide (k = 4) || decide (k = 5))) ∧
        (check_rights Config.initial world_console 1000 false).world =
          if world_console.chmod (Dev.tty i) (st.st_mode ||| 0o060) = true
            then world_console.after_chmod (Dev.tty i) (st.st_mode ||| 0o060)
            else world_console)) :=
  ⟨by decide, check_rights_chmod_only Config.initial world_console 1000 false⟩

theorem check_rights_modes_witness :
    (check_rights ⟨FlagDropRoot, Allowed.ConsoleOnly⟩ world_broken 1000 false).ret = Granted ∧
    (check_rights ⟨FlagAllowChmod, Allowed.ConsoleOnly⟩ world_broken 1000 true).ret = Denied ∧
    (check_rights Config.initial world_console 1000 false).ret =
      (handle_auto_rights Config.initial world_console 1000 [1000, 5] false).ret :=
  ⟨((check_rights_modes ⟨FlagDropRoot, Allowed.ConsoleOnly⟩ world_broken 1000 false).1
      (by decide)).1,
   ((check_rights_modes ⟨FlagAllowChmod, Allowed.ConsoleOnly⟩ world_broken 1000 true).1
      (by decide)).1,
   (((check_rights_modes Config.initial world_console 1000 false).2 (by decide)).2
      [1000, 5] rfl).1⟩

theorem drop_user_privileges_spec_witness :
    (drop_user_privileges setresuid_permitted ⟨1000, 0, 0⟩ 1000).1 = Granted ∧
    (drop_user_privileges setresuid_permitted ⟨1000, 0, 0⟩ 1000).2 = ⟨1000, 1000, 1000⟩ ∧
    (drop_user_privileges setresuid_permitted ⟨1000, 1000, 1000⟩ 0).1 = Denied :=
  ⟨((drop_user_privileges_spec setresuid_permitted ⟨1000, 0, 0⟩ 1000).1 (by decide)).1,
   ((drop_user_privileges_spec setresuid_permitted ⟨1000, 0, 0⟩ 1000).1 (by decide)).2.2.2
      (by decide) rfl,
   ((drop_user_privileges_spec setresuid_permitted ⟨1000, 1000, 1000⟩ 0).2 (by decide)).1⟩

/-! ## `processTimeout` -/

theorem sleep_calls_append (a b : List PEvent) :
    sleep_calls (a ++ b) = sleep_calls a + sleep_calls b := by
  induction a with
  | nil => simp [sleep_calls]
  | cons e rest ih =>
    cases e <;> simp [sleep_calls, ih]
    omega

theorem open_calls_append (a b : List PEvent) :
    open_calls (a ++ b) = open_calls a + open_calls b := by
  induction a with
  | nil => simp [open_calls]
  | cons e rest ih =>
    cases e <;> simp [open_calls, ih]
    omega

theorem signals_sent_append (a b : List PEvent) :
    signals_sent (a ++ b) = signals_sent a ++ signals_sent b := by
  induction a with
  | nil => simp [signals_sent]
  | cons e rest ih =>
    cases e <;> simp [signals_sent, ih]

theorem same_but_waits_refl (s : PState) : s.same_but_waits s :=
  ⟨rfl, rfl, rfl, rfl, rfl, rfl, rfl⟩

theorem same_but_waits_trans {s r t : PState} (h1 : s.same_but_waits r)
    (h2 : r.same_but_waits t) : s.same_but_waits t := by
  obtain ⟨a1, a2, a3, a4, a5, a6, a7⟩ := h1
  obtain ⟨b1, b2, b3, b4, b5, b6, b7⟩ := h2
  exact ⟨b1.trans a1, b2.trans a2, b3.trans a3, b4.trans a4, b5.trans a5, b6.trans a6,
    b7.trans a7⟩

theorem processTimeout_poll_frame (os : Procs) (s : PState) :
    s.same_but_waits (processTimeout_poll os s).2 ∧
    (processTimeout_poll os s).2.nwait = s.nwait + 1 ∧
    sleep_calls (processTimeout_poll os s).2.calls = sleep_calls s.calls := by
  simp [processTimeout_poll, PState.same_but_waits, signals_sent_append, open_calls_append,
    sleep_calls_append, signals_sent, open_calls, sleep_calls]

theorem processTimeout_sleep_frame (timeout : Nat) (s : PState) :
    s.same_but_waits (processTimeout_sleep timeout s) ∧
    (processTimeout_sleep timeout s).nwait = s.nwait ∧
    sleep_calls (processTimeout_sleep timeout s).calls =
      sleep_calls s.calls + (if timeout ≠ 0 then 1 else 0) := by
  unfold processTimeout_sleep
  by_cases h : timeout ≠ 0
  · simp [h, PState.same_but_waits, signals_sent_append, open_calls_append,
      sleep_calls_append, signals_sent, open_calls, sleep_calls]
  · simp [h, PState.same_but_waits]

/-- One iteration that does not see the server exit: poll, then sleep. -/
theorem processTimeout_step_frame (os : Procs) (timeout : Nat) (s : PState) :
    s.same_but_waits (processTimeout_sleep timeout (processTimeout_poll os s).2) ∧
    (processTimeout_sleep timeout (processTimeout_poll os s).2).nwait = s.nwait + 1 ∧
    sleep_calls (processTimeout_sleep timeout (processTimeout_poll os s).2).calls =
      sleep_calls s.calls + (if timeout ≠ 0 then 1 else 0) := by
  obtain ⟨p1, p2, p3⟩ := processTimeout_poll_frame os s
  obtain ⟨q1, q2, q3⟩ := processTimeout_sleep_frame timeout (processTimeout_poll os s).2
  exact ⟨same_but_waits_trans p1 q1, by rw [q2, p2], by rw [q3, p3]⟩

theorem processTimeout_loop_frame (os : Procs) (timeout left : Nat) (s : PState) :
    s.same_but_waits (processTimeout_loop os timeout left s).2 := by
  induction left generalizing s with
  | zero =>
    simp only [processTimeout_loop]
    split
    · exact (processTimeout_poll_frame os s).1
    · exact (processTimeout_step_frame os timeout s).1
  | succ left ih =>
    simp only [processTimeout_loop]
    split
    · exact (processTimeout_poll_frame os s).1
    · exact same_but_waits_trans (processTimeout_step_frame os timeout s).1 (ih _)

/-- The loop sees the server exit iff one of its `left + 1` polls returns
`serverpid`. -/
theorem processTimeout_loop_found_iff (os : Procs) (timeout left : Nat) (s : PState) :
    (processTimeout_loop os timeout left s).1 = s.serverpid ↔
      ∃ k, k ≤ left ∧ os.waitpid (s.nwait + k) s.serverpid = s.serverpid := by
  induction left generalizing s with
  | zero =>
    simp only [processTimeout_loop]
    by_cases h : (processTimeout_poll os s).1 = s.serverpid
    · rw [if_pos h]
      exact ⟨fun _ => ⟨0, Nat.le_refl _, h⟩, fun _ => h⟩
    · rw [if_neg h]
      constructor
      · intro hc; exact absurd hc h
      · rintro ⟨k, hk, hw⟩
        have : k = 0 := by omega
        subst this
        exact absurd hw h
  | succ left ih =>
    simp only [processTimeout_loop]
    by_cases h : (processTimeout_poll os s).1 = s.serverpid
    · rw [if_pos h]
      exact ⟨fun _ => ⟨0, Nat.zero_le _, h⟩, fun _ => h⟩
    · rw [if_neg h]
      obtain ⟨f1, f2, _⟩ := processTimeout_step_frame os timeout s
      have hi := ih (processTimeout_sleep timeout (processTimeout_poll os s).2)
      rw [f1.1, f2] at hi
      rw [hi]
      constructor
      · rintro ⟨k, hk, hw⟩
        exact ⟨k + 1, by omega, by rw [← hw]; congr 1; omega⟩
      · rintro ⟨k, hk, hw⟩
        cases k with
        | zero => exact absurd hw h
        | succ k => exact ⟨k, by omega, by rw [← hw]; congr 1; omega⟩

/-- When no poll sees the server exit, the loop makes `left + 1` polls and,
for a non-zero timeout, `left + 1` sleeps. -/
theorem processTimeout_loop_hang (os : Procs) (timeout left : Nat) (s : PState)
    (h : ∀ k, k ≤ left → os.waitpid (s.nwait + k) s.serverpid ≠ s.serverpid) :
    (processTimeout_loop os timeout left s).2.nwait = s.nwait + left + 1 ∧
    sleep_calls (processTimeout_loop os timeout left s).2.calls =
      sleep_calls s.calls + (if timeout ≠ 0 then left + 1 else 0) := by
  induction left generalizing s with
  | zero =>
    have h0 : ¬ (processTimeout_poll os s).1 = s.serverpid := h 0 (Nat.le_refl _)
    simp only [processTimeout_loop]
    rw [if_neg h0]
    obtain ⟨_, f2, f3⟩ := processTimeout_step_frame os timeout s
    exact ⟨f2, by rw [f3]⟩
  | succ left ih =>
    have h0 : ¬ (processTimeout_poll os s).1 = s.serverpid := h 0 (Nat.zero_le _)
    simp only [processTimeout_loop]
    rw [if_neg h0]
    obtain ⟨f1, f2, f3⟩ := processTimeout_step_frame os timeout s
    have hi := ih (processTimeout_sleep timeout (processTimeout_poll os s).2) (by
      intro k hk
      rw [f1.1, f2]
      have := h (k + 1) (by omega)
      rw [show s.nwait + (k + 1) = s.nwait + 1 + k by omega] at this
      exact this)
    obtain ⟨hi1, hi2⟩ := hi
    constructor
    · rw [hi1, f2]; omega
    · rw [hi2, f3]
      by_cases ht : timeout ≠ 0
      · rw [if_pos ht, if_pos ht, if_pos ht]; omega
      · rw [if_neg ht, if_neg ht, if_neg ht]

theorem processTimeout_frame (os : Procs) (timeout : Nat) (s : PState) :
    s.same_but_waits (processTimeout os timeout s).2 :=
  processTimeout_loop_frame os timeout timeout s

/-- The wait times out iff none of its `timeout + 1` polls returns
`serverpid`. -/
theorem processTimeout_true_iff (os : Procs) (timeout : Nat) (s : PState) :
    (processTimeout os timeout s).1 = true ↔
      ∀ k, k ≤ timeout → os.waitpid (s.nwait + k) s.serverpid ≠ s.serverpid := by
  unfold processTimeout
  simp only [decide_eq_true_eq]
  rw [(processTimeout_loop_frame os timeout timeout s).1, ne_comm, ne_eq,
    processTimeout_loop_found_iff]
  constructor
  · intro hn k hk hw
    exact hn ⟨k, hk, hw⟩
  · rintro hn ⟨k, hk, hw⟩
    exact hn k hk hw

/-- A wait that times out makes `timeout + 1` polls and, for a non-zero
timeout, `timeout + 1` sleeps of one second. -/
theorem processTimeout_hang (os : Procs) (timeout : Nat) (s : PState)
    (h : (processTimeout os timeout s).1 = true) :
    (processTimeout os timeout s).2.nwait = s.nwait + timeout + 1 ∧
    sleep_calls (processTimeout os timeout s).2.calls =
      sleep_calls s.calls + (if timeout ≠ 0 then timeout + 1 else 0) :=
  processTimeout_loop_hang os timeout timeout s ((processTimeout_true_iff os timeout s).1 h)

/-! ## `shutdown` -/

theorem shutdown_clients_frame (os : Procs) (s : PState) :
    (shutdown_clients os s).serverpid = s.serverpid ∧
    (shutdown_clients os s).clientpid = s.clientpid ∧
    (shutdown_clients os s).nwait = s.nwait ∧
    (shutdown_clients os s).nopen = s.nopen ∧
    (shutdown_clients os s).nfork = s.nfork ∧
    open_calls (shutdown_clients os s).calls = open_calls s.calls ∧
    sleep_calls (shutdown_clients os s).calls = sleep_calls s.calls ∧
    signals_sent (shutdown_clients os s).calls =
      signals_sent s.calls ++
        (if s.clientpid > 0 then [(s.clientpid, Signal.SIGHUP)] else []) := by
  unfold shutdown_clients
  by_cases h : s.clientpid > 0
  · simp [h, signals_sent_append, open_calls_append, sleep_calls_append, signals_sent,
      open_calls, sleep_calls]
  · simp [h]

theorem shutdown_signal_frame (os : Procs) (sig : Signal) (s : PState) :
    (shutdown_signal os sig s).serverpid = s.serverpid ∧
    (shutdown_signal os sig s).clientpid = s.clientpid ∧
    (shutdown_signal os sig s).nwait = s.nwait ∧
    (shutdown_signal os sig s).nopen = s.nopen ∧
    (shutdown_signal os sig s).nfork = s.nfork ∧
    open_calls (shutdown_signal os sig s).calls = open_calls s.calls ∧
    sleep_calls (shutdown_signal os sig s).calls = sleep_calls s.calls ∧
    signals_sent (shutdown_signal os sig s).calls =
      signals_sent s.calls ++ [(s.serverpid, sig)] := by
  simp [shutdown_signal, signals_sent_append, open_calls_append, sleep_calls_append,
    signals_sent, open_calls, sleep_calls]

/-- The first wait of `shutdown` times out iff none of its 11 polls sees the
server exit. -/
theorem shutdown_first_wait (os : Procs) (s : PState) :
    (processTimeout os 10
      (shutdown_signal os Signal.SIGTERM (shutdown_clients os s))).1 = true ↔
      ∀ k, k < 11 → os.waitpid (s.nwait + k) s.serverpid ≠ s.serverpid := by
  rw [processTimeout_true_iff]
  obtain ⟨c1, _, c3, _⟩ := shutdown_clients_frame os s
  obtain ⟨g1, _, g3, _⟩ := shutdown_signal_frame os Signal.SIGTERM (shutdown_clients os s)
  rw [g1, g3, c1, c3]
  constructor
  · intro h k hk; exact h k (by omega)
  · intro h k hk; exact h k (by omega)

/-- The second wait of `shutdown`, reached after the first timed out, times
out iff none of its 4 polls sees the server exit. -/
theorem shutdown_second_wait (os : Procs) (s : PState)
    (h1 : (processTimeout os 10
      (shutdown_signal os Signal.SIGTERM (shutdown_clients os s))).1 = true) :
    (processTimeout os 3 (shutdown_signal os Signal.SIGKILL
      (processTimeout os 10
        (shutdown_signal os Signal.SIGTERM (shutdown_clients os s))).2)).1 = true ↔
      ∀ k, k < 4 → os.waitpid (s.nwait + 11 + k) s.serverpid ≠ s.serverpid := by
  rw [processTimeout_true_iff]
  obtain ⟨c1, _, c3, _⟩ := shutdown_clients_frame os s
  obtain ⟨g1, _, g3, _⟩ := shutdown_signal_frame os Signal.SIGTERM (shutdown_clients os s)
  have f := processTimeout_frame os 10
    (shutdown_signal os Signal.SIGTERM (shutdown_clients os s))
  have hn := (processTimeout_hang os 10 _ h1).1
  obtain ⟨k1, _, k3, _⟩ := shutdown_signal_frame os Signal.SIGKILL
    (processTimeout os 10 (shutdown_signal os Signal.SIGTERM (shutdown_clients os s))).2
  rw [k1, k3, f.1, hn, g1, g3, c1, c3]
  constructor
  · intro h k hk; exact h k (by omega)
  · intro h k hk; exact h k (by omega)

theorem shutdown_server_pid (os : Procs) (s : PState) :
    (processTimeout os 10
      (shutdown_signal os Signal.SIGTERM (shutdown_clients os s))).2.serverpid =
      s.serverpid := by
  rw [(processTimeout_frame os 10 _).1, (shutdown_signal_frame os Signal.SIGTERM _).1,
    (shutdown_clients_frame os s).1]

/-- When `shutdown` fails. -/
theorem shutdown_false_iff (os : Procs) (s : PState) (hpid : 0 ≤ s.serverpid) :
    (shutdown os s).1 = false ↔
      (∃ e, os.killpg s.serverpid Signal.SIGTERM = SysResult.err e ∧ e ≠ ESRCH) ∨
      (os.killpg s.serverpid Signal.SIGTERM = SysResult.ok ∧
        (∀ k, k < 11 → os.waitpid (s.nwait + k) s.serverpid ≠ s.serverpid) ∧
        os.killpg s.serverpid Signal.SIGKILL ≠ SysResult.err ESRCH ∧
        (∀ k, k < 4 → os.waitpid (s.nwait + 11 + k) s.serverpid ≠ s.serverpid)) := by
  have c1 := (shutdown_clients_frame os s).1
  have hw1 := shutdown_first_wait os s
  have hp := shutdown_server_pid os s
  unfold shutdown
  rw [if_neg (by rw [c1]; omega), c1]
  cases ht : os.killpg s.serverpid Signal.SIGTERM with
  | err e =>
    simp only [decide_eq_false_iff_not, ne_eq, SysResult.err.injEq, exists_eq_left',
      false_and, or_false, reduceCtorEq]
  | ok =>
    simp only [reduceCtorEq, false_and, exists_false, false_or, true_and]
    by_cases h1 : (processTimeout os 10
        (shutdown_signal os Signal.SIGTERM (shutdown_clients os s))).1 = true
    · have hw2 := shutdown_second_wait os s h1
      rw [if_neg (by rw [h1]; decide), hp]
      by_cases hk : os.killpg s.serverpid Signal.SIGKILL = SysResult.err ESRCH
      · rw [if_pos hk]
        simp [hk]
      · rw [if_neg hk]
        by_cases h2 : (processTimeout os 3 (shutdown_signal os Signal.SIGKILL
            (processTimeout os 10
              (shutdown_signal os Signal.SIGTERM (shutdown_clients os s))).2)).1 = true
        · rw [if_pos h2]
          simp only [true_iff]
          exact ⟨hw1.1 h1, hk, hw2.1 h2⟩
        · rw [if_neg h2]
          simp only [Bool.true_eq_false, false_iff, not_and]
          intro _ _ hc
          exact h2 (hw2.2 hc)
    · have h1f : (processTimeout os 10
          (shutdown_signal os Signal.SIGTERM (shutdown_clients os s))).1 = false := by
        cases hc : (processTimeout os 10
          (shutdown_signal os Signal.SIGTERM (shutdown_clients os s))).1
        · rfl
        · exact absurd hc h1
      rw [if_pos h1f]
      simp only [Bool.true_eq_false, false_iff, not_and]
      intro hc
      exact absurd (hw1.2 hc) h1

/-- The signals `shutdown` sends, in order. -/
theorem shutdown_signals (os : Procs) (s : PState) :
    (s.serverpid < 0 →
      signals_sent (shutdown os s).2.calls = signals_sent s.calls ++
        (if s.clientpid > 0 then [(s.clientpid, Signal.SIGHUP)] else [])) ∧
    (0 ≤ s.serverpid →
      ¬ (os.killpg s.serverpid Signal.SIGTERM = SysResult.ok ∧
        ∀ k, k < 11 → os.waitpid (s.nwait + k) s.serverpid ≠ s.serverpid) →
      signals_sent (shutdown os s).2.calls = signals_sent s.calls ++
        (if s.clientpid > 0 then [(s.clientpid, Signal.SIGHUP)] else []) ++
        [(s.serverpid, Signal.SIGTERM)]) ∧
    (0 ≤ s.serverpid → os.killpg s.serverpid Signal.SIGTERM = SysResult.ok →
      (∀ k, k < 11 → os.waitpid (s.nwait + k) s.serverpid ≠ s.serverpid) →
      signals_sent (shutdown os s).2.calls = signals_sent s.calls ++
        (if s.clientpid > 0 then [(s.clientpid, Signal.SIGHUP)] else []) ++
        [(s.serverpid, Signal.SIGTERM), (s.serverpid, Signal.SIGKILL)]) := by
  obtain ⟨c1, _, _, _, _, _, _, c8⟩ := shutdown_clients_frame os s
  have g := shutdown_signal_frame os Signal.SIGTERM (shutdown_clients os s)
  have hw1 := shutdown_first_wait os s
  have hp := shutdown_server_pid os s
  have f := processTimeout_frame os 10
    (shutdown_signal os Signal.SIGTERM (shutdown_clients os s))
  have hterm : signals_sent (shutdown_signal os Signal.SIGTERM (shutdown_clients os s)).calls =
      signals_sent s.calls ++
        (if s.clientpid > 0 then [(s.clientpid, Signal.SIGHUP)] else []) ++
        [(s.serverpid, Signal.SIGTERM)] := by
    rw [g.2.2.2.2.2.2.2, c8, c1]
  refine ⟨?_, ?_, ?_⟩
  · intro hneg
    unfold shutdown
    rw [if_pos (by rw [c1]; exact hneg)]
    exact c8
  · intro hpid hno
    unfold shutdown
    rw [if_neg (by rw [c1]; omega), c1]
    cases ht : os.killpg s.serverpid Signal.SIGTERM with
    | err e => exact hterm
    | ok =>
      have h1f : (processTimeout os 10
          (shutdown_signal os Signal.SIGTERM (shutdown_clients os s))).1 = false := by
        cases hc : (processTimeout os 10
          (shutdown_signal os Signal.SIGTERM (shutdown_clients os s))).1
        · rfl
        · exact absurd ⟨ht, hw1.1 hc⟩ hno
      simp only
      rw [if_pos h1f, f.2.2.2.2.2.1]
      exact hterm
  · intro hpid ht hall
    have h1 := hw1.2 hall
    have hkill : signals_sent (shutdown_signal os Signal.SIGKILL
        (processTimeout os 10
          (shutdown_signal os Signal.SIGTERM (shutdown_clients os s))).2).calls =
        signals_sent s.calls ++
          (if s.clientpid > 0 then [(s.clientpid, Signal.SIGHUP)] else []) ++
          [(s.serverpid, Signal.SIGTERM), (s.serverpid, Signal.SIGKILL)] := by
      rw [(shutdown_signal_frame os Signal.SIGKILL _).2.2.2.2.2.2.2, f.2.2.2.2.2.1, hterm, hp]
      simp
    unfold shutdown
    rw [if_neg (by rw [c1]; omega), c1, ht]
    simp only
    rw [if_neg (by rw [h1]; decide), hp]
    by_cases hk : os.killpg s.serverpid Signal.SIGKILL = SysResult.err ESRCH
    · rw [if_pos hk]
      exact hkill
    · rw [if_neg hk]
      have f3 := processTimeout_frame os 3 (shutdown_signal os Signal.SIGKILL
        (processTimeout os 10
          (shutdown_signal os Signal.SIGTERM (shutdown_clients os s))).2)
      split
      · rw [f3.2.2.2.2.2.1]; exact hkill
      · rw [f3.2.2.2.2.2.1]; exact hkill

/-- C11: `shutdown` invoked with no recorded server pid and no recorded
client pid returns success and performs no call at all: no signal, no
display close, no wait. -/
theorem shutdown_nothing_recorded (os : Procs) (s : PState) (hserver : s.serverpid = -1)
    (hclient : s.clientpid = -1) :
    shutdown os s = (true, s) := by
  have hc : shutdown_clients os s = s := by
    unfold shutdown_clients
    rw [if_neg (by rw [hclient]; decide)]
  unfold shutdown
  rw [hc, if_pos (by rw [hserver]; decide)]

theorem with_hangup_killpg (os : Procs) (r : SysResult) (pgrp : Int) (sig : Signal)
    (h : sig ≠ Signal.SIGHUP) : (os.with_hangup r).killpg pgrp sig = os.killpg pgrp sig := by
  simp [Procs.with_hangup, h]

/-- C12: with a recorded server pid, `shutdown` fails exactly when the
SIGTERM to the server's group fails with an error other than `ESRCH`, or when
the server is not seen to exit in the first wait, the SIGKILL does not report
`ESRCH`, and the server is not seen to exit in the second wait.  SIGKILL is
sent only after SIGTERM, and only when SIGTERM was delivered and the first
wait timed out; the outcome of the hangup to the client group does not
change the result. -/
theorem shutdown_result (os : Procs) (s : PState) (hpid : 0 ≤ s.serverpid) :
    ((shutdown os s).1 = false ↔
      (∃ e, os.killpg s.serverpid Signal.SIGTERM = SysResult.err e ∧ e ≠ ESRCH) ∨
      (os.killpg s.serverpid Signal.SIGTERM = SysResult.ok ∧
        (∀ k, k < 11 → os.waitpid (s.nwait + k) s.serverpid ≠ s.serverpid) ∧
        os.killpg s.serverpid Signal.SIGKILL ≠ SysResult.err ESRCH ∧
        (∀ k, k < 4 → os.waitpid (s.nwait + 11 + k) s.serverpid ≠ s.serverpid))) ∧
    ((shutdown os s).1 ≠ false → (shutdown os s).1 = true) ∧
    (¬ (os.killpg s.serverpid Signal.SIGTERM = SysResult.ok ∧
        ∀ k, k < 11 → os.waitpid (s.nwait + k) s.serverpid ≠ s.serverpid) →
      signals_sent (shutdown os s).2.calls = signals_sent s.calls ++
        (if s.clientpid > 0 then [(s.clientpid, Signal.SIGHUP)] else []) ++
        [(s.serverpid, Signal.SIGTERM)]) ∧
    (os.killpg s.serverpid Signal.SIGTERM = SysResult.ok →
      (∀ k, k < 11 → os.waitpid (s.nwait + k) s.serverpid ≠ s.serverpid) →
      signals_sent (shutdown os s).2.calls = signals_sent s.calls ++
        (if s.clientpid > 0 then [(s.clientpid, Signal.SIGHUP)] else []) ++
        [(s.serverpid, Signal.SIGTERM), (s.serverpid, Signal.SIGKILL)]) ∧
    (∀ r : SysResult, (shutdown (os.with_hangup r) s).1 = (shutdown os s).1) := by
  refine ⟨shutdown_false_iff os s hpid, ?_, (shutdown_signals os s).2.1 hpid,
    (shutdown_signals os s).2.2 hpid, ?_⟩
  · intro h
    cases hc : (shutdown os s).1
    · exact absurd hc h
    · rfl
  · intro r
    have a := shutdown_false_iff (os.with_hangup r) s hpid
    have b := shutdown_false_iff os s hpid
    rw [with_hangup_killpg os r _ _ (by decide), with_hangup_killpg os r _ _ (by decide)] at a
    have hw : (os.with_hangup r).waitpid = os.waitpid := rfl
    rw [hw, ← b] at a
    cases h1 : (shutdown (os.with_hangup r) s).1 <;> cases h2 : (shutdown os s).1
    · rfl
    · exact absurd (a.1 h1) (by rw [h2]; decide)
    · exact absurd (a.2 h2) (by rw [h1]; decide)
    · rfl

/-! ## `waitforserver` and `startServer` -/

theorem waitforserver_connect_frame (os : Procs) (s : PState) :
    (waitforserver_connect os s).serverpid = s.serverpid ∧
    (waitforserver_connect os s).clientpid = s.clientpid ∧
    (waitforserver_connect os s).nwait = s.nwait ∧
    (waitforserver_connect os s).nfork = s.nfork ∧
    (waitforserver_connect os s).nopen = s.nopen + 1 ∧
    (waitforserver_connect os s).xd = os.XOpenDisplay s.nopen ∧
    open_calls (waitforserver_connect os s).calls = open_calls s.calls + 1 ∧
    signals_sent (waitforserver_connect os s).calls = signals_sent s.calls := by
  simp [waitforserver_connect, signals_sent_append, open_calls_append, signals_sent,
    open_calls]

/-- One cycle in which the connection fails and the server is not seen to
exit: the state after the attempt and the one-second wait. -/
theorem waitforserver_cycle (os : Procs) (s : PState)
    (h : ∀ k, k < 2 → os.waitpid (s.nwait + k) s.serverpid ≠ s.serverpid) :
    (processTimeout os 1 (waitforserver_connect os s)).1 = true ∧
    (processTimeout os 1 (waitforserver_connect os s)).2.serverpid = s.serverpid ∧
    (processTimeout os 1 (waitforserver_connect os s)).2.clientpid = s.clientpid ∧
    (processTimeout os 1 (waitforserver_connect os s)).2.nfork = s.nfork ∧
    (processTimeout os 1 (waitforserver_connect os s)).2.nwait = s.nwait + 2 ∧
    (processTimeout os 1 (waitforserver_connect os s)).2.nopen = s.nopen + 1 ∧
    open_calls (processTimeout os 1 (waitforserver_connect os s)).2.calls =
      open_calls s.calls + 1 ∧
    signals_sent (processTimeout os 1 (waitforserver_connect os s)).2.calls =
      signals_sent s.calls := by
  obtain ⟨c1, c2, c3, c4, c5, _, c7, c8⟩ := waitforserver_connect_frame os s
  obtain ⟨f1, f2, _, f4, f5, f6, f7⟩ := processTimeout_frame os 1 (waitforserver_connect os s)
  have ht : (processTimeout os 1 (waitforserver_connect os s)).1 = true := by
    rw [processTimeout_true_iff, c1, c3]
    intro k hk
    exact h k (by omega)
  have hn := (processTimeout_hang os 1 _ ht).1
  exact ⟨ht, f1.trans c1, f2.trans c2, f4.trans c4, by rw [hn, c3], f5.trans c5,
    f7.trans c7, f6.trans c8⟩

/-- All `n` cycles fail while the server is not seen to exit. -/
theorem waitforserver_loop_fail (os : Procs) (n : Nat) (s : PState)
    (hopen : ∀ i, i < n → os.XOpenDisplay (s.nopen + i) = false)
    (halive : ∀ k, k < 2 * n → os.waitpid (s.nwait + k) s.serverpid ≠ s.serverpid) :
    (waitforserver_loop os n s).1 = false ∧
    (waitforserver_loop os n s).2.serverpid = s.serverpid ∧
    (waitforserver_loop os n s).2.clientpid = s.clientpid ∧
    (waitforserver_loop os n s).2.nfork = s.nfork ∧
    (waitforserver_loop os n s).2.nopen = s.nopen + n ∧
    open_calls (waitforserver_loop os n s).2.calls = open_calls s.calls + n ∧
    signals_sent (waitforserver_loop os n s).2.calls = signals_sent s.calls := by
  induction n generalizing s with
  | zero => simp [waitforserver_loop]
  | succ n ih =>
    obtain ⟨t1, t2, t3, t4, t5, t6, t7, t8⟩ :=
      waitforserver_cycle os s (fun k hk => halive k (by omega))
    have hx : (waitforserver_connect os s).xd = false := by
      rw [(waitforserver_connect_frame os s).2.2.2.2.2.1]
      exact hopen 0 (by omega)
    simp only [waitforserver_loop]
    rw [if_neg (by rw [hx]; decide), if_neg (by rw [t1]; decide)]
    obtain ⟨i1, i2, i3, i4, i5, i6, i7⟩ :=
      ih (processTimeout os 1 (waitforserver_connect os s)).2
        (fun i hi => by
          rw [t6, show s.nopen + 1 + i = s.nopen + (i + 1) by omega]
          exact hopen (i + 1) (by omega))
        (fun k hk => by
          rw [t5, t2, show s.nwait + 2 + k = s.nwait + (k + 2) by omega]
          exact halive (k + 2) (by omega))
    refine ⟨i1, i2.trans t2, i3.trans t3, i4.trans t4, ?_, ?_, i7.trans t8⟩
    · rw [i5, t6]; omega
    · rw [i6, t7]; omega

/-- Attempt `j` is the first to succeed, and the server is not seen to exit
before it. -/
theorem waitforserver_loop_success (os : Procs) (n j : Nat) (s : PState) (hj : j < n)
    (hok : os.XOpenDisplay (s.nopen + j) = true)
    (hopen : ∀ i, i < j → os.XOpenDisplay (s.nopen + i) = false)
    (halive : ∀ k, k < 2 * j → os.waitpid (s.nwait + k) s.serverpid ≠ s.serverpid) :
    (waitforserver_loop os n s).1 = true ∧
    (waitforserver_loop os n s).2.serverpid = s.serverpid ∧
    (waitforserver_loop os n s).2.clientpid = s.clientpid ∧
    (waitforserver_loop os n s).2.xd = true ∧
    (waitforserver_loop os n s).2.nopen = s.nopen + j + 1 ∧
    open_calls (waitforserver_loop os n s).2.calls = open_calls s.calls + j + 1 ∧
    signals_sent (waitforserver_loop os n s).2.calls = signals_sent s.calls := by
  induction n generalizing s j with
  | zero => omega
  | succ n ih =>
    obtain ⟨c1, c2, _, _, c5, c6, c7, c8⟩ := waitforserver_connect_frame os s
    simp only [waitforserver_loop]
    cases j with
    | zero =>
      have hx : (waitforserver_connect os s).xd = true := by
        rw [c6]; exact hok
      rw [if_pos hx]
      exact ⟨rfl, c1, c2, hx, by rw [c5], by rw [c7], c8⟩
    | succ j =>
      have hx : (waitforserver_connect os s).xd = false := by
        rw [c6]; exact hopen 0 (by omega)
      obtain ⟨t1, t2, t3, _, t5, t6, t7, t8⟩ :=
        waitforserver_cycle os s (fun k hk => halive k (by omega))
      rw [if_neg (by rw [hx]; decide), if_neg (by rw [t1]; decide)]
      obtain ⟨i1, i2, i3, i4, i5, i6, i7⟩ :=
        ih j (processTimeout os 1 (waitforserver_connect os s)).2 (by omega)
          (by rw [t6, show s.nopen + 1 + j = s.nopen + (j + 1) by omega]; exact hok)
          (fun i hi => by
            rw [t6, show s.nopen + 1 + i = s.nopen + (i + 1) by omega]
            exact hopen (i + 1) (by omega))
          (fun k hk => by
            rw [t5, t2, show s.nwait + 2 + k = s.nwait + (k + 2) by omega]
            exact halive (k + 2) (by omega))
      refine ⟨i1, i2.trans t2, i3.trans t3, i4, ?_, ?_, i7.trans t8⟩
      · rw [i5, t6]; omega
      · rw [i6, t7]; omega

/-- Poll `j` of the loop is the first to see the server exit, and no attempt
made before it succeeds. -/
theorem waitforserver_loop_exit (os : Procs) (n j : Nat) (s : PState) (hj : j < 2 * n)
    (hexit : os.waitpid (s.nwait + j) s.serverpid = s.serverpid)
    (halive : ∀ k, k < j → os.waitpid (s.nwait + k) s.serverpid ≠ s.serverpid)
    (hopen : ∀ a, 2 * a ≤ j → os.XOpenDisplay (s.nopen + a) = false) :
    (waitforserver_loop os n s).1 = false := by
  induction n generalizing s j with
  | zero => omega
  | succ n ih =>
    obtain ⟨c1, _, c3, _, c5, c6, _, _⟩ := waitforserver_connect_frame os s
    have hx : (waitforserver_connect os s).xd = false := by
      rw [c6]; exact hopen 0 (by omega)
    simp only [waitforserver_loop]
    rw [if_neg (by rw [hx]; decide)]
    by_cases h2 : j < 2
    · have ht : (processTimeout os 1 (waitforserver_connect os s)).1 = false := by
        cases hc : (processTimeout os 1 (waitforserver_connect os s)).1
        · rfl
        · rw [processTimeout_true_iff, c1, c3] at hc
          exact absurd hexit (hc j (by omega))
      rw [if_pos ht]
    · obtain ⟨t1, t2, _, _, t5, t6, _, _⟩ :=
        waitforserver_cycle os s (fun k hk => halive k (by omega))
      rw [if_neg (by rw [t1]; decide)]
      exact ih (j - 2) (processTimeout os 1 (waitforserver_connect os s)).2 (by omega)
        (by rw [t5, t2, show s.nwait + 2 + (j - 2) = s.nwait + j by omega]; exact hexit)
        (fun k hk => by
          rw [t5, t2, show s.nwait + 2 + k = s.nwait + (k + 2) by omega]
          exact halive (k + 2) (by omega))
        (fun a ha => by
          rw [t6, show s.nopen + 1 + a = s.nopen + (a + 1) by omega]
          exact hopen (a + 1) (by omega))

theorem shutdown_open_calls (os : Procs) (s : PState) :
    open_calls (shutdown os s).2.calls = open_calls s.calls := by
  have c := (shutdown_clients_frame os s).2.2.2.2.2.1
  have g := (shutdown_signal_frame os Signal.SIGTERM (shutdown_clients os s)).2.2.2.2.2.1
  have f := (processTimeout_frame os 10
    (shutdown_signal os Signal.SIGTERM (shutdown_clients os s))).2.2.2.2.2.2
  have k := (shutdown_signal_frame os Signal.SIGKILL (processTimeout os 10
    (shutdown_signal os Signal.SIGTERM (shutdown_clients os s))).2).2.2.2.2.2.1
  have u := (processTimeout_frame os 3 (shutdown_signal os Signal.SIGKILL (processTimeout os 10
    (shutdown_signal os Signal.SIGTERM (shutdown_clients os s))).2)).2.2.2.2.2.2
  unfold shutdown
  split
  · exact c
  · split
    · exact g.trans c
    · simp only
      split
      · exact f.trans (g.trans c)
      · split
        · exact k.trans (f.trans (g.trans c))
        · split
          · exact u.trans (k.trans (f.trans (g.trans c)))
          · exact u.trans (k.trans (f.trans (g.trans c)))

/-- The state in which the parent starts to wait for the server: after the
fork, the priority change, one poll that does not see the server exit, and
the wait for the ready signal. -/
theorem startServer_before_wait (os : Procs) (s : PState)
    (h0 : os.waitpid s.nwait (os.fork s.nfork) ≠ os.fork s.nfork) :
    (processTimeout os 0 (startServer_setpriority (startServer_fork os s))).1 = true ∧
    (startServer_suspend (processTimeout os 0
      (startServer_setpriority (startServer_fork os s))).2).serverpid = os.fork s.nfork ∧
    (startServer_suspend (processTimeout os 0
      (startServer_setpriority (startServer_fork os s))).2).nwait = s.nwait + 1 ∧
    (startServer_suspend (processTimeout os 0
      (startServer_setpriority (startServer_fork os s))).2).nopen = s.nopen ∧
    open_calls (startServer_suspend (processTimeout os 0
      (startServer_setpriority (startServer_fork os s))).2).calls = open_calls s.calls ∧
    signals_sent (startServer_suspend (processTimeout os 0
      (startServer_setpriority (startServer_fork os s))).2).calls = signals_sent s.calls := by
  have hs : (startServer_setpriority (startServer_fork os s)).serverpid = os.fork s.nfork ∧
      (startServer_setpriority (startServer_fork os s)).nwait = s.nwait ∧
      (startServer_setpriority (startServer_fork os s)).nopen = s.nopen ∧
      open_calls (startServer_setpriority (startServer_fork os s)).calls = open_calls s.calls ∧
      signals_sent (startServer_setpriority (startServer_fork os s)).calls =
        signals_sent s.calls := by
    simp [startServer_setpriority, startServer_fork, signals_sent_append, open_calls_append,
      signals_sent, open_calls]
  obtain ⟨s1, s2, s3, s4, s5⟩ := hs
  obtain ⟨f1, _, _, _, f5, f6, f7⟩ :=
    processTimeout_frame os 0 (startServer_setpriority (startServer_fork os s))
  have ht : (processTimeout os 0 (startServer_setpriority (startServer_fork os s))).1 = true := by
    rw [processTimeout_true_iff, s1, s2]
    intro k hk
    have : k = 0 := by omega
    subst this
    exact h0
  have hn := (processTimeout_hang os 0 _ ht).1
  refine ⟨ht, ?_, ?_, ?_, ?_, ?_⟩
  · simp only [startServer_suspend]; exact f1.trans s1
  · simp only [startServer_suspend]; rw [hn, s2]
  · simp only [startServer_suspend]; exact f5.trans s3
  · simp only [startServer_suspend, open_calls_append, open_calls, Nat.add_zero]; rw [f7, s4]
  · simp only [startServer_suspend, signals_sent_append, signals_sent, List.append_nil]
    rw [f6, s5]

theorem startServer_eq_parent (os : Procs) (s : PState) (hchild : os.fork s.nfork ≠ 0)
    (hfork : os.fork s.nfork ≠ -1) :
    startServer os s = startServer_parent os (startServer_fork os s) := by
  have h : (startServer_fork os s).serverpid = os.fork s.nfork := rfl
  unfold startServer
  rw [h, if_neg hchild, if_neg hfork]

/-- C14: in the parent process after a successful fork.  If the server is
never seen to exit and every connection attempt fails, `startServer` makes
exactly 120 attempts, then invokes `shutdown`, sets `serverpid` to -1 and
returns -1.  If attempt `j + 1` (at most the 120th) is the first to succeed
and the server is not seen to exit before it, `startServer` stops at that
attempt and returns the server's pid.  If a poll sees the server exit before
any attempt succeeds, it returns -1 with `serverpid = -1`. -/
theorem startServer_outcomes (os : Procs) (s : PState) (hchild : os.fork s.nfork ≠ 0)
    (hfork : os.fork s.nfork ≠ -1) :
    ((∀ k, os.waitpid k (os.fork s.nfork) ≠ os.fork s.nfork) →
      (∀ i, os.XOpenDisplay i = false) →
      (startServer os s).1 = some (-1) ∧
      (startServer os s).2.serverpid = -1 ∧
      open_calls (startServer os s).2.calls = open_calls s.calls + 120 ∧
      ∃ w : PState, w.serverpid = os.fork s.nfork ∧
        open_calls w.calls = open_calls s.calls + 120 ∧
        signals_sent w.calls = signals_sent s.calls ∧
        (startServer os s).2 = { (shutdown os w).2 with serverpid := -1 }) ∧
    (∀ j, j < 120 → os.XOpenDisplay (s.nopen + j) = true →
      (∀ i, i < j → os.XOpenDisplay (s.nopen + i) = false) →
      (∀ k, k ≤ 2 * j → os.waitpid (s.nwait + k) (os.fork s.nfork) ≠ os.fork s.nfork) →
      (startServer os s).1 = some (os.fork s.nfork) ∧
      (startServer os s).2.serverpid = os.fork s.nfork ∧
      (startServer os s).2.xd = true ∧
      open_calls (startServer os s).2.calls = open_calls s.calls + j + 1 ∧
      signals_sent (startServer os s).2.calls = signals_sent s.calls) ∧
    (∀ j, j ≤ 240 → os.waitpid (s.nwait + j) (os.fork s.nfork) = os.fork s.nfork →
      (∀ k, k < j → os.waitpid (s.nwait + k) (os.fork s.nfork) ≠ os.fork s.nfork) →
      (∀ a, 2 * a < j → os.XOpenDisplay (s.nopen + a) = false) →
      (startServer os s).1 = some (-1) ∧ (startServer os s).2.serverpid = -1) := by
  rw [startServer_eq_parent os s hchild hfork]
  refine ⟨?_, ?_, ?_⟩
  · intro halive hopen
    obtain ⟨b1, b2, b3, b4, b5, b6⟩ := startServer_before_wait os s (halive _)
    obtain ⟨w1, w2, _, _, _, w6, w7⟩ := waitforserver_loop_fail os 120
      (startServer_suspend (processTimeout os 0
        (startServer_setpriority (startServer_fork os s))).2)
      (fun i _ => hopen _) (fun k _ => by rw [b2]; exact halive _)
    unfold startServer_parent
    rw [if_neg (by rw [b1]; decide)]
    unfold waitforserver
    rw [if_pos w1]
    refine ⟨rfl, rfl, ?_, _, w2.trans b2, by rw [w6, b5], w7.trans b6, rfl⟩
    simp only
    rw [shutdown_open_calls, w6, b5]
  · intro j hj hok hopen halive
    obtain ⟨b1, b2, b3, b4, b5, b6⟩ := startServer_before_wait os s (halive 0 (by omega))
    obtain ⟨w1, w2, _, w4, _, w6, w7⟩ := waitforserver_loop_success os 120 j
      (startServer_suspend (processTimeout os 0
        (startServer_setpriority (startServer_fork os s))).2) hj
      (by rw [b4]; exact hok) (fun i hi => by rw [b4]; exact hopen i hi)
      (fun k hk => by
        rw [b3, b2, show s.nwait + 1 + k = s.nwait + (k + 1) by omega]
        exact halive (k + 1) (by omega))
    unfold startServer_parent
    rw [if_neg (by rw [b1]; decide)]
    unfold waitforserver
    rw [if_neg (by rw [w1]; decide)]
    exact ⟨by rw [w2, b2], w2.trans b2, w4, by rw [w6, b5], w7.trans b6⟩
  · intro j hj hexit halive hopen
    unfold startServer_parent
    by_cases h0 : (processTimeout os 0
        (startServer_setpriority (startServer_fork os s))).1 = false
    · rw [if_pos h0]
      exact ⟨rfl, rfl⟩
    · rw [if_neg h0]
      have hj0 : j ≠ 0 := by
        intro hz
        subst hz
        apply h0
        cases hc : (processTimeout os 0
          (startServer_setpriority (startServer_fork os s))).1
        · rfl
        · rw [processTimeout_true_iff] at hc
          exact absurd hexit (hc 0 (Nat.le_refl _))
      obtain ⟨b1, b2, b3, b4, b5, b6⟩ := startServer_before_wait os s (halive 0 (by omega))
      have hw := waitforserver_loop_exit os 120 (j - 1)
        (startServer_suspend (processTimeout os 0
          (startServer_setpriority (startServer_fork os s))).2) (by omega)
        (by rw [b3, b2, show s.nwait + 1 + (j - 1) = s.nwait + j by omega]; exact hexit)
        (fun k hk => by
          rw [b3, b2, show s.nwait + 1 + k = s.nwait + (k + 1) by omega]
          exact halive (k + 1) (by omega))
        (fun a ha => by rw [b4]; exact hopen a (by omega))
      unfold waitforserver
      rw [if_pos hw]
      exact ⟨rfl, rfl⟩

/-! ## The supervisor on sample runs -/

theorem shutdown_nothing_recorded_witness :
    shutdown os_server_hangs PState.initial = (true, PState.initial) ∧
    (shutdown os_server_hangs PState.initial).2.calls = [] :=
  ⟨shutdown_nothing_recorded os_server_hangs PState.initial rfl rfl,
   by rw [shutdown_nothing_recorded os_server_hangs PState.initial rfl rfl]; rfl⟩

theorem shutdown_result_witness :
    (shutdown os_server_hangs state_both).1 = false ∧
    signals_sent (shutdown os_server_hangs state_both).2.calls =
      [(1300, Signal.SIGHUP), (1234, Signal.SIGTERM), (1234, Signal.SIGKILL)] ∧
    (shutdown (os_server_hangs.with_hangup (SysResult.err 1)) state_both).1 = false ∧
    (shutdown os_server_dies state_both).1 = true :=
  ⟨(shutdown_result os_server_hangs state_both (by decide)).1.2
      (Or.inr ⟨rfl, by decide, by decide, by decide⟩),
   (shutdown_result os_server_hangs state_both (by decide)).2.2.2.1 rfl (by decide),
   ((shutdown_result os_server_hangs state_both (by decide)).2.2.2.2 (SysResult.err 1)).trans
      ((shutdown_result os_server_hangs state_both (by decide)).1.2
        (Or.inr ⟨rfl, by decide, by decide, by decide⟩)),
   (shutdown_result os_server_dies state_both (by decide)).2.1 (by decide!)⟩

/-- C13 on the code: with a server that never exits, `processTimeout (10)`
sleeps 11 times and `processTimeout (3)` 4 times (one more than the timeout
each, and two for a timeout of 1), so that `shutdown` sleeps 11 times between
SIGTERM and SIGKILL and 4 more times before it reports failure. -/
theorem processTimeout_sleeps_one_more :
    (processTimeout os_server_hangs 10 state_server_only).1 = true ∧
    sleep_calls (processTimeout os_server_hangs 10 state_server_only).2.calls = 11 ∧
    sleep_calls (processTimeout os_server_hangs 3 state_server_only).2.calls = 4 ∧
    sleep_calls (processTimeout os_server_hangs 1 state_server_only).2.calls = 2 ∧
    (shutdown os_server_hangs state_server_only).1 = false ∧
    signals_sent (shutdown os_server_hangs state_server_only).2.calls =
      [(1234, Signal.SIGTERM), (1234, Signal.SIGKILL)] ∧
    sleep_calls ((shutdown os_server_hangs state_server_only).2.calls.takeWhile
      (fun e => decide (e ≠ PEvent.killpg 1234 Signal.SIGKILL SysResult.ok))) = 11 ∧
    sleep_calls ((shutdown os_server_hangs state_server_only).2.calls.dropWhile
      (fun e => decide (e ≠ PEvent.killpg 1234 Signal.SIGKILL SysResult.ok))) = 4 := by
  decide!

theorem startServer_outcomes_witness :
    ((startServer os_server_hangs PState.initial).1 = some (-1) ∧
      (startServer os_server_hangs PState.initial).2.serverpid = -1 ∧
      open_calls (startServer os_server_hangs PState.initial).2.calls = 120) ∧
    ((startServer os_server_ready PState.initial).1 = some 1234 ∧
      (startServer os_server_ready PState.initial).2.serverpid = 1234 ∧
      open_calls (startServer os_server_ready PState.initial).2.calls = 3) ∧
    ((startServer os_server_dies PState.initial).1 = some (-1) ∧
      (startServer os_server_dies PState.initial).2.serverpid = -1) :=
  ⟨⟨((startServer_outcomes os_server_hangs PState.initial (by decide) (by decide)).1
        (fun _ => (by decide : (0 : Int) ≠ 1234)) (fun _ => rfl)).1,
     ((startServer_outcomes os_server_hangs PState.initial (by decide) (by decide)).1
        (fun _ => (by decide : (0 : Int) ≠ 1234)) (fun _ => rfl)).2.1,
     ((startServer_outcomes os_server_hangs PState.initial (by decide) (by decide)).1
        (fun _ => (by decide : (0 : Int) ≠ 1234)) (fun _ => rfl)).2.2.1⟩,
   ⟨((startServer_outcomes os_server_ready PState.initial (by decide) (by decide)).2.1 2
        (by decide) (by decide) (by decide) (fun _ _ => (by decide : (0 : Int) ≠ 1234))).1,
     ((startServer_outcomes os_server_ready PState.initial (by decide) (by decide)).2.1 2
        (by decide) (by decide) (by decide) (fun _ _ => (by decide : (0 : Int) ≠ 1234))).2.1,
     ((startServer_outcomes os_server_ready PState.initial (by decide) (by decide)).2.1 2
        (by decide) (by decide) (by decide) (fun _ _ => (by decide : (0 : Int) ≠ 1234))).2.2.2.1⟩,
   (startServer_outcomes os_server_dies PState.initial (by decide) (by decide)).2.2 3
      (by decide) (by decide) (by decide) (fun _ _ => rfl)⟩

/-! ## `parse_config`: strings in the line buffer -/

theorem s_space_from_head (l : List Char) (p : Nat)
    (h : ∀ c, l.head? = some c → IS_SPACE c = false) : s_space_from l p = p := by
  cases l with
  | nil => rfl
  | cons c rest =>
    have := h c rfl
    simp [s_space_from, this]

theorem takeWhile_until_NUL (v rest : List Char) (h : NUL ∉ v) :
    (v ++ NUL :: rest).takeWhile (fun c => decide (c ≠ NUL)) = v := by
  induction v with
  | nil => simp [List.takeWhile]
  | cons c w ih =>
    have hc : c ≠ NUL := fun hc => h (by rw [hc]; exact List.mem_cons_self _ _)
    have hw : NUL ∉ w := fun hw => h (List.mem_cons_of_mem _ hw)
    have ih2 := ih hw
    simp only [List.cons_append, List.takeWhile, decide_not, hc, decide_False,
      Bool.not_false] at ih2 ⊢
    exact congrArg (List.cons c) ih2

theorem cstr_at (pre v rest : List Char) (h : NUL ∉ v) :
    cstr (pre ++ (v ++ NUL :: rest)) pre.length = v := by
  unfold cstr
  rw [List.drop_left]
  exact takeWhile_until_NUL v rest h

theorem peek_append (pre l : List Char) (i : Nat) :
    peek (pre ++ l) (pre.length + i) = peek l i := by
  unfold peek
  simp [List.getD_eq_getElem?_getD, List.getElem?_append_right]

theorem peek_at_length (v : List Char) (c : Char) (rest : List Char) :
    peek (v ++ c :: rest) v.length = c := by
  induction v with
  | nil => rfl
  | cons a w ih => simpa [peek] using ih

theorem set_at_length (v : List Char) (c x : Char) (rest : List Char) :
    (v ++ c :: rest).set v.length x = v ++ x :: rest := by
  induction v with
  | nil => rfl
  | cons a w ih => simp [List.set, ih]

theorem set_append_right (pre l : List Char) (i : Nat) (x : Char) :
    (pre ++ l).set (pre.length + i) x = pre ++ l.set i x := by
  induction pre with
  | nil => simp
  | cons a w ih =>
    have : (a :: w).length + i = (w.length + i) + 1 := by simp; omega
    rw [this]
    simp [List.set, ih]

/-- The loop `while (e-- != s)` leaves `e` below `s` when it ends because
`e` has reached `s`, and above `s` when it ends on a byte that is not a
space: `s_space_right_end (s, e)` is never `s`. -/
theorem s_space_right_end_ne (buf : List Char) (s e : Nat) (h : s ≤ e) :
    s_space_right_end buf s e ≠ (s : Int) := by
  induction e with
  | zero =>
    have : s = 0 := by omega
    subst this
    simp [s_space_right_end]
  | succ e ih =>
    rw [s_space_right_end]
    split
    · omega
    · split
      · exact ih (by omega)
      · omega

/-- After a value that ends in a byte that is not a space, and a newline,
`s_space_right_end` stops on the newline. -/
theorem s_space_right_end_line (buf : List Char) (s n : Nat) (hn : 0 < n)
    (hnl : IS_SPACE (peek buf (s + n)) = true)
    (hlast : IS_SPACE (peek buf (s + n - 1)) = false) :
    s_space_right_end buf s (s + n + 1) = ((s + n : Nat) : Int) := by
  have h1 : ¬ (s + n + 1 = s) := by omega
  rw [s_space_right_end, if_neg h1, if_pos hnl]
  obtain ⟨m, hm⟩ : ∃ m, s + n = m + 1 := ⟨s + n - 1, by omega⟩
  have h2 : ¬ (m + 1 = s) := by omega
  have hl : IS_SPACE (peek buf m) = false := by
    have : m = s + n - 1 := by omega
    rw [this]; exact hlast
  rw [hm, s_space_right_end, if_neg h2, hl]
  simp

/-- The value part of a line: in a buffer that holds `v`, a newline and the
terminator from position `pre.length` on, `s_space_right` stops right after
`v`, and the string there is `v` once the terminator is written. -/
theorem value_part (pre v : List Char) (c : Char) (w : List Char) (hv : v = w ++ [c])
    (hc : IS_SPACE c = false) (hnul : NUL ∉ v) :
    s_space_right (pre ++ (v ++ ['\n', NUL])) pre.length = ((pre.length + v.length : Nat) : Int)
    ∧ (pre ++ (v ++ ['\n', NUL])).set (pre.length + v.length) NUL = pre ++ (v ++ [NUL, NUL])
    ∧ cstr (pre ++ (v ++ [NUL, NUL])) pre.length = v := by
  refine ⟨?_, ?_, cstr_at pre v [NUL] hnul⟩
  · have hlen : strlen (pre ++ (v ++ ['\n', NUL])) pre.length = v.length + 1 := by
      unfold strlen
      have hn : NUL ∉ v ++ ['\n'] := by
        intro h
        rcases List.mem_append.1 h with h | h
        · exact hnul h
        · simp [NUL] at h
      have := cstr_at pre (v ++ ['\n']) [] hn
      rw [List.append_assoc] at this
      rw [show (['\n', NUL] : List Char) = ['\n'] ++ [NUL] from rfl, this]
      simp
    have hpos : 0 < v.length := by rw [hv]; simp
    unfold s_space_right
    rw [hlen, ← Nat.add_assoc]
    apply s_space_right_end_line _ _ _ hpos
    · rw [peek_append, peek_at_length]; rfl
    · have : pre.length + v.length - 1 = pre.length + w.length := by rw [hv]; simp
      rw [this, peek_append, hv, List.append_assoc]
      exact (congrArg IS_SPACE (peek_at_length w c ['\n', NUL])).trans hc
  · rw [set_append_right, set_at_length]

/-! ## `parse_config`: the file that cannot be opened, and the keys -/

/-- C16: when the configuration file cannot be opened, `parse_config`
returns `True` and changes no global; the globals then have their initial
values: policy `ConsoleOnly`, `FlagDropRootAuto` and `FlagAllowChmod` set,
`FlagDropRoot` and `FlagDebug` clear. -/
theorem parse_config_no_file (env : ConfEnv) (h : env.config_file = none) :
    (∀ g, parse_config env g = Parse.next g)
    ∧ (parse_config env Globals.initial).ret = some 1
    ∧ parse_config env Globals.initial = Parse.next Globals.initial
    ∧ Globals.initial.cfg.allowed = Allowed.ConsoleOnly
    ∧ Globals.initial.cfg.u_flags &&& FlagDropRootAuto ≠ 0
    ∧ Globals.initial.cfg.u_flags &&& FlagAllowChmod ≠ 0
    ∧ Globals.initial.cfg.u_flags &&& FlagDropRoot = 0
    ∧ Globals.initial.cfg.u_flags &&& FlagDebug = 0 := by
  have hg : ∀ g, parse_config env g = Parse.next g := by
    intro g
    simp [parse_config, h]
  refine ⟨hg, ?_, hg _, rfl, by decide, by decide, by decide, by decide⟩
  rw [hg]
  rfl

theorem parse_config_no_file_witness :
    (∀ g, parse_config ⟨none, fun _ => true⟩ g = Parse.next g)
    ∧ (parse_config ⟨none, fun _ => true⟩ Globals.initial).ret = some 1
    ∧ parse_config ⟨none, fun _ => true⟩ Globals.initial = Parse.next Globals.initial
    ∧ Globals.initial.cfg.allowed = Allowed.ConsoleOnly
    ∧ Globals.initial.cfg.u_flags &&& FlagDropRootAuto ≠ 0
    ∧ Globals.initial.cfg.u_flags &&& FlagAllowChmod ≠ 0
    ∧ Globals.initial.cfg.u_flags &&& FlagDropRoot = 0
    ∧ Globals.initial.cfg.u_flags &&& FlagDebug = 0 :=
  parse_config_no_file ⟨none, fun _ => true⟩ rfl

/-- C17 on the code: the keys that set the display address and the server
command are spelled `u_display` and `u_server`.  The lines `display = :1`
and `server = /usr/bin/X` end `parse_config` with the error "invalid key" at
line 1 and the return value `False`, and set nothing; `session-wrapper = v`
sets the session wrapper. -/
theorem parse_config_display_server_keys :
    parse_config (conf_file "display = :1\n") Globals.initial
      = Parse.quit Globals.initial (ConfigError.invalid_key "display".toList 1)
    ∧ (parse_config (conf_file "display = :1\n") Globals.initial).ret = some 0
    ∧ parse_config (conf_file "server = /usr/bin/X\n") Globals.initial
      = Parse.quit Globals.initial (ConfigError.invalid_key "server".toList 1)
    ∧ (parse_config (conf_file "server = /usr/bin/X\n") Globals.initial).ret = some 0
    ∧ parse_config (conf_file "u_display = :1\n") Globals.initial
      = Parse.next { Globals.initial with u_display := some ":1".toList }
    ∧ parse_config (conf_file "u_server = /usr/bin/X\n") Globals.initial
      = Parse.next { Globals.initial with u_server := some "/usr/bin/X".toList }
    ∧ parse_config (conf_file "session-wrapper = /etc/X11/Xsession\n") Globals.initial
      = Parse.next { Globals.initial with u_session := some "/etc/X11/Xsession".toList } := by
  decide!

/-- C19 on the code: the test `temp == val_s` behind the message "missing
value" never holds, because `s_space_right_end (s, e)` is never `s`.  A line
`session-wrapper =`, with or without spaces after the `=`, is accepted and
sets the session wrapper to the empty string, and so for `u_display` and
`u_server`; with a flag key the line fails, on the error "invalid value".  A
line ` = x` fails on the error "invalid key", and `= x` at the start of the
buffer writes the terminator before the buffer. -/
theorem parse_config_missing_value_accepted :
    (∀ buf s, s_space_right buf s ≠ (s : Int))
    ∧ parse_config (conf_file "session-wrapper =\n") Globals.initial
      = Parse.next { Globals.initial with u_session := some [] }
    ∧ (parse_config (conf_file "session-wrapper =\n") Globals.initial).ret = some 1
    ∧ parse_config (conf_file "session-wrapper =   \n") Globals.initial
      = Parse.next { Globals.initial with u_session := some [] }
    ∧ parse_config (conf_file "u_display =\n") Globals.initial
      = Parse.next { Globals.initial with u_display := some [] }
    ∧ parse_config (conf_file "u_server = \n") Globals.initial
      = Parse.next { Globals.initial with u_server := some [] }
    ∧ parse_config (conf_file "debug =\n") Globals.initial
      = Parse.quit Globals.initial (ConfigError.invalid_value "debug".toList [] 1)
    ∧ parse_config (conf_file "allowed-users =\n") Globals.initial
      = Parse.quit Globals.initial (ConfigError.invalid_value "allowed-users".toList [] 1)
    ∧ parse_config (conf_file " = x\n") Globals.initial
      = Parse.quit Globals.initial (ConfigError.invalid_key "= x".toList 1)
    ∧ parse_config (conf_file "= x\n") Globals.initial = Parse.undefined := by
  refine ⟨fun buf s => s_space_right_end_ne buf s _ (Nat.le_add_right _ _), ?_⟩
  decide!

/-! ## `parse_config`: a line `debug = v` -/

theorem parse_line_debug_spaced (env : ConfEnv) (g : Globals) (n : Nat) (v : List Char)
    (hnul : NUL ∉ v) (hfirst : ∀ a, v.head? = some a → IS_SPACE a = false)
    (hlast : ∀ a, v.getLast? = some a → IS_SPACE a = false) :
    parse_line env g n ("debug".toList ++ " = ".toList ++ v ++ ['\n'])
      = apply_setting env g n "debug".toList v := by
  rcases List.eq_nil_or_concat v with hv | ⟨w, c, hv⟩
  · subst hv
    simp [parse_line, s_space, s_space_from, IS_SPACE, peek, strchr, strchr_from, NUL,
      s_space_right_end, s_space_right, strlen, cstr, List.takeWhile]
  · rw [List.concat_eq_append] at hv
    have hc : IS_SPACE c = false := hlast c (by rw [hv]; simp)
    obtain ⟨h1, h2, h3⟩ := value_part ['d', 'e', 'b', 'u', 'g', NUL, '=', ' '] v c w hv hc hnul
    have h0 : s_space_from (v ++ ['\n', NUL]) 8 = 8 := by
      apply s_space_from_head
      intro a ha
      apply hfirst a
      rw [hv] at ha ⊢
      cases w <;> simpa using ha
    have hpos : 0 < v.length := by rw [hv]; simp
    simp only [List.cons_append, List.nil_append, List.length_cons, List.length_nil, NUL,
      Nat.zero_add, Nat.reduceAdd] at h0 h1 h2 h3
    have hk : cstr ('d' :: 'e' :: 'b' :: 'u' :: 'g' :: Char.ofNat 0 :: '=' :: ' '
        :: (v ++ [Char.ofNat 0, Char.ofNat 0])) 0 = ['d', 'e', 'b', 'u', 'g'] := by
      simp [cstr, List.takeWhile, NUL]
    have hne : ¬ (((8 + v.length : Nat) : Int) = ((8 : Nat) : Int)) := by omega
    have hnn : ¬ (((8 + v.length : Nat) : Int) < 0) := by omega
    simp [parse_line, s_space, s_space_from, IS_SPACE, peek, strchr, strchr_from, NUL,
      s_space_right_end]
    rw [h0, h1, if_neg hne, if_neg hnn, Int.toNat_ofNat, h2, hk, h3]

theorem parse_line_debug_compact (env : ConfEnv) (g : Globals) (n : Nat) (v : List Char)
    (hnul : NUL ∉ v) (hfirst : ∀ a, v.head? = some a → IS_SPACE a = false)
    (hlast : ∀ a, v.getLast? = some a → IS_SPACE a = false) :
    parse_line env g n ("debug".toList ++ "=".toList ++ v ++ ['\n'])
      = apply_setting env g n "debug".toList v := by
  rcases List.eq_nil_or_concat v with hv | ⟨w, c, hv⟩
  · subst hv
    simp [parse_line, s_space, s_space_from, IS_SPACE, peek, strchr, strchr_from, NUL,
      s_space_right_end, s_space_right, strlen, cstr, List.takeWhile]
  · rw [List.concat_eq_append] at hv
    have hc : IS_SPACE c = false := hlast c (by rw [hv]; simp)
    obtain ⟨h1, h2, h3⟩ := value_part ['d', 'e', 'b', 'u', 'g', NUL] v c w hv hc hnul
    have h0 : s_space_from (v ++ ['\n', NUL]) 6 = 6 := by
      apply s_space_from_head
      intro a ha
      apply hfirst a
      rw [hv] at ha ⊢
      cases w <;> simpa using ha
    have hpos : 0 < v.length := by rw [hv]; simp
    simp only [List.cons_append, List.nil_append, List.length_cons, List.length_nil, NUL,
      Nat.zero_add, Nat.reduceAdd] at h0 h1 h2 h3
    have hk : cstr ('d' :: 'e' :: 'b' :: 'u' :: 'g' :: Char.ofNat 0
        :: (v ++ [Char.ofNat 0, Char.ofNat 0])) 0 = ['d', 'e', 'b', 'u', 'g'] := by
      simp [cstr, List.takeWhile, NUL]
    have hne : ¬ (((6 + v.length : Nat) : Int) = ((6 : Nat) : Int)) := by omega
    have hnn : ¬ (((6 + v.length : Nat) : Int) < 0) := by omega
    simp [parse_line, s_space, s_space_from, IS_SPACE, peek, strchr, strchr_from, NUL,
      s_space_right_end]
    rw [h0, h1, if_neg hne, if_neg hnn, Int.toNat_ofNat, h2, hk, h3]



/-! ## `parse_config`: the lines of the file -/

theorem fgets_chunks_line (l rest cur : List Char) (hnl : '\n' ∉ l)
    (hlen : cur.length + l.length ≤ 1022) :
    fgets_chunks (l ++ '\n' :: rest) cur = (cur ++ l ++ ['\n']) :: fgets_chunks rest [] := by
  induction l generalizing cur with
  | nil => simp [fgets_chunks]
  | cons c w ih =>
    have hc : c ≠ '\n' := fun hc => hnl (by rw [hc]; exact List.mem_cons_self _ _)
    have hw : '\n' ∉ w := fun hw => hnl (List.mem_cons_of_mem _ hw)
    simp only [List.length_cons] at hlen
    have hl : ¬ (cur.length + 1 = 1023) := by omega
    have h2 : (cur ++ [c]).length + w.length ≤ 1022 := by
      simp only [List.length_append, List.length_cons, List.length_nil]
      omega
    have h3 := ih (cur ++ [c]) hw h2
    have h4 : fgets_chunks (c :: (w ++ '\n' :: rest)) cur
        = fgets_chunks (w ++ '\n' :: rest) (cur ++ [c]) := by
      rw [fgets_chunks]
      simp [hc, hl]
    rw [List.cons_append, h4, h3]
    simp

theorem fgets_chunks_lines (ls : List (List Char)) (rest : List Char)
    (hshort : ∀ l ∈ ls, '\n' ∉ l ∧ l.length ≤ 1022) :
    fgets_chunks (config_lines ls ++ rest) []
      = ls.map (fun l => l ++ ['\n']) ++ fgets_chunks rest [] := by
  induction ls with
  | nil => rfl
  | cons l more ih =>
    have h1 := hshort l (List.mem_cons_self _ _)
    have h2 := ih (fun x hx => hshort x (List.mem_cons_of_mem _ hx))
    simp only [config_lines, List.append_assoc, List.cons_append, List.map_cons]
    rw [fgets_chunks_line l _ [] h1.1 (by simpa using h1.2), h2]
    simp

theorem parse_lines_append (env : ConfEnv) (cs1 cs2 : List (List Char)) (n : Nat)
    (g g1 : Globals) (h : parse_lines env cs1 n g = Parse.next g1) :
    parse_lines env (cs1 ++ cs2) n g = parse_lines env cs2 (n + cs1.length) g1 := by
  induction cs1 generalizing n g with
  | nil =>
    simp only [parse_lines, Parse.next.injEq] at h
    simp [h]
  | cons c more ih =>
    simp only [parse_lines, List.cons_append] at h ⊢
    cases hc : parse_line env g (n + 1) c with
    | next g2 =>
      rw [hc] at h
      simp only at h ⊢
      have h5 := ih (n + 1) g2 h
      rw [show n + (c :: more).length = n + 1 + more.length by simp only [List.length_cons]; omega]
      exact h5
    | quit g2 err => rw [hc] at h; simp at h
    | undefined => rw [hc] at h; simp at h

theorem clear_flags_FlagDebug (f : Nat) :
    clear_flags f FlagDebug &&& FlagDebug = 0
    ∧ (clear_flags f FlagDebug ||| FlagDebug) &&& FlagDebug ≠ 0 := by
  have h4 : FlagDebug = 2 ^ 2 := rfl
  constructor
  · rw [h4, and_bit_eq_zero_iff]
    have : Nat.testBit 4294967291 2 = false := by decide
    simp [clear_flags, Nat.testBit_and, this]
  · rw [h4]
    intro h
    rw [and_bit_eq_zero_iff] at h
    have : Nat.testBit 4 2 = true := by decide
    simp [Nat.testBit_or, this] at h

theorem apply_setting_debug (env : ConfEnv) (g : Globals) (n : Nat) (v : List Char) :
    apply_setting env g n "debug".toList v
      = if parse_int v = -1 then
          Parse.quit g.debug_cleared (ConfigError.invalid_value "debug".toList v n)
        else if parse_int v ≠ 0 then Parse.next g.debug_set
        else Parse.next g.debug_cleared := by
  have h1 : ¬ ("debug".toList = "allowed-users".toList) := by decide
  have h2 : ¬ ("debug".toList = "drop-root".toList) := by decide
  unfold apply_setting
  rw [if_neg h1, if_neg h2, if_pos rfl]
  rfl

theorem parse_lines_debug_line (env : ConfEnv) (g : Globals) (n : Nat)
    (sep v : List Char) (more : List (List Char))
    (hsep : sep = " = ".toList ∨ sep = "=".toList)
    (hnul : NUL ∉ v) (hfirst : ∀ a, v.head? = some a → IS_SPACE a = false)
    (hlast : ∀ a, v.getLast? = some a → IS_SPACE a = false) :
    parse_lines env (("debug".toList ++ sep ++ v ++ ['\n']) :: more) n g
      = if parse_int v = -1 then
          Parse.quit g.debug_cleared (ConfigError.invalid_value "debug".toList v (n + 1))
        else if parse_int v ≠ 0 then parse_lines env more (n + 1) g.debug_set
        else parse_lines env more (n + 1) g.debug_cleared := by
  have hline : parse_line env g (n + 1) ("debug".toList ++ sep ++ v ++ ['\n'])
      = apply_setting env g (n + 1) "debug".toList v := by
    rcases hsep with h | h
    · rw [h]; exact parse_line_debug_spaced env g (n + 1) v hnul hfirst hlast
    · rw [h]; exact parse_line_debug_compact env g (n + 1) v hnul hfirst hlast
  rw [parse_lines, hline, apply_setting_debug]
  by_cases h1 : parse_int v = -1
  · rw [if_pos h1, if_pos h1]
  · rw [if_neg h1, if_neg h1]
    by_cases h2 : parse_int v ≠ 0
    · rw [if_pos h2, if_pos h2]
    · rw [if_neg h2, if_neg h2]

/-- C18, amended: let the file hold the lines `ls`, each of at most 1022
bytes and each accepted by the loop of `parse_config`, then the line
`debug = v` or `debug=v`, then anything; let `v` be free of NUL and newline,
without a space at either end, and of at most 1014 bytes.  If `v` is not one
of `yes`, `true`, `no`, `false`, `parse_config` returns `False` and the error
"invalid value" cites the position of the line in the file.  For `yes` and
`true` the loop goes on with the next line with `FlagDebug` set, for `no` and
`false` with `FlagDebug` clear. -/
theorem parse_config_debug_line (env : ConfEnv) (g g1 : Globals) (ls : List (List Char))
    (sep v rest : List Char)
    (hsep : sep = " = ".toList ∨ sep = "=".toList)
    (hfile : env.config_file
      = some (config_lines ls ++ ("debug".toList ++ sep ++ v ++ ['\n']) ++ rest))
    (hshort : ∀ l ∈ ls, '\n' ∉ l ∧ l.length ≤ 1022)
    (hbefore : parse_lines env (ls.map (fun l => l ++ ['\n'])) 0 g = Parse.next g1)
    (hnul : NUL ∉ v) (hnl : '\n' ∉ v) (hlen : v.length ≤ 1014)
    (hfirst : ∀ a, v.head? = some a → IS_SPACE a = false)
    (hlast : ∀ a, v.getLast? = some a → IS_SPACE a = false) :
    (v ≠ "yes".toList → v ≠ "true".toList → v ≠ "no".toList → v ≠ "false".toList →
      parse_config env g
        = Parse.quit g1.debug_cleared
            (ConfigError.invalid_value "debug".toList v (ls.length + 1))
      ∧ (parse_config env g).ret = some 0)
    ∧ (v = "yes".toList ∨ v = "true".toList →
      parse_config env g
        = parse_lines env (fgets_chunks rest []) (ls.length + 1) g1.debug_set)
    ∧ (v = "no".toList ∨ v = "false".toList →
      parse_config env g
        = parse_lines env (fgets_chunks rest []) (ls.length + 1) g1.debug_cleared)
    ∧ g1.debug_set.cfg.u_flags &&& FlagDebug ≠ 0
    ∧ g1.debug_cleared.cfg.u_flags &&& FlagDebug = 0 := by
  have hl1 : '\n' ∉ "debug".toList ++ sep ++ v := by
    intro h
    rcases List.mem_append.1 h with h | h
    · rcases hsep with hs | hs <;> rw [hs] at h <;> revert h <;> decide
    · exact hnl h
  have hl2 : ([] : List Char).length + ("debug".toList ++ sep ++ v).length ≤ 1022 := by
    rcases hsep with hs | hs <;> rw [hs] <;>
      simp only [List.length_append, List.length_nil] <;>
      simp <;> omega
  have hmain : parse_config env g
      = parse_lines env
          (("debug".toList ++ sep ++ v ++ ['\n']) :: fgets_chunks rest []) ls.length g1 := by
    unfold parse_config
    rw [hfile]
    simp only
    rw [List.append_assoc, fgets_chunks_lines ls _ hshort,
      parse_lines_append env _ _ 0 g g1 hbefore, List.append_assoc,
      show ['\n'] ++ rest = '\n' :: rest from rfl,
      fgets_chunks_line _ rest [] hl1 hl2]
    simp
  rw [hmain, parse_lines_debug_line env g1 ls.length sep v _ hsep hnul hfirst hlast]
  refine ⟨?_, ?_, ?_, (clear_flags_FlagDebug g1.cfg.u_flags).2,
    (clear_flags_FlagDebug g1.cfg.u_flags).1⟩
  · intro h1 h2 h3 h4
    have hp : parse_int v = -1 := by
      unfold parse_int
      rw [if_neg (fun h => h.elim h2 h1), if_neg (fun h => h.elim h4 h3)]
    rw [if_pos hp]
    exact ⟨rfl, rfl⟩
  · intro h
    have hp : parse_int v = 1 := by
      rcases h with h | h <;> rw [h] <;> decide
    rw [hp]
    rfl
  · intro h
    have hp : parse_int v = 0 := by
      rcases h with h | h <;> rw [h] <;> decide
    rw [hp]
    rfl

/-- C18 as stated fails: in a file whose first line is a comment of 1023
bytes before its newline, `fgets` needs two calls for that line, and the
error for `debug=maybe` on the second line of the file cites line 3. -/
theorem parse_config_line_number_counterexample :
    parse_config ⟨some (config_lines ['#' :: List.replicate 1022 ' ', "debug=maybe".toList]),
        fun _ => true⟩ Globals.initial
      = Parse.quit Globals.initial
          (ConfigError.invalid_value "debug".toList "maybe".toList 3)
    ∧ parse_config ⟨some (config_lines ['#' :: List.replicate 1022 ' ', "debug=maybe".toList]),
        fun _ => true⟩ Globals.initial
      ≠ Parse.quit Globals.initial
          (ConfigError.invalid_value "debug".toList "maybe".toList 2) := by
  decide!

theorem parse_config_debug_line_witness :
    (parse_config (conf_file "# comment\ndebug=maybe\n") Globals.initial
      = Parse.quit Globals.initial.debug_cleared
          (ConfigError.invalid_value "debug".toList "maybe".toList 2)
      ∧ (parse_config (conf_file "# comment\ndebug=maybe\n") Globals.initial).ret = some 0)
    ∧ parse_config (conf_file "debug = yes\nallow-chmod = no\n") Globals.initial
      = parse_lines (conf_file "debug = yes\nallow-chmod = no\n")
          (fgets_chunks "allow-chmod = no\n".toList []) 1 Globals.initial.debug_set :=
  ⟨(parse_config_debug_line (conf_file "# comment\ndebug=maybe\n") Globals.initial
      Globals.initial ["# comment".toList] "=".toList "maybe".toList [] (Or.inr rfl) (by decide!)
      (by decide) (by decide!) (by decide) (by decide) (by decide)
      (fun a h => by cases h; decide) (fun a h => by cases h; decide)).1
      (by decide) (by decide) (by decide) (by decide),
   (parse_config_debug_line (conf_file "debug = yes\nallow-chmod = no\n") Globals.initial
      Globals.initial [] " = ".toList "yes".toList "allow-chmod = no\n".toList (Or.inl rfl)
      (by decide!) (by decide) (by decide!) (by decide) (by decide) (by decide)
      (fun a h => by cases h; decide) (fun a h => by cases h; decide)).2.1 (Or.inl rfl)⟩

/-! ## `main` -/

theorem andThen_go (p : Phase) (f : MainState → Phase) (s : MainState)
    (h : p.andThen f = Phase.go s) : ∃ s0, p = Phase.go s0 ∧ f s0 = Phase.go s := by
  cases p with
  | go s0 => exact ⟨s0, rfl, h⟩
  | quit s0 => simp [Phase.andThen] at h
  | undefined s0 => simp [Phase.andThen] at h

theorem main_check_execute_rights_go (env : MainEnv) (s0 s : MainState)
    (h : main_check_execute_rights env s0 = Phase.go s) :
    ∃ path, s0.serverargv.getD s0.server none = some path ∧ env.access path X_OK = true
      ∧ s = { s0 with events := s0.events ++ [MainEvent.access path X_OK true] } := by
  unfold main_check_execute_rights at h
  split at h
  · simp at h
  · rename_i path hp
    split at h
    · rename_i ha
      simp only [Phase.go.injEq] at h
      exact ⟨path, hp, ha, h.symm⟩
    · simp at h

theorem main_ret_zero (env : MainEnv) (argv : List CStr) (h : (main env argv).ret = some 0) :
    ∃ s, main_checks env argv = Phase.go s ∧ (main env argv).state = s := by
  unfold main at h ⊢
  cases hc : main_checks env argv with
  | go s => exact ⟨s, rfl, rfl⟩
  | quit s => rw [hc] at h; simp at h
  | undefined s => rw [hc] at h; simp at h

theorem server_args_loop_last (l : List CStr) (a b : CStr) (sptr : Nat) (vec : ArgVec)
    (sh : Bool) :
    server_args_loop (l ++ [a]) sptr vec sh = server_args_loop (l ++ [b]) sptr vec sh := by
  induction l generalizing sptr vec sh with
  | nil => rfl
  | cons c more ih =>
    cases more with
    | nil =>
      simp only [List.cons_append, List.nil_append, server_args_loop]
    | cons d rest =>
      simp only [List.cons_append, server_args_loop]
      split
      · rfl
      · exact ih _ _ _

/-- C15 on the code: `main` returns 0 right after the call of
`check_execute_rights`.  Whenever `main` returns 0, the last call of the run
is the successful `access (*server, X_OK)`; on the seat where every check
succeeds and the privileges are dropped, the run of
`xinit /usr/bin/xterm -- /usr/bin/X -sharevts` is `parse_config`,
`is_user_allowed`, `check_rights`, `drop_user_privileges`, `access`, and the
return value 0, with no server and no client started. -/
theorem main_returns_before_launch :
    (∀ env argv, (main env argv).ret = some 0 →
      ∃ path, (main env argv).state.events.getLast?
        = some (MainEvent.access path X_OK true))
    ∧ (main env_seat_user
        (command_line ["xinit", "/usr/bin/xterm", "--", "/usr/bin/X", "-sharevts"])).ret = some 0
    ∧ (main env_seat_user
        (command_line ["xinit", "/usr/bin/xterm", "--", "/usr/bin/X", "-sharevts"])).state.events
      = [MainEvent.parse_config (some 1), MainEvent.is_user_allowed 1000 1,
         MainEvent.check_rights 1000 false 1, MainEvent.drop_user_privileges 1000 1,
         MainEvent.access "/usr/bin/X".toList X_OK true]
    ∧ (main env_console_user
        (command_line ["xinit", "/usr/bin/xterm", "--", "/usr/bin/X", "-sharevts"])).ret = some 0
    ∧ (main env_console_user
        (command_line ["xinit", "/usr/bin/xterm", "--", "/usr/bin/X", "-sharevts"])).state.events
      = [MainEvent.parse_config (some 1), MainEvent.is_user_allowed 1000 1,
         MainEvent.check_rights 1000 false 0,
         MainEvent.access "/usr/bin/X".toList X_OK true] := by
  refine ⟨?_, by decide!, by decide!, by decide!, by decide!⟩
  intro env argv h
  obtain ⟨s, hs, hst⟩ := main_ret_zero env argv h
  rw [hst]
  unfold main_checks at hs
  obtain ⟨s0, _, h0⟩ := andThen_go _ _ _ hs
  obtain ⟨path, _, _, hp⟩ := main_check_execute_rights_go env s0 s h0
  refine ⟨path, ?_⟩
  rw [hp]
  simp

/-- C20 on the code: the loop `while ( --argc != 0 )` does not look at the
last token of the command line.  With `-sharevts` as the last token after
the server path, or as the only token after `--`, `check_rights` is called
with `shareVTs` false; with a token after it, `shareVTs` is true. -/
theorem main_sharevts_last_token :
    (∀ l a b sptr vec sh,
      server_args_loop (l ++ [a]) sptr vec sh = server_args_loop (l ++ [b]) sptr vec sh)
    ∧ (main env_console_user
        (command_line ["xinit", "/usr/bin/xterm", "--", "/usr/bin/X", "-sharevts"])).state.shareVTs
      = false
    ∧ MainEvent.check_rights 1000 false 0 ∈ (main env_console_user
        (command_line ["xinit", "/usr/bin/xterm", "--", "/usr/bin/X", "-sharevts"])).state.events
    ∧ MainEvent.check_rights 1000 false 0 ∈
      (main (env_configured "u_server = /usr/bin/X -nolisten tcp\nu_display = :0\n")
        (command_line ["xinit", "/usr/bin/xterm", "--", "-sharevts"])).state.events
    ∧ MainEvent.check_rights 1000 true 0 ∈ (main env_console_user
        (command_line ["xinit", "/usr/bin/xterm", "--", "/usr/bin/X", "-sharevts",
          "vt7"])).state.events := by
  refine ⟨server_args_loop_last, by decide!, by decide!, by decide!, by decide!⟩

/-! ## `add_args`: the loop ends -/

theorem le_s_space_from (l : List Char) (p : Nat) : p ≤ s_space_from l p := by
  induction l generalizing p with
  | nil => exact Nat.le_refl _
  | cons c rest ih =>
    rw [s_space_from]
    split
    · exact Nat.le_trans (Nat.le_succ p) (ih (p + 1))
    · exact Nat.le_refl _

theorem le_s_no_space_from (l : List Char) (p : Nat) : p ≤ s_no_space_from l p := by
  induction l generalizing p with
  | nil => exact Nat.le_refl _
  | cons c rest ih =>
    rw [s_no_space_from]
    split
    · exact Nat.le_trans (Nat.le_succ p) (ih (p + 1))
    · exact Nat.le_refl _

theorem lt_length_of_peek (buf : List Char) (i : Nat) (h : peek buf i ≠ NUL) :
    i < buf.length := by
  by_contra hlt
  apply h
  unfold peek
  rw [List.getD_eq_getElem?_getD, List.getElem?_eq_none (by omega)]
  rfl

/-- The loop of `add_args` ends within its step count when that count is
at least half the length of the string. -/
theorem add_args_loop_ends (fuel : Nat) (buf : List Char) (cur argv : Nat) (vec : ArgVec)
    (h1 : 1 ≤ fuel) (h2 : buf.length + 1 ≤ 2 * fuel + cur) :
    add_args_loop fuel buf cur argv vec ≠ AddArgs.out_of_fuel := by
  induction fuel generalizing buf cur argv vec with
  | zero => omega
  | succ fuel ih =>
    rw [add_args_loop]
    split
    · simp
    · split
      · simp
      · split
        · simp
        · rename_i hsep
          have hlt := lt_length_of_peek _ _ hsep
          have hs1 : cur + 1 ≤ s_no_space buf (cur + 1) := le_s_no_space_from _ _
          have hs2 : s_no_space buf (cur + 1) + 1
              ≤ s_space (buf.set (s_no_space buf (cur + 1)) NUL) (s_no_space buf (cur + 1) + 1) :=
            le_s_space_from _ _
          apply ih
          · omega
          · rw [List.length_set]
            omega

theorem add_args_ends (vec : ArgVec) (argv : Nat) (args : CStr) :
    add_args vec argv args ≠ AddArgs.out_of_fuel := by
  unfold add_args
  apply add_args_loop_ends
  · omega
  · simp only [List.length_append, List.length_cons, List.length_nil]
    omega

/-! ## `drm_dev_has_rights` and `drms_have_rights` -/

theorem errno_after_debug_kept (cfg : Config) (w : World) (call : Event) (e : Nat)
    (h : cfg.u_flags &&& FlagDebug = 0 ∨ w.stderr_errno call = none) :
    errno_after_debug cfg w call e = e := by
  unfold errno_after_debug
  rcases h with h | h
  · rw [if_pos h]
  · rw [h]
    split <;> rfl

theorem errno_after_debug_set (cfg : Config) (w : World) (call : Event) (e e2 : Nat)
    (hd : cfg.u_flags &&& FlagDebug ≠ 0) (h : w.stderr_errno call = some e2) :
    errno_after_debug cfg w call e = e2 := by
  unfold errno_after_debug
  rw [if_neg hd, h]
  rfl

theorem drm_dev_has_rights_open_failed (cfg : Config) (w : World) (idx uid : Nat)
    (gl : List Nat) (e : Nat)
    (h : w.open_rdonly (Dev.card idx) = SysResult.err e) :
    (drm_dev_has_rights cfg w idx uid gl).1 = Denied := by
  unfold drm_dev_has_rights
  rw [h]

theorem drm_dev_has_rights_probe (cfg : Config) (w : World) (idx uid : Nat) (gl : List Nat)
    (ho : w.open_rdonly (Dev.card idx) = SysResult.ok)
    (hp : (dev_has_rights w uid gl (Dev.card idx) true true true).1 ≠ Granted) :
    (drm_dev_has_rights cfg w idx uid gl).1
      = (dev_has_rights w uid gl (Dev.card idx) true true true).1 := by
  unfold drm_dev_has_rights
  rw [ho]
  simp only
  rw [if_pos hp]

theorem drm_dev_has_rights_set_master (cfg : Config) (w : World) (idx uid : Nat)
    (gl : List Nat) (e : Nat)
    (ho : w.open_rdonly (Dev.card idx) = SysResult.ok)
    (hp : (dev_has_rights w uid gl (Dev.card idx) true true true).1 = Granted)
    (hs : w.drm_set_master idx = SysResult.err e) :
    (drm_dev_has_rights cfg w idx uid gl).1
      = if errno_after_debug cfg w (Event.drm_set_master idx (SysResult.err e)) e = EACCES
        then Denied else DIE := by
  unfold drm_dev_has_rights
  rw [ho]
  simp only
  rw [if_neg (fun h => h hp), hs]

theorem drm_dev_has_rights_drop_master (cfg : Config) (w : World) (idx uid : Nat)
    (gl : List Nat) (e : Nat)
    (ho : w.open_rdonly (Dev.card idx) = SysResult.ok)
    (hp : (dev_has_rights w uid gl (Dev.card idx) true true true).1 = Granted)
    (hs : w.drm_set_master idx = SysResult.ok)
    (hd : w.drm_drop_master idx = SysResult.err e) :
    (drm_dev_has_rights cfg w idx uid gl).1
      = if errno_after_debug cfg w (Event.drm_drop_master idx (SysResult.err e)) e = EACCES
        then Denied else DIE := by
  unfold drm_dev_has_rights
  rw [ho]
  simp only
  rw [if_neg (fun h => h hp), hs]
  simp only
  rw [hd]

theorem drm_dev_has_rights_all_ok (cfg : Config) (w : World) (idx uid : Nat) (gl : List Nat)
    (ho : w.open_rdonly (Dev.card idx) = SysResult.ok)
    (hp : (dev_has_rights w uid gl (Dev.card idx) true true true).1 = Granted)
    (hs : w.drm_set_master idx = SysResult.ok)
    (hd : w.drm_drop_master idx = SysResult.ok) :
    (drm_dev_has_rights cfg w idx uid gl).1 = Granted := by
  unfold drm_dev_has_rights
  rw [ho]
  simp only
  rw [if_neg (fun h => h hp), hs]
  simp only
  rw [hd]

theorem drm_dev_has_rights_granted (cfg : Config) (w : World) (idx uid : Nat) (gl : List Nat) :
    (drm_dev_has_rights cfg w idx uid gl).1 = Granted ↔
      w.open_rdonly (Dev.card idx) = SysResult.ok
      ∧ (dev_has_rights w uid gl (Dev.card idx) true true true).1 = Granted
      ∧ w.drm_set_master idx = SysResult.ok
      ∧ w.drm_drop_master idx = SysResult.ok := by
  constructor
  · intro h
    cases ho : w.open_rdonly (Dev.card idx) with
    | err e =>
      rw [drm_dev_has_rights_open_failed cfg w idx uid gl e ho] at h
      exact absurd h (by decide)
    | ok =>
      by_cases hp : (dev_has_rights w uid gl (Dev.card idx) true true true).1 = Granted
      · cases hs : w.drm_set_master idx with
        | err e =>
          rw [drm_dev_has_rights_set_master cfg w idx uid gl e ho hp hs] at h
          split at h <;> exact absurd h (by decide)
        | ok =>
          cases hd : w.drm_drop_master idx with
          | err e =>
            rw [drm_dev_has_rights_drop_master cfg w idx uid gl e ho hp hs hd] at h
            split at h <;> exact absurd h (by decide)
          | ok => exact ⟨rfl, hp, rfl, rfl⟩
      · rw [drm_dev_has_rights_probe cfg w idx uid gl ho hp] at h
        exact absurd h hp
  · rintro ⟨ho, hp, hs, hd⟩
    exact drm_dev_has_rights_all_ok cfg w idx uid gl ho hp hs hd

theorem drms_loop_first (cfg : Config) (w : World) (uid : Nat) (gl : List Nat) (k : Nat) :
    ∀ n idx, k < n →
      (∀ j, j < k → (drm_dev_has_rights cfg w (idx + j) uid gl).1 = Denied) →
      (drm_dev_has_rights cfg w (idx + k) uid gl).1 ≠ Denied →
      (drms_loop cfg w uid gl n idx).1 = (drm_dev_has_rights cfg w (idx + k) uid gl).1 := by
  induction k with
  | zero =>
    intro n idx hn _ hk
    obtain ⟨m, rfl⟩ : ∃ m, n = m + 1 := ⟨n - 1, by omega⟩
    simp only [drms_loop, Nat.add_zero] at hk ⊢
    rw [if_pos hk]
  | succ k ih =>
    intro n idx hn hj hk
    obtain ⟨m, rfl⟩ : ∃ m, n = m + 1 := ⟨n - 1, by omega⟩
    have h0 : (drm_dev_has_rights cfg w idx uid gl).1 = 0 := by
      have := hj 0 (by omega)
      simpa using this
    simp only [drms_loop]
    rw [if_neg (fun h => h h0)]
    have h1 := ih m (idx + 1) (by omega)
      (fun j hjk => by
        have := hj (j + 1) (by omega)
        rwa [show idx + (j + 1) = idx + 1 + j by omega] at this)
      (by rwa [show idx + (k + 1) = idx + 1 + k by omega] at hk)
    rw [h1, show idx + (k + 1) = idx + 1 + k by omega]

theorem drms_loop_all_denied (cfg : Config) (w : World) (uid : Nat) (gl : List Nat) (n : Nat) :
    ∀ idx, (∀ j, j < n → (drm_dev_has_rights cfg w (idx + j) uid gl).1 = Denied) →
      (drms_loop cfg w uid gl n idx).1 = Denied := by
  induction n with
  | zero => intro idx _; rfl
  | succ n ih =>
    intro idx hj
    have h0 : (drm_dev_has_rights cfg w idx uid gl).1 = 0 := by
      have := hj 0 (by omega)
      simpa using this
    simp only [drms_loop]
    rw [if_neg (fun h => h h0)]
    exact ih (idx + 1) (fun j hjn => by
      have := hj (j + 1) (by omega)
      rwa [show idx + (j + 1) = idx + 1 + j by omega] at this)

/-- C23 on the code: `drm_dev_has_rights` returns `True` exactly when the
card opens, the read+write probe on it is `True` and both master ioctls
succeed, and a failed open gives `False`.  After a failed master ioctl the
code calls `debug` and only then tests `errno == EACCES`: the result is
`False` when `errno` holds `EACCES` after `debug`, and `DIE` otherwise.  With
`FlagDebug` clear, or when the output of `debug` leaves `errno` alone, that
is the errno of the ioctl; with `FlagDebug` set and an output that changes
`errno`, a failure with `EACCES` gives `DIE`.  `drms_have_rights` returns the
result of the lowest index in 0..15 whose result is not `False`, and `False`
if there is none. -/
theorem drm_dev_has_rights_outcomes (cfg : Config) (w : World) (idx uid : Nat)
    (gl : List Nat) :
    ((drm_dev_has_rights cfg w idx uid gl).1 = Granted ↔
      w.open_rdonly (Dev.card idx) = SysResult.ok
      ∧ (dev_has_rights w uid gl (Dev.card idx) true true true).1 = Granted
      ∧ w.drm_set_master idx = SysResult.ok
      ∧ w.drm_drop_master idx = SysResult.ok)
    ∧ (∀ e, w.open_rdonly (Dev.card idx) = SysResult.err e →
        (drm_dev_has_rights cfg w idx uid gl).1 = Denied)
    ∧ (w.open_rdonly (Dev.card idx) = SysResult.ok →
        (dev_has_rights w uid gl (Dev.card idx) true true true).1 = Granted →
        ∀ e, w.drm_set_master idx = SysResult.err e →
          (drm_dev_has_rights cfg w idx uid gl).1
            = if errno_after_debug cfg w (Event.drm_set_master idx (SysResult.err e)) e
                = EACCES then Denied else DIE)
    ∧ (w.open_rdonly (Dev.card idx) = SysResult.ok →
        (dev_has_rights w uid gl (Dev.card idx) true true true).1 = Granted →
        w.drm_set_master idx = SysResult.ok →
        ∀ e, w.drm_drop_master idx = SysResult.err e →
          (drm_dev_has_rights cfg w idx uid gl).1
            = if errno_after_debug cfg w (Event.drm_drop_master idx (SysResult.err e)) e
                = EACCES then Denied else DIE)
    ∧ (∀ call e, cfg.u_flags &&& FlagDebug = 0 ∨ w.stderr_errno call = none →
        errno_after_debug cfg w call e = e)
    ∧ (∀ call e e2, cfg.u_flags &&& FlagDebug ≠ 0 → w.stderr_errno call = some e2 →
        errno_after_debug cfg w call e = e2)
    ∧ (∀ i, i < 16 →
        (∀ j, j < i → (drm_dev_has_rights cfg w j uid gl).1 = Denied) →
        (drm_dev_has_rights cfg w i uid gl).1 ≠ Denied →
        (drms_have_rights cfg w uid gl).1 = (drm_dev_has_rights cfg w i uid gl).1)
    ∧ ((∀ i, i < 16 → (drm_dev_has_rights cfg w i uid gl).1 = Denied) →
        (drms_have_rights cfg w uid gl).1 = Denied) := by
  refine ⟨drm_dev_has_rights_granted cfg w idx uid gl,
    fun e h => drm_dev_has_rights_open_failed cfg w idx uid gl e h,
    fun ho hp e hs => drm_dev_has_rights_set_master cfg w idx uid gl e ho hp hs,
    fun ho hp hs e hd => drm_dev_has_rights_drop_master cfg w idx uid gl e ho hp hs hd,
    fun call e h => errno_after_debug_kept cfg w call e h,
    fun call e e2 hd h => errno_after_debug_set cfg w call e e2 hd h, ?_, ?_⟩
  · intro i hi hj hk
    have := drms_loop_first cfg w uid gl i 16 0 hi
      (fun j hji => by rw [Nat.zero_add]; exact hj j hji) (by rw [Nat.zero_add]; exact hk)
    rw [Nat.zero_add] at this
    exact this
  · intro h
    exact drms_loop_all_denied cfg w uid gl 16 0 (fun j hj => by rw [Nat.zero_add]; exact h j hj)

/-! ## The command line -/

theorem server_args_loop_stores (l : List CStr) (a : CStr) :
    ∀ (sptr : Nat) (vec : ArgVec) (sh : Bool), sptr + l.length ≤ 95 →
      server_args_loop (l ++ [a]) sptr vec sh
        = some (some (sptr + l.length, store_args vec sptr l,
            sh || l.any (fun cp => decide (cp = "-sharevts".toList)))) := by
  induction l with
  | nil =>
    intro sptr vec sh _
    simp [server_args_loop, store_args]
  | cons c more ih =>
    intro sptr vec sh h
    simp only [List.length_cons] at h
    have hs : ¬ (sptr > 96 - 2) := by omega
    have hstep : server_args_loop (c :: more ++ [a]) sptr vec sh
        = server_args_loop (more ++ [a]) (sptr + 1) (vec.set sptr (some c))
            (sh || decide (c = "-sharevts".toList)) := by
      cases more with
      | nil => simp only [List.cons_append, List.nil_append, server_args_loop, if_neg hs]
      | cons d rest =>
        simp only [List.cons_append, server_args_loop, if_neg hs]
        rfl
    rw [hstep, ih (sptr + 1) _ _ (by omega)]
    simp only [store_args, List.any_cons, List.length_cons, Bool.or_assoc]
    congr 3
    omega

theorem client_args_loop_stores (l : List CStr) (rest : List CStr) :
    ∀ (cptr : Nat) (vec : ArgVec), "--".toList ∉ l → cptr + l.length ≤ 95 →
      (rest = [] ∨ rest.head? = some "--".toList) →
      client_args_loop (l ++ rest) cptr vec = some (rest, cptr + l.length, store_args vec cptr l) := by
  induction l with
  | nil =>
    intro cptr vec _ _ hr
    rcases hr with hr | hr
    · subst hr
      simp [client_args_loop, store_args]
    · cases rest with
      | nil => simp at hr
      | cons x xs =>
        simp only [List.head?_cons, Option.some.injEq] at hr
        subst hr
        simp [client_args_loop, store_args]
  | cons c more ih =>
    intro cptr vec hl h hr
    simp only [List.length_cons] at h
    have hc : c ≠ "--".toList := fun hc => hl (by rw [hc]; exact List.mem_cons_self _ _)
    have hm : "--".toList ∉ more := fun hm => hl (List.mem_cons_of_mem _ hm)
    have hs : ¬ (cptr > 96 - 2) := by omega
    rw [List.cons_append, client_args_loop, if_neg hc, if_neg hs, ih (cptr + 1) _ hm (by omega) hr]
    simp only [store_args, List.length_cons]
    congr 3
    omega

/-- C21 on the code: the client loop copies the tokens before the first
`--`, in order, from `cptr` on; the server loop `while ( --argc != 0 )`
copies all the tokens left but the last one, and with no token left it
reads `argv [argc]`.  In
`xinit /usr/bin/xterm -geometry 80x24 -- /usr/bin/X -nolisten tcp` the token
`tcp` is not copied; `xinit /usr/bin/xterm -- /usr/bin/X`, and
`xinit /usr/bin/xterm` with a configured server, leave what C defines. -/
theorem main_server_tokens_dropped :
    (∀ (l : List CStr) (a : CStr) (sptr : Nat) (vec : ArgVec) (sh : Bool),
      sptr + l.length ≤ 95 →
      server_args_loop (l ++ [a]) sptr vec sh
        = some (some (sptr + l.length, store_args vec sptr l,
            sh || l.any (fun cp => decide (cp = "-sharevts".toList)))))
    ∧ (∀ (sptr : Nat) (vec : ArgVec) (sh : Bool), server_args_loop [] sptr vec sh = none)
    ∧ (∀ (l rest : List CStr) (cptr : Nat) (vec : ArgVec),
      "--".toList ∉ l → cptr + l.length ≤ 95 →
      client_args_loop (l ++ "--".toList :: rest) cptr vec
        = some ("--".toList :: rest, cptr + l.length, store_args vec cptr l))
    ∧ (∀ (l : List CStr) (cptr : Nat) (vec : ArgVec),
      "--".toList ∉ l → cptr + l.length ≤ 95 →
      client_args_loop l cptr vec = some ([], cptr + l.length, store_args vec cptr l))
    ∧ (main env_console_user (command_line ["xinit", "/usr/bin/xterm", "-geometry", "80x24",
        "--", "/usr/bin/X", "-nolisten", "tcp"])).state.clientargv.take 6
      = [none, none, some "/usr/bin/xterm".toList, some "-geometry".toList,
         some "80x24".toList, none]
    ∧ (main env_console_user (command_line ["xinit", "/usr/bin/xterm", "-geometry", "80x24",
        "--", "/usr/bin/X", "-nolisten", "tcp"])).state.serverargv.take 6
      = [none, none, some "/usr/bin/X".toList, none, some "-nolisten".toList, none]
    ∧ some "tcp".toList ∉ (main env_console_user (command_line ["xinit", "/usr/bin/xterm",
        "-geometry", "80x24", "--", "/usr/bin/X", "-nolisten", "tcp"])).state.serverargv
    ∧ (main env_console_user
        (command_line ["xinit", "/usr/bin/xterm", "--", "/usr/bin/X"])).ret = none
    ∧ (main env_console_user (command_line ["xinit", "/usr/bin/xterm", "--"])).ret = none
    ∧ (main (env_configured "u_server = /usr/bin/X\n")
        (command_line ["xinit", "/usr/bin/xterm", "--"])).ret = none
    ∧ (main (env_configured "u_server = /usr/bin/X\n")
        (command_line ["xinit", "/usr/bin/xterm"])).ret = none := by
  refine ⟨fun l a sptr vec sh h => server_args_loop_stores l a sptr vec sh h,
    fun _ _ _ => rfl,
    fun l rest cptr vec hl h =>
      client_args_loop_stores l ("--".toList :: rest) cptr vec hl h (Or.inr rfl),
    fun l cptr vec hl h => ?_,
    by decide!, by decide!, by decide!, by decide!, by decide!, by decide!, by decide!⟩
  have := client_args_loop_stores l [] cptr vec hl h (Or.inl rfl)
  rwa [List.append_nil] at this

theorem find_free_display_loop_empty (m : DisplayEnv) (n idx : Nat) :
    find_free_display_loop m n idx = none ∨ find_free_display_loop m n idx = some [] := by
  induction n generalizing idx with
  | zero => exact Or.inl rfl
  | succ n ih =>
    rw [find_free_display_loop]
    split
    · unfold s_display
      split
      · exact Or.inr rfl
      · exact Or.inl rfl
    · exact ih (idx + 1)

/-- C22 on the code: `s_display` asks for `sizeof (char) >> 2`, which is 0
bytes, and `snprintf` with the size 0 writes nothing, so `find_free_display`
returns `NULL` or a block without a byte, never a string `:k`; with the
sockets of the displays 0 and 1 taken it returns the empty block, not `:2`.
`parse_config` drops the result, and `u_display` stays `NULL`: without a
configuration file, `xinit /usr/bin/xterm -- /usr/bin/X -retro` stores a
null pointer as the display argument of the server. -/
theorem find_free_display_no_string :
    (∀ m, find_free_display m = none ∨ find_free_display m = some [])
    ∧ s_display_size = 0
    ∧ (∀ text, snprintf_bytes s_display_size text = [])
    ∧ display_path 2 = "/tmp/.X11-unix/X2".toList
    ∧ find_free_display display_env_two_taken = some []
    ∧ find_free_display display_env_two_taken ≠ some (":2".toList ++ [NUL])
    ∧ parse_config env_console_user.conf Globals.initial = Parse.next Globals.initial
    ∧ Globals.initial.u_display = none
    ∧ (main env_console_user
        (command_line ["xinit", "/usr/bin/xterm", "--", "/usr/bin/X", "-retro"])).ret = some 0
    ∧ (main env_console_user
        (command_line ["xinit", "/usr/bin/xterm", "--", "/usr/bin/X", "-retro"])).state.g.u_display
      = none
    ∧ (main env_console_user
        (command_line ["xinit", "/usr/bin/xterm", "--", "/usr/bin/X", "-retro"])).state.serverargv.take 4
      = [none, none, some "/usr/bin/X".toList, none] := by
  refine ⟨fun m => find_free_display_loop_empty m 100 0, rfl, fun _ => rfl, by decide!,
    by decide!, by decide!, by decide!, rfl, by decide!, by decide!, by decide!⟩

/-! ## `add_args` on a string of tokens -/

theorem s_no_space_from_token (t rest : List Char) (p : Nat)
    (ht : ∀ c ∈ t, c ≠ NUL ∧ IS_SPACE c = false)
    (hr : ∀ c, rest.head? = some c → c = NUL ∨ IS_SPACE c = true) :
    s_no_space_from (t ++ rest) p = p + t.length := by
  induction t generalizing p with
  | nil =>
    cases rest with
    | nil => rfl
    | cons c more =>
      have := hr c rfl
      rw [List.nil_append, s_no_space_from]
      rcases this with h | h
      · simp [h]
      · simp [h]
  | cons c more ih =>
    have hc := ht c (List.mem_cons_self _ _)
    rw [List.cons_append, s_no_space_from, if_pos ⟨hc.1, by simp [hc.2]⟩,
      ih (p + 1) (fun x hx => ht x (List.mem_cons_of_mem _ hx))]
    simp only [List.length_cons]
    omega

theorem s_space_from_blank (s rest : List Char) (p : Nat)
    (hs : ∀ c ∈ s, IS_SPACE c = true)
    (hr : ∀ c, rest.head? = some c → IS_SPACE c = false) :
    s_space_from (s ++ rest) p = p + s.length := by
  induction s generalizing p with
  | nil => exact s_space_from_head rest p hr
  | cons c more ih =>
    have hc := hs c (List.mem_cons_self _ _)
    rw [List.cons_append, s_space_from, if_pos hc,
      ih (p + 1) (fun x hx => hs x (List.mem_cons_of_mem _ hx))]
    simp only [List.length_cons]
    omega

theorem is_token_iff (t : CStr) :
    is_token t = true ↔ t ≠ [] ∧ ∀ c ∈ t, c ≠ NUL ∧ IS_SPACE c = false := by
  simp [is_token, List.all_eq_true]

theorem is_blank_iff (s : CStr) : is_blank s = true ↔ ∀ c ∈ s, IS_SPACE c = true := by
  simp [is_blank, List.all_eq_true]

theorem well_spaced_cons (t s : CStr) (rest : List (CStr × CStr)) :
    well_spaced ((t, s) :: rest) = true ↔
      is_token t = true ∧ is_blank s = true ∧ (s ≠ [] ∨ rest = []) ∧ well_spaced rest = true := by
  simp [well_spaced, and_assoc]

theorem IS_SPACE_NUL : IS_SPACE NUL = false := by decide

theorem spaced_head (ws : List (CStr × CStr)) (h : well_spaced ws = true) (c : Char)
    (hc : (spaced ws ++ [NUL]).head? = some c) : IS_SPACE c = false := by
  cases ws with
  | nil =>
    simp only [spaced, List.nil_append, List.head?_cons, Option.some.injEq] at hc
    rw [← hc]
    exact IS_SPACE_NUL
  | cons p rest =>
    obtain ⟨t, s⟩ := p
    obtain ⟨ht, -, -, -⟩ := (well_spaced_cons t s rest).1 h
    obtain ⟨hne, hall⟩ := (is_token_iff t).1 ht
    cases t with
    | nil => exact absurd rfl hne
    | cons a more =>
      simp only [spaced, List.cons_append, List.head?_cons, Option.some.injEq] at hc
      rw [← hc]
      exact (hall a (List.mem_cons_self _ _)).2

theorem add_args_loop_spaced (ws : List (CStr × CStr)) :
    ∀ (fuel : Nat) (pre : List Char) (argv : Nat) (vec : ArgVec),
      well_spaced ws = true → ws.length < fuel → argv + ws.length ≤ vec.length →
      add_args_loop fuel (pre ++ (spaced ws ++ [NUL])) pre.length argv vec
        = AddArgs.done (add_args_end ws argv) (store_args vec argv (ws.map Prod.fst)) := by
  induction ws with
  | nil =>
    intro fuel pre argv vec _ hf _
    obtain ⟨f, rfl⟩ : ∃ f, fuel = f + 1 := ⟨fuel - 1, by omega⟩
    have hp : peek (pre ++ (spaced [] ++ [NUL])) pre.length = NUL := by
      simp only [spaced, List.nil_append]
      exact peek_at_length pre NUL []
    rw [add_args_loop, if_pos hp]
    rfl
  | cons p rest ih =>
    intro fuel pre argv vec hw hf hroom
    obtain ⟨t, s⟩ := p
    obtain ⟨f, rfl⟩ : ∃ f, fuel = f + 1 := ⟨fuel - 1, by omega⟩
    obtain ⟨ht, hs, hlast, hrest⟩ := (well_spaced_cons t s rest).1 hw
    obtain ⟨hne, hall⟩ := (is_token_iff t).1 ht
    have hsb := (is_blank_iff s).1 hs
    have hnul : NUL ∉ t := fun h => (hall NUL h).1 rfl
    simp only [List.length_cons] at hf hroom
    obtain ⟨c0, t1, rfl⟩ : ∃ c0 t1, t = c0 :: t1 := by
      cases t with
      | nil => exact absurd rfl hne
      | cons a b => exact ⟨a, b, rfl⟩
    have hc0 := hall c0 (List.mem_cons_self _ _)
    -- the byte at `cur`
    have hp : peek (pre ++ (spaced ((c0 :: t1, s) :: rest) ++ [NUL])) pre.length = c0 := by
      simp only [spaced, List.cons_append]
      exact peek_at_length pre c0 _
    have hp1 : ¬ (peek (pre ++ (spaced ((c0 :: t1, s) :: rest) ++ [NUL])) pre.length = NUL) := by
      rw [hp]; exact hc0.1
    have hv : ¬ (vec.length ≤ argv) := by omega
    -- the end of the token
    have hsep : s_no_space (pre ++ (spaced ((c0 :: t1, s) :: rest) ++ [NUL])) (pre.length + 1)
        = pre.length + (c0 :: t1).length := by
      unfold s_no_space
      have hd : (pre ++ (spaced ((c0 :: t1, s) :: rest) ++ [NUL])).drop (pre.length + 1)
          = t1 ++ (s ++ (spaced rest ++ [NUL])) := by
        have : pre ++ (spaced ((c0 :: t1, s) :: rest) ++ [NUL])
            = (pre ++ [c0]) ++ (t1 ++ (s ++ (spaced rest ++ [NUL]))) := by
          simp [spaced, List.append_assoc]
        rw [this, show pre.length + 1 = (pre ++ [c0]).length by simp, List.drop_left]
      rw [hd, s_no_space_from_token t1 _ _
        (fun c hc => hall c (List.mem_cons_of_mem _ hc))]
      · simp only [List.length_cons]; omega
      · intro c hc
        cases s with
        | nil =>
          rcases hlast with h | h
          · exact absurd rfl h
          · subst h
            simp only [spaced, List.nil_append, List.head?_cons, Option.some.injEq] at hc
            exact Or.inl hc.symm
        | cons d s1 =>
          simp only [List.cons_append, List.head?_cons, Option.some.injEq] at hc
          rw [← hc]
          exact Or.inr (hsb d (List.mem_cons_self _ _))
    rw [add_args_loop, if_neg hp1, if_neg hv, hsep]
    cases s with
    | nil =>
      have hr : rest = [] := by
        rcases hlast with h | h
        · exact absurd rfl h
        · exact h
      subst hr
      have hbuf : pre ++ (spaced [(c0 :: t1, [])] ++ [NUL]) = pre ++ ((c0 :: t1) ++ NUL :: []) := by
        simp [spaced]
      have hpn : peek (pre ++ (spaced [(c0 :: t1, [])] ++ [NUL])) (pre.length + (c0 :: t1).length)
          = NUL := by
        rw [hbuf, peek_append]
        exact peek_at_length (c0 :: t1) NUL []
      rw [if_pos hpn, hbuf, cstr_at pre (c0 :: t1) [] hnul]
      simp [add_args_end, store_args]
    | cons d s1 =>
      have hd := hsb d (List.mem_cons_self _ _)
      have hdn : d ≠ NUL := by
        intro h
        rw [h, IS_SPACE_NUL] at hd
        exact absurd hd (by decide)
      have hbuf : pre ++ (spaced ((c0 :: t1, d :: s1) :: rest) ++ [NUL])
          = pre ++ ((c0 :: t1) ++ d :: (s1 ++ (spaced rest ++ [NUL]))) := by
        simp [spaced, List.append_assoc]
      have hpn : ¬ (peek (pre ++ (spaced ((c0 :: t1, d :: s1) :: rest) ++ [NUL]))
          (pre.length + (c0 :: t1).length) = NUL) := by
        rw [hbuf, peek_append, peek_at_length]
        exact hdn
      have hset : (pre ++ (spaced ((c0 :: t1, d :: s1) :: rest) ++ [NUL])).set
          (pre.length + (c0 :: t1).length) NUL
          = pre ++ ((c0 :: t1) ++ NUL :: (s1 ++ (spaced rest ++ [NUL]))) := by
        rw [hbuf, set_append_right, set_at_length]
      rw [if_neg hpn, hset, cstr_at pre (c0 :: t1) _ hnul]
      have hcur : s_space (pre ++ ((c0 :: t1) ++ NUL :: (s1 ++ (spaced rest ++ [NUL]))))
          (pre.length + (c0 :: t1).length + 1)
          = (pre ++ ((c0 :: t1) ++ NUL :: s1)).length := by
        unfold s_space
        have hdrop : (pre ++ ((c0 :: t1) ++ NUL :: (s1 ++ (spaced rest ++ [NUL])))).drop
            (pre.length + (c0 :: t1).length + 1) = s1 ++ (spaced rest ++ [NUL]) := by
          have : pre ++ ((c0 :: t1) ++ NUL :: (s1 ++ (spaced rest ++ [NUL])))
              = (pre ++ ((c0 :: t1) ++ [NUL])) ++ (s1 ++ (spaced rest ++ [NUL])) := by
            simp [List.append_assoc]
          rw [this, show pre.length + (c0 :: t1).length + 1
            = (pre ++ ((c0 :: t1) ++ [NUL])).length by simp; omega, List.drop_left]
        rw [hdrop, s_space_from_blank s1 _ _
          (fun c hc => hsb c (List.mem_cons_of_mem _ hc))
          (fun c hc => spaced_head rest hrest c hc)]
        simp only [List.length_append, List.length_cons]
        omega
      have hbuf2 : pre ++ ((c0 :: t1) ++ NUL :: (s1 ++ (spaced rest ++ [NUL])))
          = (pre ++ ((c0 :: t1) ++ NUL :: s1)) ++ (spaced rest ++ [NUL]) := by
        simp [List.append_assoc]
      rw [hcur, hbuf2, ih f _ (argv + 1) _ hrest (by omega)
        (by rw [List.length_set]; omega)]
      simp [add_args_end, store_args]

theorem length_le_spaced (ws : List (CStr × CStr)) (h : well_spaced ws = true) :
    ws.length ≤ (spaced ws).length := by
  induction ws with
  | nil => exact Nat.le_refl _
  | cons p rest ih =>
    obtain ⟨t, s⟩ := p
    obtain ⟨ht, -, -, hrest⟩ := (well_spaced_cons t s rest).1 h
    obtain ⟨hne, -⟩ := (is_token_iff t).1 ht
    have := ih hrest
    have ht1 : 1 ≤ t.length := by
      cases t with
      | nil => exact absurd rfl hne
      | cons a b => simp
    simp only [spaced, List.length_cons, List.length_append]
    omega

theorem add_args_end_eq (ws : List (CStr × CStr)) (h : well_spaced ws = true) (argv : Nat) :
    add_args_end ws argv
      = if ws.getLast?.map Prod.snd = some [] then argv + ws.length - 1
        else argv + ws.length := by
  induction ws generalizing argv with
  | nil => simp [add_args_end]
  | cons p rest ih =>
    obtain ⟨t, s⟩ := p
    obtain ⟨-, -, hlast, hrest⟩ := (well_spaced_cons t s rest).1 h
    rw [add_args_end]
    cases rest with
    | nil =>
      by_cases hs : s = []
      · simp [hs]
      · simp [hs, add_args_end]
    | cons q more =>
      have hs : s ≠ [] := by
        rcases hlast with h1 | h1
        · exact h1
        · exact absurd h1 (by simp)
      rw [if_neg hs, ih hrest (argv + 1)]
      simp only [List.getLast?_cons_cons, List.length_cons]
      split
      · omega
      · omega

theorem add_args_spaced (vec : ArgVec) (argv : Nat) (lead : CStr) (ws : List (CStr × CStr))
    (hlead : is_blank lead = true) (hw : well_spaced ws = true)
    (hroom : argv + ws.length ≤ vec.length) :
    add_args vec argv (lead ++ spaced ws)
      = AddArgs.done (add_args_end ws argv) (store_args vec argv (ws.map Prod.fst)) := by
  unfold add_args
  have hbuf : lead ++ spaced ws ++ [NUL] = lead ++ (spaced ws ++ [NUL]) := List.append_assoc _ _ _
  have hcur : s_space (lead ++ (spaced ws ++ [NUL])) 0 = lead.length := by
    unfold s_space
    rw [List.drop_zero, s_space_from_blank lead _ 0 ((is_blank_iff lead).1 hlead)
      (fun c hc => spaced_head ws hw c hc)]
    omega
  have hlen := length_le_spaced ws hw
  rw [hbuf, hcur]
  exact add_args_loop_spaced ws _ lead argv vec hw
    (by simp only [List.length_append]; omega) hroom

/-- C24 on the code: for a string of `n` tokens `ws`, after the blank
`lead`, `add_args` stores the `n` tokens in `argv [0 .. n-1]`.  When the
string ends in its last token (the last separator is empty) it returns the
position `argv + n - 1` of that token, because the last token is stored with
`*argv = cur`, without the step of `argv`; it returns `argv + n` only when
space follows the last token, and `argv` for a string without tokens. -/
theorem add_args_returns_last_token (vec : ArgVec) (argv : Nat) (lead : CStr)
    (ws : List (CStr × CStr)) (hlead : is_blank lead = true) (hw : well_spaced ws = true)
    (hroom : argv + ws.length ≤ vec.length) :
    add_args vec argv (lead ++ spaced ws)
      = AddArgs.done
          (if ws.getLast?.map Prod.snd = some [] then argv + ws.length - 1
           else argv + ws.length)
          (store_args vec argv (ws.map Prod.fst)) := by
  rw [add_args_spaced vec argv lead ws hlead hw hroom, add_args_end_eq ws hw argv]

theorem add_args_returns_last_token_witness :
    add_args ArgVec.zeroed 2 "a bb c".toList
      = AddArgs.done 4 (store_args ArgVec.zeroed 2 ["a".toList, "bb".toList, "c".toList])
    ∧ add_args ArgVec.zeroed 2 " a\tbb\nc ".toList
      = AddArgs.done 5 (store_args ArgVec.zeroed 2 ["a".toList, "bb".toList, "c".toList])
    ∧ add_args ArgVec.zeroed 2 "/usr/bin/xterm".toList
      = AddArgs.done 2 (store_args ArgVec.zeroed 2 ["/usr/bin/xterm".toList])
    ∧ add_args ArgVec.zeroed 2 " \t\n".toList = AddArgs.done 2 ArgVec.zeroed
    ∧ (main (env_configured "session-wrapper = /usr/bin/xterm -e top\n")
        (command_line ["xinit", "--", "/usr/bin/X", "-retro"])).state.clientargv.take 6
      = [none, none, some "/usr/bin/xterm".toList, some "-e".toList, none, none]
    ∧ (main (env_configured "session-wrapper = /usr/bin/xterm -e top\n")
        (command_line ["xinit", "-fg", "red", "--", "/usr/bin/X",
          "-retro"])).state.clientargv.take 7
      = [none, none, some "/usr/bin/xterm".toList, some "-e".toList, some "-fg".toList,
         some "red".toList, none] :=
  ⟨add_args_returns_last_token ArgVec.zeroed 2 []
      [("a".toList, " ".toList), ("bb".toList, " ".toList), ("c".toList, [])]
      (by decide) (by decide) (by decide),
   add_args_returns_last_token ArgVec.zeroed 2 " ".toList
      [("a".toList, "\t".toList), ("bb".toList, "\n".toList), ("c".toList, " ".toList)]
      (by decide) (by decide) (by decide),
   add_args_returns_last_token ArgVec.zeroed 2 [] [("/usr/bin/xterm".toList, [])]
      (by decide) (by decide) (by decide),
   add_args_returns_last_token ArgVec.zeroed 2 " \t\n".toList [] (by decide) (by decide)
      (by decide),
   by decide!, by decide!⟩

theorem drm_dev_has_rights_outcomes_witness :
    (drm_dev_has_rights Config.initial world_cards 0 1000 [1000]).1 = Denied
    ∧ (drm_dev_has_rights Config.initial world_cards 1 1000 [1000]).1 = Denied
    ∧ (drm_dev_has_rights Config.initial world_cards 2 1000 [1000]).1 = Granted
    ∧ (drms_have_rights Config.initial world_cards 1000 [1000]).1 = Granted
    ∧ (drm_dev_has_rights Config.initial world_cards_broken 1 1000 [1000]).1 = DIE
    ∧ (drms_have_rights Config.initial world_cards_broken 1000 [1000]).1 = DIE
    ∧ parse_config (conf_file "debug = yes\n") Globals.initial
      = Parse.next ⟨Config.debug_on, none, none, none⟩
    ∧ world_cards_stderr_full.drm_set_master 1 = SysResult.err EACCES
    ∧ (drm_dev_has_rights Config.initial world_cards_stderr_full 1 1000 [1000]).1 = Denied
    ∧ (drms_have_rights Config.initial world_cards_stderr_full 1000 [1000]).1 = Granted
    ∧ (drm_dev_has_rights Config.debug_on world_cards_stderr_full 1 1000 [1000]).1 = DIE
    ∧ (drms_have_rights Config.debug_on world_cards_stderr_full 1000 [1000]).1 = DIE :=
  ⟨(drm_dev_has_rights_outcomes Config.initial world_cards 0 1000 [1000]).2.1 2 rfl,
   ((drm_dev_has_rights_outcomes Config.initial world_cards 1 1000 [1000]).2.2.1 rfl
      (by decide!) EACCES rfl).trans (by decide!),
   (drm_dev_has_rights_outcomes Config.initial world_cards 2 1000 [1000]).1.2
      ⟨rfl, by decide!, rfl, rfl⟩,
   ((drm_dev_has_rights_outcomes Config.initial world_cards 0 1000 [1000]).2.2.2.2.2.2.1 2
      (by decide) (by decide!) (by decide!)).trans (by decide!),
   ((drm_dev_has_rights_outcomes Config.initial world_cards_broken 1 1000 [1000]).2.2.1 rfl
      (by decide!) 5 rfl).trans (by decide!),
   ((drm_dev_has_rights_outcomes Config.initial world_cards_broken 0 1000
      [1000]).2.2.2.2.2.2.1 1 (by decide) (by decide!) (by decide!)).trans (by decide!),
   by decide!,
   rfl,
   ((drm_dev_has_rights_outcomes Config.initial world_cards_stderr_full 1 1000 [1000]).2.2.1
      rfl (by decide!) EACCES rfl).trans (by decide!),
   ((drm_dev_has_rights_outcomes Config.initial world_cards_stderr_full 0 1000
      [1000]).2.2.2.2.2.2.1 2 (by decide) (by decide!) (by decide!)).trans (by decide!),
   ((drm_dev_has_rights_outcomes Config.debug_on world_cards_stderr_full 1 1000 [1000]).2.2.1
      rfl (by decide!) EACCES rfl).trans (by decide!),
   ((drm_dev_has_rights_outcomes Config.debug_on world_cards_stderr_full 0 1000
      [1000]).2.2.2.2.2.2.1 1 (by decide) (by decide!) (by decide!)).trans (by decide!)⟩

end Xinit
